import Mathlib

/-!
# BLE garage door receiver (nrf52/main.c, nrf52/storage.c)

A shallow embedding of the receiver firmware: the message authenticator, the
replay guard in `handle_adv_data`, the parser of advertising reports, the
transmitter store on top of the flash data storage (FDS) and the 100 ms tick
handler with the button state machine.

External collaborators are parameters of the embedding:
* HMAC-SHA-256 (`mbedtls_md_hmac`) and the master secret `gd_rxm_key` are the
  fields of `Crypto`;
* the flash data storage is the record list `Fds`; whether the storage accepts
  a write, update, delete or garbage collection request is a Boolean input of
  the function that issues the request; an accepted request is complete when
  the function returns (the wait for `gds_flash_access_done` ends), and a
  record that `fds_record_find` returned can be opened;
* the level of the button pin is an input of the tick handler;
* the queue `gd_adv_fifo` is the list of its items; nothing takes items out
  while `handle_adv_report` runs;
* the critical regions of the main loop are stated on the sequence of accesses
  to the shared variables that each function performs; the interleaving with
  the tick interrupt is not modelled.
-/

namespace GarageDoor

/-! ## Messages and the authenticator -/

/-- An octet (`uint8_t`). -/
abbrev Byte := Fin 256

/-- The 128 bit UUID of a transmitter, `ble_uuid128_t` (little endian). -/
structure ble_uuid128_t where
  uuid128 : Fin 16 → Byte
  deriving DecidableEq

/-- The message of a transmitter: `gd_message_t`. -/
structure gd_message_t where
  /-- command byte -/
  cmd : Byte
  /-- sequence number (big endian) -/
  seq_no : Fin 3 → Byte
  /-- first four octets of HMAC-SHA256 -/
  digest : Fin 4 → Byte
  deriving DecidableEq

/-- One unit of work of the main loop: `gd_adv_data_t`. -/
structure gd_adv_data_t where
  uuid : ble_uuid128_t
  msg : gd_message_t
  rssi : Int
  deriving DecidableEq

/-- The cryptographic collaborators: `hmac key data` stands for
`mbedtls_md_hmac` with SHA-256 (32 octets of output), `gd_rxm_key` for the
master secret of `rxm_key.h` (`GD_RXM_KEY_SIZE` = 20 octets). -/
structure Crypto where
  hmac : List Byte → List Byte → (Fin 32 → Byte)
  gd_rxm_key : Fin 20 → Byte

/-- The test `memcmp(a, b, n) == 0` on two buffers of `n` octets. -/
def memcmp_eq {n : Nat} (a b : Fin n → Byte) : Bool :=
  (List.finRange n).all (fun i => decide (a i = b i))

/-- The loop of `gd_calculate_tx_key` that stores `uuid128[i]` at
`uuid_be[15 - i]` for `i = 0 .. 15` (the buffer starts out zeroed here). -/
def uuid_to_be (tx_uuid : ble_uuid128_t) : Fin 16 → Byte :=
  (List.finRange 16).foldl
    (fun uuid_be i => Function.update uuid_be ⟨15 - i.val, by omega⟩ (tx_uuid.uuid128 i))
    (fun _ => 0)

/-- The key of a transmitter: `gd_calculate_tx_key`. -/
def gd_calculate_tx_key (c : Crypto) (tx_uuid : ble_uuid128_t) : Fin 32 → Byte :=
  c.hmac (List.ofFn c.gd_rxm_key) (List.ofFn (uuid_to_be tx_uuid))

/-- The first four octets of a message, `(uint8_t *)msg, 4`. -/
def msg_header (msg : gd_message_t) : List Byte :=
  [msg.cmd, msg.seq_no 0, msg.seq_no 1, msg.seq_no 2]

/-- The digest check: `gd_msg_check_digest`. -/
def gd_msg_check_digest (c : Crypto) (uuid : ble_uuid128_t) (msg : gd_message_t) : Bool :=
  let key := gd_calculate_tx_key c uuid
  let digest := c.hmac (List.ofFn key) (msg_header msg)
  memcmp_eq (fun i : Fin 4 => digest ⟨i.val, by omega⟩) msg.digest

/-- The sequence number of a message: `gd_msg_get_seqno`. -/
def gd_msg_get_seqno (msg : gd_message_t) : Nat :=
  ((msg.seq_no 0).val <<< 16) ||| ((msg.seq_no 1).val <<< 8) ||| (msg.seq_no 2).val

/-! ## The flash data storage -/

def GDS_TXINFO_FILE_ID : Nat := 0x1000
def GDS_TXREC_KEY : Nat := 0x0001
def GDS_SEQNOREC_KEY : Nat := 0x0002

/-- The data of a transmitter record: `gds_transmitter_record_t`. -/
structure gds_transmitter_record_t where
  uuid : ble_uuid128_t
  deriving DecidableEq

/-- The data of a sequence number record: `gds_seq_no_record_t`. -/
structure gds_seq_no_record_t where
  /-- record ID of transmitter record -/
  txrecid : Nat
  seq_no : Nat
  deriving DecidableEq

/-- The data of a stored record. The firmware stores a
`gds_transmitter_record_t` under `GDS_TXREC_KEY` and a `gds_seq_no_record_t`
under `GDS_SEQNOREC_KEY`, so the record key is read off the kind of data. -/
inductive FdsData where
  | tx (r : gds_transmitter_record_t)
  | seq (r : gds_seq_no_record_t)
  deriving DecidableEq

/-- A valid record of the flash data storage. -/
structure FdsRecord where
  record_id : Nat
  file_id : Nat
  data : FdsData
  deriving DecidableEq

/-- The record key. -/
def FdsRecord.key (r : FdsRecord) : Nat :=
  match r.data with
  | .tx _ => GDS_TXREC_KEY
  | .seq _ => GDS_SEQNOREC_KEY

/-- Words a record occupies in flash: three header words and the data
(`sizeof(recdata) / sizeof(uint32_t)`). -/
def FdsRecord.words (r : FdsRecord) : Nat :=
  match r.data with
  | .tx _ => 3 + 4
  | .seq _ => 3 + 2

/-- The calls of the FDS interface the firmware issues. -/
inductive FdsCall where
  | record_find (file_id key : Nat)
  | record_open (record_id : Nat)
  | record_close (record_id : Nat)
  | record_write (file_id key : Nat)
  | record_update (record_id : Nat)
  | file_delete (file_id : Nat)
  | stat
  | gc
  deriving DecidableEq

/-- The flash data storage: the valid records in the order in which
`fds_record_find` enumerates them, the counter the storage takes record IDs
from, the words that garbage collection can reclaim, and the history of the
calls of the FDS interface. -/
structure Fds where
  records : List FdsRecord
  next_id : Nat
  freeable_words : Nat
  calls : List FdsCall
  deriving DecidableEq

/-- The empty storage. -/
def Fds.empty : Fds := ⟨[], 1, 0, []⟩

/-- Note a call of the FDS interface. -/
def Fds.call (f : Fds) (c : FdsCall) : Fds :=
  { f with calls := f.calls ++ [c] }

/-- `fds_record_write`: when the storage accepts the request (`ok`), a new
record with a fresh record ID is appended. Returns `r == NRF_SUCCESS`, the
descriptor (record ID) of the new record and the storage. -/
def fds_record_write (ok : Bool) (f : Fds) (file_id : Nat) (data : FdsData) :
    Bool × Nat × Fds :=
  let f1 := f.call (.record_write file_id (FdsRecord.key ⟨0, file_id, data⟩))
  if ok then
    (true, f.next_id,
      { f1 with records := f.records ++ [⟨f.next_id, file_id, data⟩], next_id := f.next_id + 1 })
  else
    (false, 0, f1)

/-- `fds_record_update`: when the storage accepts the request (`ok`), the new
data is written as a new record and the record named by the descriptor is
invalidated, its words becoming reclaimable. -/
def fds_record_update (ok : Bool) (f : Fds) (desc : FdsRecord) (file_id : Nat)
    (data : FdsData) : Bool × Fds :=
  let f1 := f.call (.record_update desc.record_id)
  if ok then
    (true,
      { f1 with
        records := f.records.filter (fun r => r.record_id ≠ desc.record_id)
          ++ [⟨f.next_id, file_id, data⟩]
        next_id := f.next_id + 1
        freeable_words := f.freeable_words
          + ((f.records.filter (fun r => r.record_id = desc.record_id)).map FdsRecord.words).sum })
  else
    (false, f1)

/-- `fds_file_delete`: when the storage accepts the request (`ok`), every
record of the file is invalidated. -/
def fds_file_delete (ok : Bool) (f : Fds) (file_id : Nat) : Bool × Fds :=
  let f1 := f.call (.file_delete file_id)
  if ok then
    (true,
      { f1 with
        records := f.records.filter (fun r => r.file_id ≠ file_id)
        freeable_words := f.freeable_words
          + ((f.records.filter (fun r => r.file_id = file_id)).map FdsRecord.words).sum })
  else
    (false, f1)

/-- `fds_stat`: when the statistics can be read (`ok`), the reclaimable
words. -/
def fds_stat (ok : Bool) (f : Fds) : Option Nat × Fds :=
  (if ok then some f.freeable_words else none, f.call .stat)

/-- `fds_gc`: when the storage accepts the request (`ok`), the invalidated
records are reclaimed; the valid records stay. -/
def fds_gc (ok : Bool) (f : Fds) : Bool × Fds :=
  let f1 := f.call .gc
  if ok then (true, { f1 with freeable_words := 0 }) else (false, f1)

/-! ## The transmitter store (storage.c) -/

/-- The `while (fds_record_find(GDS_TXINFO_FILE_ID, GDS_TXREC_KEY, ...))` loop
of `gds_get_tx_rec` over the records that the find token has not passed yet:
records of another file or key are skipped by `fds_record_find`, a transmitter
record is opened, compared with `uuid` and closed. Returns the descriptor of
the first transmitter record with this UUID and the FDS calls made. -/
def gds_get_tx_rec_loop (uuid : ble_uuid128_t) :
    List FdsRecord → Option FdsRecord × List FdsCall
  | [] => (none, [.record_find GDS_TXINFO_FILE_ID GDS_TXREC_KEY])
  | r :: ftok =>
    match r.data with
    | .tx tx =>
      if r.file_id = GDS_TXINFO_FILE_ID then
        let cs := [FdsCall.record_find GDS_TXINFO_FILE_ID GDS_TXREC_KEY,
          .record_open r.record_id, .record_close r.record_id]
        if memcmp_eq uuid.uuid128 tx.uuid.uuid128 then
          (some r, cs)
        else
          let res := gds_get_tx_rec_loop uuid ftok
          (res.1, cs ++ res.2)
      else gds_get_tx_rec_loop uuid ftok
    | .seq _ => gds_get_tx_rec_loop uuid ftok

/-- Get the descriptor of the transmitter record of a UUID: `gds_get_tx_rec`
(`some desc` for `true` with `*record_desc = desc`, `none` for `false`). -/
def gds_get_tx_rec (f : Fds) (uuid : ble_uuid128_t) : Option FdsRecord × Fds :=
  let res := gds_get_tx_rec_loop uuid f.records
  (res.1, { f with calls := f.calls ++ res.2 })

/-- Get the record ID of the transmitter record of a UUID:
`gds_get_tx_recid`. -/
def gds_get_tx_recid (f : Fds) (uuid : ble_uuid128_t) : Option Nat × Fds :=
  match gds_get_tx_rec f uuid with
  | (some record_desc, f1) => (some record_desc.record_id, f1)
  | (none, f1) => (none, f1)

/-- Create a transmitter record if there is none: `gds_create_tx_record`.
`ok` tells whether the storage accepts the write request. -/
def gds_create_tx_record (ok : Bool) (f : Fds) (uuid : ble_uuid128_t) : Bool × Fds :=
  match gds_get_tx_rec f uuid with
  | (some _, f1) => (true, f1)
  | (none, f1) =>
    let recdata : gds_transmitter_record_t := ⟨uuid⟩
    let (r, _, f2) := fds_record_write ok f1 GDS_TXINFO_FILE_ID (.tx recdata)
    if !r then (false, f2) else (true, f2)

/-- The `while (fds_record_find(GDS_TXINFO_FILE_ID, GDS_SEQNOREC_KEY, ...))`
loop of `gds_find_seq_no_record`. -/
def gds_find_seq_no_record_loop (txrecid : Nat) :
    List FdsRecord → Option FdsRecord × List FdsCall
  | [] => (none, [.record_find GDS_TXINFO_FILE_ID GDS_SEQNOREC_KEY])
  | r :: ftok =>
    match r.data with
    | .seq sn =>
      if r.file_id = GDS_TXINFO_FILE_ID then
        let cs := [FdsCall.record_find GDS_TXINFO_FILE_ID GDS_SEQNOREC_KEY,
          .record_open r.record_id, .record_close r.record_id]
        let id := sn.txrecid
        if id = txrecid then
          (some r, cs)
        else
          let res := gds_find_seq_no_record_loop txrecid ftok
          (res.1, cs ++ res.2)
      else gds_find_seq_no_record_loop txrecid ftok
    | .tx _ => gds_find_seq_no_record_loop txrecid ftok

/-- Find the sequence number record of a transmitter record:
`gds_find_seq_no_record`. -/
def gds_find_seq_no_record (f : Fds) (txrecid : Nat) : Option FdsRecord × Fds :=
  let res := gds_find_seq_no_record_loop txrecid f.records
  (res.1, { f with calls := f.calls ++ res.2 })

/-- The `while` loop of `gds_get_seq_no`; `seq_no` is the current value of
`*seq_no`. -/
def gds_get_seq_no_loop (txrecid : Nat) (seq_no : Nat) :
    List FdsRecord → Nat × List FdsCall
  | [] => (seq_no, [.record_find GDS_TXINFO_FILE_ID GDS_SEQNOREC_KEY])
  | r :: ftok =>
    match r.data with
    | .seq sn =>
      if r.file_id = GDS_TXINFO_FILE_ID then
        let cs := [FdsCall.record_find GDS_TXINFO_FILE_ID GDS_SEQNOREC_KEY,
          .record_open r.record_id, .record_close r.record_id]
        if sn.txrecid = txrecid then
          (sn.seq_no, cs)
        else
          let res := gds_get_seq_no_loop txrecid seq_no ftok
          (res.1, cs ++ res.2)
      else gds_get_seq_no_loop txrecid seq_no ftok
    | .tx _ => gds_get_seq_no_loop txrecid seq_no ftok

/-- Get the stored sequence number of a transmitter: `gds_get_seq_no`.
Returns the result, `*seq_no` and the storage. -/
def gds_get_seq_no (f : Fds) (uuid : ble_uuid128_t) : Bool × Nat × Fds :=
  let seq_no := 0
  match gds_get_tx_recid f uuid with
  | (none, f1) => (false, seq_no, f1)
  | (some txrecid, f1) =>
    let res := gds_get_seq_no_loop txrecid seq_no f1.records
    (true, res.1, { f1 with calls := f1.calls ++ res.2 })

/-- Set the sequence number of a transmitter: `gds_set_seq_no`. `ok` tells
whether the storage accepts the update or write request. -/
def gds_set_seq_no (ok : Bool) (f : Fds) (uuid : ble_uuid128_t) (seq_no : Nat) : Bool × Fds :=
  match gds_get_tx_recid f uuid with
  | (none, f1) => (false, f1)
  | (some txrecid, f1) =>
    let recdata : gds_seq_no_record_t := { txrecid := txrecid, seq_no := seq_no }
    match gds_find_seq_no_record f1 txrecid with
    | (some record_desc, f2) =>
      let (_, f3) := fds_record_update ok f2 record_desc GDS_TXINFO_FILE_ID (.seq recdata)
      (true, f3)
    | (none, f2) =>
      let (_, _, f3) := fds_record_write ok f2 GDS_TXINFO_FILE_ID (.seq recdata)
      (true, f3)

/-- Clear all transmitter related information: `gds_clear`. -/
def gds_clear (ok : Bool) (f : Fds) : Fds :=
  (fds_file_delete ok f GDS_TXINFO_FILE_ID).2

/-- The constants of the FDS configuration (`sdk_config.h`). -/
structure FdsConfig where
  FDS_VIRTUAL_PAGES : Nat
  FDS_VIRTUAL_PAGE_SIZE : Nat

def GDS_GC_THRESHOLD (cfg : FdsConfig) : Nat :=
  (cfg.FDS_VIRTUAL_PAGES - 2) * cfg.FDS_VIRTUAL_PAGE_SIZE

/-- Run the storage tasks: `gds_tasks`. `stat_ok` tells whether `fds_stat`
succeeds, `gc_ok` whether the storage accepts the garbage collection. -/
def gds_tasks (cfg : FdsConfig) (stat_ok gc_ok : Bool) (f : Fds) : Fds :=
  match fds_stat stat_ok f with
  | (some freeable_words, f1) =>
    if freeable_words > GDS_GC_THRESHOLD cfg then (fds_gc gc_ok f1).2 else f1
  | (none, f1) => f1

/-! ## Timers, button and relay (main.c) -/

def GD_LEARN_DURATION_MS : Nat := 10 * 1000
def GD_RX_DISABLE_DURATION_MS : Nat := 1000

/-- The commands of the button: `gd_button_cmd_t`. -/
inductive gd_button_cmd_t where
  | GD_BUTCMD_NONE
  | GD_BUTCMD_LEARN
  | GD_BUTCMD_CLEAR
  /-- to indicate that command value was read -/
  | GD_BUTCMD_CONSUMED
  deriving DecidableEq, Repr

open gd_button_cmd_t

/-- The variables of main.c, the level of the relay pin and the storage.
`unsigned` is 32 bits wide, `timer_ticks` is a `uint64_t`. -/
structure State where
  timer_ticks : Nat
  gd_relay_timer : Nat
  gd_button_presssed_ctr : Nat
  gd_learn_ctr : Nat
  gd_rx_disable_ctr : Nat
  gd_button_cmd : gd_button_cmd_t
  /-- the output level of `GD_PINNO_RELAY` -/
  relay_pin : Bool
  fds : Fds
  deriving DecidableEq

/-- The state after reset, with the storage `f`. -/
def State.init (f : Fds) : State :=
  { timer_ticks := 0, gd_relay_timer := 0, gd_button_presssed_ctr := 0, gd_learn_ctr := 0,
    gd_rx_disable_ctr := 0, gd_button_cmd := GD_BUTCMD_NONE, relay_pin := false, fds := f }

def timer_ticks_from_ms (ms : Nat) : Nat :=
  ms / 100

/-- The button part of `timer_tick_handler`: the `switch (gd_button_cmd)`.
`button` is the value of `nrf_gpio_pin_read(GD_PINNO_BUTTON)`. -/
def button_tick (button : Bool) (s : State) : State :=
  match s.gd_button_cmd with
  | GD_BUTCMD_NONE =>
    if button then
      let ctr := (s.gd_button_presssed_ctr + 1) % 2 ^ 32
      let s1 := { s with gd_button_presssed_ctr := ctr }
      if ctr ≥ timer_ticks_from_ms 5000 then { s1 with gd_button_cmd := GD_BUTCMD_CLEAR } else s1
    else
      let s1 :=
        if s.gd_button_presssed_ctr ≥ timer_ticks_from_ms 100 then
          { s with gd_button_cmd := GD_BUTCMD_LEARN }
        else s
      { s1 with gd_button_presssed_ctr := 0 }
  | GD_BUTCMD_CONSUMED =>
    if !button then { s with gd_button_presssed_ctr := 0, gd_button_cmd := GD_BUTCMD_NONE } else s
  | _ => s

/-- The handler of the 100 ms timer: `timer_tick_handler`. `button` is the
value of `nrf_gpio_pin_read(GD_PINNO_BUTTON)`. -/
def timer_tick_handler (button : Bool) (s : State) : State :=
  let s1 : State := { s with timer_ticks := (s.timer_ticks + 1) % 2 ^ 64 }
  let s2 : State :=
    if s1.gd_relay_timer > 0 then
      let t : State := { s1 with gd_relay_timer := s1.gd_relay_timer - 1 }
      if t.gd_relay_timer = 0 then { t with relay_pin := false } else t
    else s1
  let s3 : State :=
    if s2.gd_learn_ctr > 0 then { s2 with gd_learn_ctr := s2.gd_learn_ctr - 1 } else s2
  let s4 : State :=
    if s3.gd_rx_disable_ctr > 0 then
      { s3 with gd_rx_disable_ctr := s3.gd_rx_disable_ctr - 1 }
    else s3
  button_tick button s4

/-- Read the command of the button: `gd_get_button`. -/
def gd_get_button (s : State) : gd_button_cmd_t × State :=
  let r := s.gd_button_cmd
  match r with
  | GD_BUTCMD_NONE => (r, s)
  | GD_BUTCMD_CONSUMED => (GD_BUTCMD_NONE, s)
  | _ => (r, { s with gd_button_cmd := GD_BUTCMD_CONSUMED })

def gd_activate_relay (s : State) : State :=
  { s with gd_relay_timer := timer_ticks_from_ms 1000, relay_pin := true }

def gd_is_relay_active (s : State) : Bool :=
  decide (s.gd_relay_timer > 0)

def gd_is_learning (s : State) : Bool :=
  decide (s.gd_learn_ctr > 0)

def gd_is_rx_disabled (s : State) : Bool :=
  decide (s.gd_rx_disable_ctr > 0)

/-! ## The command processor (main.c) -/

/-- Process one advertisement: `handle_adv_data`. `tx_ok` tells whether the
storage accepts the write request of `gds_create_tx_record`, `seq_ok` whether
it accepts the update or write request of `gds_set_seq_no`. -/
def handle_adv_data (c : Crypto) (tx_ok seq_ok : Bool) (s : State) (ad : gd_adv_data_t) :
    State :=
  if gd_is_rx_disabled s then s
  else
    let seq_no := gd_msg_get_seqno ad.msg
    let digest_ok := gd_msg_check_digest c ad.uuid ad.msg
    if !digest_ok then
      { s with gd_rx_disable_ctr := timer_ticks_from_ms GD_RX_DISABLE_DURATION_MS }
    else
      match gds_get_seq_no s.fds ad.uuid with
      | (true, stored_seq_no, f1) =>
        if seq_no > stored_seq_no then
          let (_, f2) := gds_set_seq_no seq_ok f1 ad.uuid seq_no
          gd_activate_relay { s with fds := f2 }
        else { s with fds := f1 }
      | (false, _, f1) =>
        if gd_is_learning { s with fds := f1 } then
          let (_, f2) := gds_create_tx_record tx_ok f1 ad.uuid
          let (_, f3) := gds_set_seq_no seq_ok f2 ad.uuid seq_no
          { s with fds := f3 }
        else { s with fds := f1 }

/-! ## The parser of advertising reports (main.c) -/

def AD_TYPE_SERVICE_DATA128 : Nat := 0x21

/-- The number of items that `gd_adv_fifo` holds
(`NRF_ATFIFO_DEF(gd_adv_fifo, gd_adv_data_t, 2)`). -/
def GD_ADV_FIFO_SIZE : Nat := 2

/-- The octet `data[i]` of the report buffer. -/
def read_octet (data : List Byte) (i : Nat) : Byte :=
  data.getD i 0

/-- What `handle_adv_report` works on: the items of `gd_adv_fifo`, oldest
first, and the indices of `data` that were read, in order. -/
structure ReportState where
  fifo : List gd_adv_data_t
  reads : List Nat
  deriving DecidableEq

/-- The record that `handle_adv_report` copies out of the element whose type
octet is `data[ndx]`: the UUID from `&data[ndx + 1]`, the message from
`&data[ndx + 17]`. -/
def adv_data_at (data : List Byte) (ndx : Nat) (rssi : Int) : gd_adv_data_t :=
  { uuid := ⟨fun i => read_octet data (ndx + 1 + i.val)⟩
    msg :=
      { cmd := read_octet data (ndx + 17)
        seq_no := fun i => read_octet data (ndx + 18 + i.val)
        digest := fun i => read_octet data (ndx + 21 + i.val) }
    rssi := rssi }

/-- The `case AD_TYPE_SERVICE_DATA128` of `handle_adv_report` for an element
of the length `l` whose type octet is `data[ndx]`: an element of 25 octets is
put into the queue when `nrf_atfifo_item_alloc` finds a free item. -/
def handle_service_data128 (data : List Byte) (rssi : Int) (l ndx : Nat)
    (st : ReportState) : ReportState :=
  if l ≠ 25 then st
  else if st.fifo.length < GD_ADV_FIFO_SIZE then
    { fifo := st.fifo ++ [adv_data_at data ndx rssi]
      reads := st.reads ++ (List.range 24).map (fun i => ndx + 1 + i) }
  else st

/-- The `while (ndx < len)` loop of `handle_adv_report`; `fuel` bounds the
number of iterations, `none` says that it did not suffice. -/
def handle_adv_report_loop (data : List Byte) (len : Nat) (rssi : Int) :
    Nat → Nat → ReportState → Option ReportState
  | 0, ndx, st => if ndx < len then none else some st
  | fuel + 1, ndx, st =>
    if ndx < len then
      let l := (read_octet data ndx).val
      let st1 : ReportState := { st with reads := st.reads ++ [ndx] }
      let ndx1 := ndx + 1
      if ndx1 + l > len then some st1
      else
        let t := read_octet data ndx1
        let st2 : ReportState := { st1 with reads := st1.reads ++ [ndx1] }
        let st3 :=
          if t.val = AD_TYPE_SERVICE_DATA128 then handle_service_data128 data rssi l ndx1 st2
          else st2
        handle_adv_report_loop data len rssi fuel (ndx1 + l) st3
    else some st

/-- Parse an advertising report: `handle_adv_report`. Every iteration of the
loop moves `ndx` forward, so `len` iterations suffice. -/
def handle_adv_report (data : List Byte) (len : Nat) (rssi : Int)
    (fifo : List gd_adv_data_t) : Option ReportState :=
  handle_adv_report_loop data len rssi len 0 ⟨fifo, []⟩

/-! ## The accesses of the main loop to the variables of the tick handler (main.c) -/

/-- The variables that the main loop shares with `timer_tick_handler`. -/
inductive SharedVar where
  | timer_ticks
  | gd_relay_timer
  | gd_button_presssed_ctr
  | gd_learn_ctr
  | gd_rx_disable_ctr
  | gd_button_cmd
  deriving DecidableEq

/-- What the code of the main loop does with the shared variables, in program
order: `CRITICAL_REGION_ENTER()`, `CRITICAL_REGION_EXIT()`, the read and the
write of a variable. -/
inductive Access where
  | enter
  | exit
  | read (v : SharedVar)
  | write (v : SharedVar)
  deriving DecidableEq

/-- The accesses of `timer_now`. -/
def timer_now_accesses : List Access :=
  [.enter, .read .timer_ticks, .exit]

/-- The accesses of `timer_delay_ms`: the first call of `timer_now` and the
`polls` calls in the condition of the `while` loop. -/
def timer_delay_ms_accesses (polls : Nat) : List Access :=
  timer_now_accesses ++ (List.replicate polls timer_now_accesses).flatten

/-- The accesses of `gd_get_button`. -/
def gd_get_button_accesses (s : State) : List Access :=
  [.enter, .read .gd_button_cmd]
    ++ (match s.gd_button_cmd with
      | GD_BUTCMD_NONE => []
      | GD_BUTCMD_CONSUMED => []
      | _ => [.write .gd_button_cmd])
    ++ [.exit]

/-- The accesses of `gd_activate_relay`. -/
def gd_activate_relay_accesses : List Access :=
  [.enter, .write .gd_relay_timer, .exit]

/-- The accesses of `gd_is_relay_active`. -/
def gd_is_relay_active_accesses : List Access :=
  [.enter, .read .gd_relay_timer, .exit]

/-- The accesses of `gd_is_learning`. -/
def gd_is_learning_accesses : List Access :=
  [.enter, .read .gd_learn_ctr, .exit]

/-- The accesses of `gd_is_rx_disabled`. -/
def gd_is_rx_disabled_accesses : List Access :=
  [.enter, .read .gd_rx_disable_ctr, .exit]

/-- The accesses of `handle_adv_data`, along the branch that it takes. -/
def handle_adv_data_accesses (c : Crypto) (s : State) (ad : gd_adv_data_t) : List Access :=
  gd_is_rx_disabled_accesses ++
    if gd_is_rx_disabled s then []
    else if !gd_msg_check_digest c ad.uuid ad.msg then
      [.enter, .write .gd_rx_disable_ctr, .exit]
    else
      match gds_get_seq_no s.fds ad.uuid with
      | (true, stored_seq_no, _) =>
        if gd_msg_get_seqno ad.msg > stored_seq_no then gd_activate_relay_accesses else []
      | (false, _, _) => gd_is_learning_accesses

/-- The accesses of the LED control of the main loop:
`if (gd_is_learning()) gd_set_led((gd_learn_ctr / timer_ticks_from_ms(500)) & 0x01);
else gd_set_led(gd_is_relay_active());`. -/
def main_led_accesses (s : State) : List Access :=
  gd_is_learning_accesses ++
    if gd_is_learning s then [.read .gd_learn_ctr] else gd_is_relay_active_accesses

/-- The accesses of the `switch (gd_get_button())` of the main loop. In the
case `GD_BUTCMD_CLEAR` the 60 calls of `timer_delay_ms` poll `timer_now`
`polls` times each. -/
def main_button_accesses (polls : Nat) (s : State) : List Access :=
  gd_get_button_accesses s ++
    match (gd_get_button s).1 with
    | GD_BUTCMD_LEARN => [.enter, .write .gd_learn_ctr, .exit]
    | GD_BUTCMD_CLEAR => (List.replicate 60 (timer_delay_ms_accesses polls)).flatten
    | _ => []

/-! ## The store as a record list: lookups, invariant, reachable states -/

/-- The record is a transmitter record of the store with the UUID `u`. -/
def is_tx_of (u : ble_uuid128_t) (r : FdsRecord) : Bool :=
  decide (r.file_id = GDS_TXINFO_FILE_ID ∧ r.data = .tx ⟨u⟩)

/-- The record is a sequence number record of the store for the transmitter
record `txrecid`. -/
def is_seq_of (txrecid : Nat) (r : FdsRecord) : Bool :=
  match r.data with
  | .seq sn => decide (r.file_id = GDS_TXINFO_FILE_ID ∧ sn.txrecid = txrecid)
  | .tx _ => false

/-- The sequence number a record holds (0 for a transmitter record). -/
def seq_of (r : FdsRecord) : Nat :=
  match r.data with
  | .seq sn => sn.seq_no
  | .tx _ => 0

/-- The stored sequence number of a transmitter, read off the record list:
the value of the first sequence number record that names the first
transmitter record with this UUID (0 if there is none), `none` for an unknown
transmitter. -/
def lookup_seq (l : List FdsRecord) (u : ble_uuid128_t) : Option Nat :=
  (l.find? (is_tx_of u)).map
    (fun t => ((l.find? (is_seq_of t.record_id)).map seq_of).getD 0)

/-- The record list after an accepted `gds_set_seq_no` for the transmitter
record `t`. -/
def set_records (l : List FdsRecord) (next_id : Nat) (t : FdsRecord) (v : Nat) :
    List FdsRecord :=
  match l.find? (is_seq_of t.record_id) with
  | some x =>
    l.filter (fun r => r.record_id ≠ x.record_id)
      ++ [⟨next_id, GDS_TXINFO_FILE_ID, .seq ⟨t.record_id, v⟩⟩]
  | none => l ++ [⟨next_id, GDS_TXINFO_FILE_ID, .seq ⟨t.record_id, v⟩⟩]

/-- The invariant of the record list: record IDs were taken from the counter
and name one record each, a transmitter record has at most one sequence
number record in the store, and a sequence number record names a record ID
that was handed out. -/
structure StoreInv (l : List FdsRecord) (next_id : Nat) : Prop where
  id_lt : ∀ r ∈ l, r.record_id < next_id
  id_inj : ∀ r1 ∈ l, ∀ r2 ∈ l, r1.record_id = r2.record_id → r1 = r2
  seq_inj : ∀ id, ∀ r1 ∈ l, ∀ r2 ∈ l,
    is_seq_of id r1 = true → is_seq_of id r2 = true → r1 = r2
  seq_ref : ∀ id, ∀ r ∈ l, is_seq_of id r = true → id < next_id

/-- The new sequence number record of `gds_set_seq_no`. -/
def new_seq (next_id txrecid v : Nat) : FdsRecord :=
  ⟨next_id, GDS_TXINFO_FILE_ID, .seq ⟨txrecid, v⟩⟩

/-- The new transmitter record of `gds_create_tx_record`. -/
def new_tx (next_id : Nat) (u : ble_uuid128_t) : FdsRecord :=
  ⟨next_id, GDS_TXINFO_FILE_ID, .tx ⟨u⟩⟩

/-- The invariant of the storage. -/
def Fds.inv (f : Fds) : Prop := StoreInv f.records f.next_id

/-- The stored sequence number of a transmitter (`none` if unknown). -/
def Fds.lookup (f : Fds) (u : ble_uuid128_t) : Option Nat := lookup_seq f.records u

/-- The storage states the firmware can reach from the empty storage through
the functions of storage.c; the history of FDS calls is arbitrary. -/
inductive StoreReachable : Fds → Prop where
  | empty : StoreReachable Fds.empty
  | history (f : Fds) (cs : List FdsCall) :
      StoreReachable f → StoreReachable { f with calls := cs }
  | create_tx_record (ok : Bool) (f : Fds) (u : ble_uuid128_t) :
      StoreReachable f → StoreReachable (gds_create_tx_record ok f u).2
  | get_seq_no (f : Fds) (u : ble_uuid128_t) :
      StoreReachable f → StoreReachable (gds_get_seq_no f u).2.2
  | set_seq_no (ok : Bool) (f : Fds) (u : ble_uuid128_t) (v : Nat) :
      StoreReachable f → StoreReachable (gds_set_seq_no ok f u v).2
  | clear (ok : Bool) (f : Fds) : StoreReachable f → StoreReachable (gds_clear ok f)
  | tasks (cfg : FdsConfig) (stat_ok gc_ok : Bool) (f : Fds) :
      StoreReachable f → StoreReachable (gds_tasks cfg stat_ok gc_ok f)

/-- The number of write and update requests in a history of FDS calls. -/
def write_requests (cs : List FdsCall) : Nat :=
  (cs.filter (fun c => match c with
    | .record_write _ _ => true
    | .record_update _ => true
    | _ => false)).length

/-! ## Traces of events -/

/-- The `GD_BUTCMD_LEARN` case of the main loop: arm the learn window. -/
def gd_start_learning (s : State) : State :=
  { s with gd_learn_ctr := timer_ticks_from_ms GD_LEARN_DURATION_MS }

/-- What happens to the receiver between two advertisements, a factory clear
left out: an advertisement is handled, the timer ticks, the main loop runs the
storage tasks, polls the button or arms the learn window. -/
inductive Event where
  | adv (tx_ok seq_ok : Bool) (ad : gd_adv_data_t)
  | tick (button : Bool)
  | tasks (stat_ok gc_ok : Bool)
  | poll
  | learn

/-- The state after an event. -/
def step (c : Crypto) (cfg : FdsConfig) (s : State) : Event → State
  | .adv tx_ok seq_ok ad => handle_adv_data c tx_ok seq_ok s ad
  | .tick button => timer_tick_handler button s
  | .tasks stat_ok gc_ok => { s with fds := gds_tasks cfg stat_ok gc_ok s.fds }
  | .poll => (gd_get_button s).2
  | .learn => gd_start_learning s

/-- The state after a sequence of events. -/
def run (c : Crypto) (cfg : FdsConfig) : List Event → State → State
  | [], s => s
  | e :: es, s => run c cfg es (step c cfg s e)

/-- The state after the timer ticks with the given button levels. -/
def ticks : List Bool → State → State
  | [], s => s
  | b :: bs, s => ticks bs (timer_tick_handler b s)

/-! ## The button: ticks and calls of `gd_get_button` -/

/-- What happens to the button variables: the timer ticks with a level of the
button pin, or the main loop calls `gd_get_button`. -/
inductive ButtonEvent where
  | tick (button : Bool)
  | poll
  deriving DecidableEq

/-- The values that the calls of `gd_get_button` return along a sequence of
ticks and calls, in order. -/
def button_run : List ButtonEvent → State → List gd_button_cmd_t
  | [], _ => []
  | .tick b :: es, s => button_run es (timer_tick_handler b s)
  | .poll :: es, s => (gd_get_button s).1 :: button_run es (gd_get_button s).2

/-- The number of ticks in a sequence of button events. -/
def n_ticks : List ButtonEvent → Nat
  | [] => 0
  | .tick _ :: es => n_ticks es + 1
  | .poll :: es => n_ticks es

/-- There is a call of `gd_get_button` after the `n`-th tick. -/
def polled_after : Nat → List ButtonEvent → Bool
  | _, [] => false
  | 0, .poll :: _ => true
  | 0, .tick _ :: es => polled_after 0 es
  | n + 1, .tick _ :: es => polled_after n es
  | n + 1, .poll :: es => polled_after (n + 1) es

/-- No two transmitter records of the store carry the same UUID. -/
def TxUnique (l : List FdsRecord) : Prop :=
  l.Pairwise (fun r1 r2 => ∀ u, is_tx_of u r1 = true → is_tx_of u r2 = true → False)

/-- No two sequence number records of the store name the same transmitter
record. -/
def SeqUnique (l : List FdsRecord) : Prop :=
  l.Pairwise (fun r1 r2 => ∀ id, is_seq_of id r1 = true → is_seq_of id r2 = true → False)

/-- The links between the records of the store: transmitter records have
different UUIDs, sequence number records name different transmitter records,
and the transmitter record that a sequence number record names exists. -/
structure StoreLinks (l : List FdsRecord) : Prop where
  tx_unique : TxUnique l
  seq_unique : SeqUnique l
  seq_has_tx : ∀ q ∈ l, ∀ id, is_seq_of id q = true →
    ∃ t ∈ l, t.record_id = id ∧ ∃ u, is_tx_of u t = true

/-- The store after a sequence of calls of `gds_tasks`; every call comes with
the outcomes of `fds_stat` and `fds_gc`. -/
def gds_tasks_calls (cfg : FdsConfig) : List (Bool × Bool) → Fds → Fds
  | [], f => f
  | p :: ps, f => gds_tasks_calls cfg ps (gds_tasks cfg p.1 p.2 f)

/-- The octets of an advertising data element with the given body (the type
octet and the data): the length octet and the body. -/
def ad_element (body : List Byte) : List Byte :=
  (Fin.ofNat body.length : Byte) :: body

/-- The octets of a sequence of advertising data elements. -/
def ad_encode : List (List Byte) → List Byte
  | [] => []
  | body :: bodies => ad_element body ++ ad_encode bodies

/-- The record that an advertising data element stands for: an element of 25
octets with the type octet 0x21 carries the 16 octets of the UUID and the 8
octets of the message (command, 3 sequence octets, 4 digest octets); other
elements carry no record. -/
def ad_record (rssi : Int) (body : List Byte) : Option gd_adv_data_t :=
  if body.length = 25 ∧ body.head? = some 0x21 then
    some
      { uuid := ⟨fun i => body.getD (1 + i.val) 0⟩
        msg :=
          { cmd := body.getD 17 0
            seq_no := fun i => body.getD (18 + i.val) 0
            digest := fun i => body.getD (21 + i.val) 0 }
        rssi := rssi }
  else none

/-- Put a record into the queue if it has a free slot. -/
def adv_fifo_put (fifo : List gd_adv_data_t) (ad : gd_adv_data_t) : List gd_adv_data_t :=
  if fifo.length < GD_ADV_FIFO_SIZE then fifo ++ [ad] else fifo

/-- Where the parser stops: at the end of the report or at a length octet
that exceeds the octets that remain. -/
def ad_stop (tail : List Byte) : Prop :=
  tail = [] ∨ ∃ (l : Byte) (r : List Byte), tail = l :: r ∧ l.val > r.length

/-- Every read and write of a shared variable in the sequence lies between a
`CRITICAL_REGION_ENTER()` and its `CRITICAL_REGION_EXIT()`; `depth` counts the
regions that are open at the start. -/
def in_critical_regions : Nat → List Access → Bool
  | _, [] => true
  | depth, .enter :: as => in_critical_regions (depth + 1) as
  | depth, .exit :: as => in_critical_regions (depth - 1) as
  | depth, .read _ :: as => decide (depth > 0) && in_critical_regions depth as
  | depth, .write _ :: as => decide (depth > 0) && in_critical_regions depth as

/-! ## Example data -/

/-- A stand-in for HMAC-SHA-256 in the examples. -/
def ex_hmac (k d : List Byte) : Fin 32 → Byte :=
  fun i => ⟨((k.map Fin.val).sum + 3 * (d.map Fin.val).sum + i.val) % 256,
    Nat.mod_lt _ (by decide)⟩

def ex_crypto : Crypto := ⟨ex_hmac, fun i => ⟨i.val + 1, by omega⟩⟩

def ex_uuid_a : ble_uuid128_t := ⟨fun i => ⟨i.val, by omega⟩⟩

def ex_uuid_b : ble_uuid128_t := ⟨fun i => ⟨2 * i.val + 1, by omega⟩⟩

/-- A message of the transmitter `u` with a digest that verifies. -/
def ex_msg (u : ble_uuid128_t) (cmd b0 b1 b2 : Byte) : gd_message_t :=
  let h := ex_crypto.hmac (List.ofFn (gd_calculate_tx_key ex_crypto u)) [cmd, b0, b1, b2]
  ⟨cmd, ![b0, b1, b2], fun i => h ⟨i.val, by omega⟩⟩

/-- A message of the transmitter `u` whose digest does not verify. -/
def ex_msg_bad (u : ble_uuid128_t) (cmd b0 b1 b2 : Byte) : gd_message_t :=
  { ex_msg u cmd b0 b1 b2 with digest := fun i => (ex_msg u cmd b0 b1 b2).digest i + 1 }

/-- The store after transmitter A was enrolled with the sequence number 5. -/
def ex_fds_a5 : Fds :=
  (gds_set_seq_no true (gds_create_tx_record true Fds.empty ex_uuid_a).2 ex_uuid_a 5).2

/-- An idle receiver that knows transmitter A with the sequence number 5. -/
def ex_state_a5 : State := State.init ex_fds_a5

/-- An idle receiver with an empty store in learn mode. -/
def ex_state_learn : State := { State.init Fds.empty with gd_learn_ctr := 100 }

/-- The advertisement of transmitter A with the sequence number 6 and a valid
digest. -/
def ex_adv_a6 : gd_adv_data_t := ⟨ex_uuid_a, ex_msg ex_uuid_a 1 0 0 6, 0⟩

/-- The advertisement of transmitter A with the sequence number 6 and a wrong
digest. -/
def ex_adv_a6_bad : gd_adv_data_t := ⟨ex_uuid_a, ex_msg_bad ex_uuid_a 1 0 0 6, 0⟩

/-- The advertisement of transmitter B with the sequence number 9 and a valid
digest. -/
def ex_adv_b9 : gd_adv_data_t := ⟨ex_uuid_b, ex_msg ex_uuid_b 1 0 0 9, 0⟩

def ex_cfg : FdsConfig := ⟨3, 1024⟩

/-- Later events of a receiver: a tick, the learn window is started,
transmitter B enrolls, storage tasks, a tick with the button pressed. -/
def ex_events : List Event :=
  [.tick false, .learn, .adv true true ex_adv_b9, .tasks true true, .poll, .tick true]

/-- The idle receiver of the examples. -/
def ex_state_idle : State := State.init Fds.empty

/-- A long press: 52 ticks with the button pressed, a call of `gd_get_button`,
one more tick with the button pressed and the release. -/
def ex_long_press : List Event :=
  List.replicate 52 (.tick true) ++ [.poll, .tick true, .tick false]

/-- The store after transmitter A was registered and before a sequence number
was stored for it. -/
def ex_fds_a_new : Fds := (gds_create_tx_record true Fds.empty ex_uuid_a).2

/-- An idle receiver after the factory clear of the store that knew
transmitter A. -/
def ex_state_cleared : State := State.init (gds_clear true ex_fds_a5)

/-- The body of the service data element of transmitter A with the sequence
number 6: the type octet, the UUID and the message. -/
def ex_body_a6 : List Byte :=
  0x21 :: (List.ofFn ex_uuid_a.uuid128 ++ (msg_header ex_adv_a6.msg
    ++ List.ofFn ex_adv_a6.msg.digest))

/-- A report: the service data element of transmitter A, a flags element and a
length octet that exceeds the rest of the report. -/
def ex_report : List Byte :=
  ad_encode [ex_body_a6, [1, 6]] ++ [9, 0]

/-- The store that knows transmitter A with the sequence number 5 and
transmitter B with the sequence number 9. -/
def ex_fds_a5_b9 : Fds :=
  (gds_set_seq_no true (gds_create_tx_record true ex_fds_a5 ex_uuid_b).2 ex_uuid_b 9).2

/-- Later events of a receiver without a factory clear: a tick, the storage
tasks, a call of `gd_get_button` and two more ticks. -/
def ex_replay_events : List Event :=
  [.tick false, .tasks true true, .poll, .tick false, .tick true]

/-! ## Theorems -/

/-! ### Lookups in the record list -/

theorem memcmp_eq_iff {n : Nat} (a b : Fin n → Byte) : memcmp_eq a b = true ↔ a = b := by
  unfold memcmp_eq
  rw [List.all_eq_true]
  constructor
  · intro h
    funext i
    have := h i (List.mem_finRange i)
    simpa using this
  · rintro rfl i _
    simp

theorem memcmp_uuid_iff (u v : ble_uuid128_t) :
    memcmp_eq u.uuid128 v.uuid128 = true ↔ u = v := by
  rw [memcmp_eq_iff]
  cases u; cases v; simp

theorem gds_get_tx_rec_loop_fst (u : ble_uuid128_t) (l : List FdsRecord) :
    (gds_get_tx_rec_loop u l).1 = l.find? (is_tx_of u) := by
  induction l with
  | nil => rfl
  | cons r l ih =>
    obtain ⟨id, file, d⟩ := r
    cases d with
    | seq sn => simp [gds_get_tx_rec_loop, is_tx_of, List.find?, ih]
    | tx t =>
      obtain ⟨v⟩ := t
      by_cases hf : file = GDS_TXINFO_FILE_ID
      · by_cases hu : u = v
        · subst hu
          have := (memcmp_uuid_iff u u).2 rfl
          simp [gds_get_tx_rec_loop, is_tx_of, List.find?, hf, this]
        · have hm : memcmp_eq u.uuid128 v.uuid128 = false := by
            rw [Bool.eq_false_iff]; intro h; exact hu ((memcmp_uuid_iff u v).1 h)
          have hvu : ¬ v = u := fun h => hu h.symm
          simp [gds_get_tx_rec_loop, is_tx_of, List.find?, hf, hm, ih, hvu]
      · simp [gds_get_tx_rec_loop, is_tx_of, List.find?, hf, ih]

theorem gds_find_seq_no_record_loop_fst (id : Nat) (l : List FdsRecord) :
    (gds_find_seq_no_record_loop id l).1 = l.find? (is_seq_of id) := by
  induction l with
  | nil => rfl
  | cons r l ih =>
    obtain ⟨rid, file, d⟩ := r
    cases d with
    | tx t => simp [gds_find_seq_no_record_loop, is_seq_of, List.find?, ih]
    | seq sn =>
      by_cases hf : file = GDS_TXINFO_FILE_ID
      · by_cases hi : sn.txrecid = id
        · simp [gds_find_seq_no_record_loop, is_seq_of, List.find?, hf, hi]
        · simp [gds_find_seq_no_record_loop, is_seq_of, List.find?, hf, hi, ih]
      · simp [gds_find_seq_no_record_loop, is_seq_of, List.find?, hf, ih]

theorem gds_get_seq_no_loop_fst (id d : Nat) (l : List FdsRecord) :
    (gds_get_seq_no_loop id d l).1 = ((l.find? (is_seq_of id)).map seq_of).getD d := by
  induction l with
  | nil => rfl
  | cons r l ih =>
    obtain ⟨rid, file, dt⟩ := r
    cases dt with
    | tx t => simp [gds_get_seq_no_loop, is_seq_of, List.find?, ih]
    | seq sn =>
      by_cases hf : file = GDS_TXINFO_FILE_ID
      · by_cases hi : sn.txrecid = id
        · simp [gds_get_seq_no_loop, is_seq_of, seq_of, List.find?, hf, hi]
        · simp [gds_get_seq_no_loop, is_seq_of, List.find?, hf, hi, ih]
      · simp [gds_get_seq_no_loop, is_seq_of, List.find?, hf, ih]

theorem gds_get_tx_rec_eq (f : Fds) (u : ble_uuid128_t) :
    gds_get_tx_rec f u = (f.records.find? (is_tx_of u),
      { f with calls := f.calls ++ (gds_get_tx_rec_loop u f.records).2 }) := by
  rw [gds_get_tx_rec, gds_get_tx_rec_loop_fst]

theorem gds_get_tx_recid_eq (f : Fds) (u : ble_uuid128_t) :
    gds_get_tx_recid f u = ((f.records.find? (is_tx_of u)).map (fun t => t.record_id),
      { f with calls := f.calls ++ (gds_get_tx_rec_loop u f.records).2 }) := by
  rw [gds_get_tx_recid, gds_get_tx_rec_eq]
  generalize f.records.find? (is_tx_of u) = o
  cases o <;> rfl

theorem gds_find_seq_no_record_eq (f : Fds) (id : Nat) :
    gds_find_seq_no_record f id = (f.records.find? (is_seq_of id),
      { f with calls := f.calls ++ (gds_find_seq_no_record_loop id f.records).2 }) := by
  rw [gds_find_seq_no_record, gds_find_seq_no_record_loop_fst]

theorem gds_get_seq_no_fst (f : Fds) (u : ble_uuid128_t) :
    (gds_get_seq_no f u).1 = (lookup_seq f.records u).isSome := by
  rw [gds_get_seq_no, gds_get_tx_recid_eq, lookup_seq]
  generalize f.records.find? (is_tx_of u) = o
  cases o <;> rfl

theorem gds_get_seq_no_val (f : Fds) (u : ble_uuid128_t) :
    (gds_get_seq_no f u).2.1 = (lookup_seq f.records u).getD 0 := by
  rw [gds_get_seq_no, gds_get_tx_recid_eq, lookup_seq]
  generalize f.records.find? (is_tx_of u) = o
  cases o with
  | none => rfl
  | some t => simp [gds_get_seq_no_loop_fst]

theorem gds_get_seq_no_store (f : Fds) (u : ble_uuid128_t) :
    (gds_get_seq_no f u).2.2.records = f.records ∧
    (gds_get_seq_no f u).2.2.next_id = f.next_id ∧
    (gds_get_seq_no f u).2.2.freeable_words = f.freeable_words := by
  rw [gds_get_seq_no, gds_get_tx_recid_eq]
  generalize f.records.find? (is_tx_of u) = o
  cases o <;> simp

theorem gds_set_seq_no_records (ok : Bool) (f : Fds) (u : ble_uuid128_t) (v : Nat) :
    (gds_set_seq_no ok f u v).2.records =
      match f.records.find? (is_tx_of u) with
      | none => f.records
      | some t => if ok then set_records f.records f.next_id t v else f.records := by
  rw [gds_set_seq_no, gds_get_tx_recid_eq]
  generalize f.records.find? (is_tx_of u) = o
  cases o with
  | none => rfl
  | some t =>
    simp only [Option.map_some', gds_find_seq_no_record_eq, set_records]
    generalize f.records.find? (is_seq_of t.record_id) = o2
    cases o2 <;> cases ok <;> simp [fds_record_write, fds_record_update, Fds.call]

theorem gds_set_seq_no_next_id (ok : Bool) (f : Fds) (u : ble_uuid128_t) (v : Nat) :
    (gds_set_seq_no ok f u v).2.next_id =
      match f.records.find? (is_tx_of u) with
      | none => f.next_id
      | some _ => if ok then f.next_id + 1 else f.next_id := by
  rw [gds_set_seq_no, gds_get_tx_recid_eq]
  generalize f.records.find? (is_tx_of u) = o
  cases o with
  | none => rfl
  | some t =>
    simp only [Option.map_some', gds_find_seq_no_record_eq]
    generalize f.records.find? (is_seq_of t.record_id) = o2
    cases o2 <;> cases ok <;> simp [fds_record_write, fds_record_update, Fds.call]

theorem gds_create_tx_record_records (ok : Bool) (f : Fds) (u : ble_uuid128_t) :
    (gds_create_tx_record ok f u).2.records =
      match f.records.find? (is_tx_of u) with
      | some _ => f.records
      | none =>
        if ok then f.records ++ [⟨f.next_id, GDS_TXINFO_FILE_ID, .tx ⟨u⟩⟩] else f.records := by
  rw [gds_create_tx_record, gds_get_tx_rec_eq]
  generalize f.records.find? (is_tx_of u) = o
  cases o with
  | some t => rfl
  | none => cases ok <;> simp [fds_record_write, Fds.call]

theorem gds_create_tx_record_next_id (ok : Bool) (f : Fds) (u : ble_uuid128_t) :
    (gds_create_tx_record ok f u).2.next_id =
      match f.records.find? (is_tx_of u) with
      | some _ => f.next_id
      | none => if ok then f.next_id + 1 else f.next_id := by
  rw [gds_create_tx_record, gds_get_tx_rec_eq]
  generalize f.records.find? (is_tx_of u) = o
  cases o with
  | some t => rfl
  | none => cases ok <;> simp [fds_record_write, Fds.call]

/-! ### The invariant of the record list -/

theorem find_filter_of_imp {α : Type} (p q : α → Bool) (l : List α)
    (h : ∀ r ∈ l, q r = true → p r = true) : (l.filter p).find? q = l.find? q := by
  induction l with
  | nil => rfl
  | cons a l ih =>
    have ih2 := ih (fun r hr => h r (List.mem_cons_of_mem a hr))
    by_cases hq : q a = true
    · have hp := h a (List.mem_cons_self a l) hq
      simp [List.filter, hp, List.find?, hq]
    · by_cases hp : p a = true
      · simp [List.filter, hp, List.find?, hq, ih2]
      · simp [List.filter, hp, List.find?, hq, ih2]

theorem find_eq_none_of_forall {α : Type} (q : α → Bool) (l : List α)
    (h : ∀ r ∈ l, q r = false) : l.find? q = none := by
  rw [List.find?_eq_none]
  intro r hr
  simp [h r hr]

theorem is_seq_of_tx_false (id : Nat) (r : FdsRecord) (u : ble_uuid128_t)
    (h : is_tx_of u r = true) : is_seq_of id r = false := by
  obtain ⟨rid, file, d⟩ := r
  cases d with
  | tx t => rfl
  | seq sn => simp [is_tx_of] at h

theorem is_tx_of_inj (u w : ble_uuid128_t) (r : FdsRecord)
    (hu : is_tx_of u r = true) (hw : is_tx_of w r = true) : u = w := by
  simp only [is_tx_of, decide_eq_true_eq] at hu hw
  have := hu.2.symm.trans hw.2
  simpa using this

theorem is_seq_of_inj (i j : Nat) (r : FdsRecord)
    (hi : is_seq_of i r = true) (hj : is_seq_of j r = true) : i = j := by
  obtain ⟨rid, file, d⟩ := r
  cases d with
  | tx t => simp [is_seq_of] at hi
  | seq sn =>
    simp only [is_seq_of, decide_eq_true_eq] at hi hj
    exact hi.2.symm.trans hj.2

theorem set_records_eq (l : List FdsRecord) (n : Nat) (t : FdsRecord) (v : Nat) :
    set_records l n t v =
      (match l.find? (is_seq_of t.record_id) with
        | some x => l.filter (fun r => r.record_id ≠ x.record_id)
        | none => l) ++ [new_seq n t.record_id v] := by
  unfold set_records new_seq
  cases l.find? (is_seq_of t.record_id) <;> rfl

theorem set_records_find_tx (l : List FdsRecord) (n : Nat) (t : FdsRecord) (v : Nat)
    (w : ble_uuid128_t) (hinv : StoreInv l n) :
    (set_records l n t v).find? (is_tx_of w) = l.find? (is_tx_of w) := by
  rw [set_records_eq, List.find?_append]
  have hnew : [new_seq n t.record_id v].find? (is_tx_of w) = none := by
    simp [new_seq, is_tx_of, List.find?]
  rw [hnew, Option.or_none]
  cases hx : l.find? (is_seq_of t.record_id) with
  | none => rfl
  | some x =>
    apply find_filter_of_imp
    intro r hr hq
    have hxm := List.mem_of_find?_eq_some hx
    have hxs := List.find?_some hx
    simp only [ne_eq, decide_not, Bool.not_eq_eq_eq_not, Bool.not_true, decide_eq_false_iff_not]
    intro he
    have := hinv.id_inj r hr x hxm he
    subst this
    rw [is_seq_of_tx_false _ _ _ hq] at hxs
    exact Bool.noConfusion hxs

theorem set_records_find_seq_same (l : List FdsRecord) (n : Nat) (t : FdsRecord) (v : Nat)
    (hinv : StoreInv l n) :
    (set_records l n t v).find? (is_seq_of t.record_id) = some (new_seq n t.record_id v) := by
  rw [set_records_eq, List.find?_append]
  have hnew : [new_seq n t.record_id v].find? (is_seq_of t.record_id)
      = some (new_seq n t.record_id v) := by
    simp [new_seq, is_seq_of, List.find?]
  rw [hnew]
  cases hx : l.find? (is_seq_of t.record_id) with
  | none => rw [hx, Option.none_or]
  | some x =>
    have hxm := List.mem_of_find?_eq_some hx
    have hxs := List.find?_some hx
    have : (l.filter (fun r => r.record_id ≠ x.record_id)).find? (is_seq_of t.record_id)
        = none := by
      apply find_eq_none_of_forall
      intro r hr
      rw [List.mem_filter] at hr
      rw [Bool.eq_false_iff]
      intro hs
      have := hinv.seq_inj _ r hr.1 x hxm hs hxs
      subst this
      simp at hr
    rw [this, Option.none_or]

theorem set_records_find_seq_other (l : List FdsRecord) (n : Nat) (t : FdsRecord) (v : Nat)
    (id : Nat) (hid : id ≠ t.record_id) (hinv : StoreInv l n) :
    (set_records l n t v).find? (is_seq_of id) = l.find? (is_seq_of id) := by
  rw [set_records_eq, List.find?_append]
  have hnew : [new_seq n t.record_id v].find? (is_seq_of id) = none := by
    have : ¬ t.record_id = id := fun h => hid h.symm
    simp [new_seq, is_seq_of, List.find?, this]
  rw [hnew, Option.or_none]
  cases hx : l.find? (is_seq_of t.record_id) with
  | none => rfl
  | some x =>
    apply find_filter_of_imp
    intro r hr hq
    have hxm := List.mem_of_find?_eq_some hx
    have hxs := List.find?_some hx
    simp only [ne_eq, decide_not, Bool.not_eq_eq_eq_not, Bool.not_true, decide_eq_false_iff_not]
    intro he
    have := hinv.id_inj r hr x hxm he
    subst this
    exact hid (is_seq_of_inj _ _ _ hq hxs)

theorem lookup_set_same (l : List FdsRecord) (n : Nat) (t : FdsRecord) (v : Nat)
    (u : ble_uuid128_t) (hinv : StoreInv l n) (ht : l.find? (is_tx_of u) = some t) :
    lookup_seq (set_records l n t v) u = some v := by
  unfold lookup_seq
  rw [set_records_find_tx l n t v u hinv, ht]
  simp only [Option.map_some']
  rw [set_records_find_seq_same l n t v hinv]
  simp [new_seq, seq_of]

theorem lookup_set_other (l : List FdsRecord) (n : Nat) (t : FdsRecord) (v : Nat)
    (u w : ble_uuid128_t) (hinv : StoreInv l n) (ht : l.find? (is_tx_of u) = some t)
    (hw : w ≠ u) :
    lookup_seq (set_records l n t v) w = lookup_seq l w := by
  unfold lookup_seq
  rw [set_records_find_tx l n t v w hinv]
  cases hx : l.find? (is_tx_of w) with
  | none => rfl
  | some t2 =>
    simp only [Option.map_some']
    have hne : t2.record_id ≠ t.record_id := by
      intro he
      have := hinv.id_inj t2 (List.mem_of_find?_eq_some hx) t (List.mem_of_find?_eq_some ht) he
      subst this
      exact hw (is_tx_of_inj w u t2 (List.find?_some hx) (List.find?_some ht))
    rw [set_records_find_seq_other l n t v t2.record_id hne hinv]

theorem StoreInv.set (l : List FdsRecord) (n : Nat) (t : FdsRecord) (v : Nat)
    (hinv : StoreInv l n) (ht : t ∈ l) : StoreInv (set_records l n t v) (n + 1) := by
  have hsub : ∀ r ∈ set_records l n t v, r ∈ l ∨ r = new_seq n t.record_id v := by
    intro r hr
    rw [set_records_eq, List.mem_append] at hr
    rcases hr with hr | hr
    · left
      cases hx : l.find? (is_seq_of t.record_id) with
      | none => rw [hx] at hr; exact hr
      | some x => rw [hx] at hr; exact (List.mem_filter.1 hr).1
    · right; simpa using hr
  have hold : ∀ r ∈ set_records l n t v, r ∈ l → is_seq_of t.record_id r = false := by
    intro r hr hrl
    have h1 := set_records_find_seq_same l n t v hinv
    rw [set_records_eq] at hr h1
    rw [Bool.eq_false_iff]
    intro hs
    cases hx : l.find? (is_seq_of t.record_id) with
    | none =>
      rw [List.find?_eq_none] at hx
      exact hx r hrl hs
    | some x =>
      rw [hx] at hr
      have hxm := List.mem_of_find?_eq_some hx
      have hxs := List.find?_some hx
      have := hinv.seq_inj _ r hrl x hxm hs hxs
      subst this
      rw [List.mem_append, List.mem_filter] at hr
      rcases hr with hr | hr
      · simp at hr
      · have hlt := hinv.id_lt r hrl
        have : r = new_seq n t.record_id v := by simpa using hr
        rw [this] at hlt
        simp [new_seq] at hlt
  have hnew_seq : ∀ id, is_seq_of id (new_seq n t.record_id v) = true → id = t.record_id := by
    intro id h
    simp only [new_seq, is_seq_of, decide_eq_true_eq] at h
    exact h.2.symm
  constructor
  · intro r hr
    rcases hsub r hr with h | h
    · exact Nat.lt_succ_of_lt (hinv.id_lt r h)
    · subst h; simp [new_seq]
  · intro r1 h1 r2 h2 he
    rcases hsub r1 h1 with a | a <;> rcases hsub r2 h2 with b | b
    · exact hinv.id_inj r1 a r2 b he
    · have := hinv.id_lt r1 a
      subst b
      simp only [new_seq] at he
      omega
    · have := hinv.id_lt r2 b
      subst a
      simp only [new_seq] at he
      omega
    · rw [a, b]
  · intro id r1 h1 r2 h2 s1 s2
    rcases hsub r1 h1 with a | a <;> rcases hsub r2 h2 with b | b
    · exact hinv.seq_inj id r1 a r2 b s1 s2
    · subst b
      have := hnew_seq id s2
      subst this
      rw [hold r1 h1 a] at s1
      exact Bool.noConfusion s1
    · subst a
      have := hnew_seq id s1
      subst this
      rw [hold r2 h2 b] at s2
      exact Bool.noConfusion s2
    · rw [a, b]
  · intro id r hr hs
    rcases hsub r hr with a | a
    · exact Nat.lt_succ_of_lt (hinv.seq_ref id r a hs)
    · subst a
      have := hnew_seq id hs
      subst this
      exact Nat.lt_succ_of_lt (hinv.id_lt t ht)

theorem StoreInv.create (l : List FdsRecord) (n : Nat) (u : ble_uuid128_t)
    (hinv : StoreInv l n) : StoreInv (l ++ [new_tx n u]) (n + 1) := by
  have hsub : ∀ r ∈ l ++ [new_tx n u], r ∈ l ∨ r = new_tx n u := by
    intro r hr
    simpa using hr
  have hns : ∀ id, is_seq_of id (new_tx n u) = false := fun id => rfl
  constructor
  · intro r hr
    rcases hsub r hr with h | h
    · exact Nat.lt_succ_of_lt (hinv.id_lt r h)
    · subst h; simp [new_tx]
  · intro r1 h1 r2 h2 he
    rcases hsub r1 h1 with a | a <;> rcases hsub r2 h2 with b | b
    · exact hinv.id_inj r1 a r2 b he
    · have := hinv.id_lt r1 a
      subst b
      simp only [new_tx] at he
      omega
    · have := hinv.id_lt r2 b
      subst a
      simp only [new_tx] at he
      omega
    · rw [a, b]
  · intro id r1 h1 r2 h2 s1 s2
    rcases hsub r1 h1 with a | a <;> rcases hsub r2 h2 with b | b
    · exact hinv.seq_inj id r1 a r2 b s1 s2
    · subst b; rw [hns] at s2; exact Bool.noConfusion s2
    · subst a; rw [hns] at s1; exact Bool.noConfusion s1
    · rw [a, b]
  · intro id r hr hs
    rcases hsub r hr with a | a
    · exact Nat.lt_succ_of_lt (hinv.seq_ref id r a hs)
    · subst a; rw [hns] at hs; exact Bool.noConfusion hs

theorem StoreInv.filter (l : List FdsRecord) (n : Nat) (p : FdsRecord → Bool)
    (hinv : StoreInv l n) : StoreInv (l.filter p) n := by
  have hsub : ∀ r ∈ l.filter p, r ∈ l := fun r hr => (List.mem_filter.1 hr).1
  exact ⟨fun r hr => hinv.id_lt r (hsub r hr),
    fun r1 h1 r2 h2 => hinv.id_inj r1 (hsub r1 h1) r2 (hsub r2 h2),
    fun id r1 h1 r2 h2 => hinv.seq_inj id r1 (hsub r1 h1) r2 (hsub r2 h2),
    fun id r hr => hinv.seq_ref id r (hsub r hr)⟩

theorem StoreInv.nil : StoreInv [] 1 :=
  ⟨fun _ h => by simp at h, fun _ h => by simp at h, fun _ _ h => by simp at h,
    fun _ _ h => by simp at h⟩

theorem create_find_tx_other (l : List FdsRecord) (n : Nat) (u w : ble_uuid128_t)
    (hw : w ≠ u) : (l ++ [new_tx n u]).find? (is_tx_of w) = l.find? (is_tx_of w) := by
  rw [List.find?_append]
  have : [new_tx n u].find? (is_tx_of w) = none := by
    have : ¬ u = w := fun h => hw h.symm
    simp [new_tx, is_tx_of, List.find?, this]
  rw [this, Option.or_none]

theorem create_find_tx_same (l : List FdsRecord) (n : Nat) (u : ble_uuid128_t)
    (hu : l.find? (is_tx_of u) = none) :
    (l ++ [new_tx n u]).find? (is_tx_of u) = some (new_tx n u) := by
  rw [List.find?_append, hu, Option.none_or]
  simp [new_tx, is_tx_of, List.find?]

theorem create_find_seq (l : List FdsRecord) (n : Nat) (u : ble_uuid128_t) (id : Nat) :
    (l ++ [new_tx n u]).find? (is_seq_of id) = l.find? (is_seq_of id) := by
  rw [List.find?_append]
  have : [new_tx n u].find? (is_seq_of id) = none := by
    simp [new_tx, is_seq_of, List.find?]
  rw [this, Option.or_none]

theorem lookup_create_other (l : List FdsRecord) (n : Nat) (u w : ble_uuid128_t)
    (hw : w ≠ u) : lookup_seq (l ++ [new_tx n u]) w = lookup_seq l w := by
  unfold lookup_seq
  rw [create_find_tx_other l n u w hw]
  simp only [create_find_seq]

/-! ### The storage functions on the store -/

theorem gds_get_seq_no_eq (f : Fds) (u : ble_uuid128_t) :
    gds_get_seq_no f u = ((f.lookup u).isSome, (f.lookup u).getD 0, (gds_get_seq_no f u).2.2) := by
  have h1 := gds_get_seq_no_fst f u
  have h2 := gds_get_seq_no_val f u
  ext
  · exact h1
  · exact h2
  · rfl

theorem gds_get_seq_no_inv (f : Fds) (u : ble_uuid128_t) (h : f.inv) :
    (gds_get_seq_no f u).2.2.inv := by
  obtain ⟨h1, h2, _⟩ := gds_get_seq_no_store f u
  unfold Fds.inv
  rw [h1, h2]
  exact h

theorem gds_get_seq_no_lookup (f : Fds) (u w : ble_uuid128_t) :
    (gds_get_seq_no f u).2.2.lookup w = f.lookup w := by
  unfold Fds.lookup
  rw [(gds_get_seq_no_store f u).1]

theorem gds_set_seq_no_inv (ok : Bool) (f : Fds) (u : ble_uuid128_t) (v : Nat) (h : f.inv) :
    (gds_set_seq_no ok f u v).2.inv := by
  unfold Fds.inv
  rw [gds_set_seq_no_records, gds_set_seq_no_next_id]
  cases hx : f.records.find? (is_tx_of u) with
  | none => exact h
  | some t =>
    cases ok
    · exact h
    · exact StoreInv.set f.records f.next_id t v h (List.mem_of_find?_eq_some hx)

theorem gds_set_seq_no_lookup_same (f : Fds) (u : ble_uuid128_t) (v : Nat) (h : f.inv)
    (hk : (f.lookup u).isSome = true) : (gds_set_seq_no true f u v).2.lookup u = some v := by
  unfold Fds.lookup at *
  rw [gds_set_seq_no_records]
  cases hx : f.records.find? (is_tx_of u) with
  | none => simp [lookup_seq, hx] at hk
  | some t => exact lookup_set_same f.records f.next_id t v u h hx

theorem gds_set_seq_no_lookup_other (ok : Bool) (f : Fds) (u w : ble_uuid128_t) (v : Nat)
    (h : f.inv) (hw : w ≠ u) : (gds_set_seq_no ok f u v).2.lookup w = f.lookup w := by
  unfold Fds.lookup
  rw [gds_set_seq_no_records]
  cases hx : f.records.find? (is_tx_of u) with
  | none => rfl
  | some t =>
    cases ok
    · rfl
    · exact lookup_set_other f.records f.next_id t v u w h hx hw

theorem gds_set_seq_no_rejected (f : Fds) (u : ble_uuid128_t) (v : Nat) :
    (gds_set_seq_no false f u v).2.records = f.records := by
  rw [gds_set_seq_no_records]
  cases f.records.find? (is_tx_of u) <;> rfl

theorem gds_set_seq_no_unknown (ok : Bool) (f : Fds) (u : ble_uuid128_t) (v : Nat)
    (hk : f.lookup u = none) : (gds_set_seq_no ok f u v).2.records = f.records := by
  rw [gds_set_seq_no_records]
  cases hx : f.records.find? (is_tx_of u) with
  | none => rfl
  | some t => simp [Fds.lookup, lookup_seq, hx] at hk

theorem gds_create_tx_record_inv (ok : Bool) (f : Fds) (u : ble_uuid128_t) (h : f.inv) :
    (gds_create_tx_record ok f u).2.inv := by
  unfold Fds.inv
  rw [gds_create_tx_record_records, gds_create_tx_record_next_id]
  cases hx : f.records.find? (is_tx_of u) with
  | some t => exact h
  | none =>
    cases ok
    · exact h
    · exact StoreInv.create f.records f.next_id u h

theorem gds_create_tx_record_lookup_other (ok : Bool) (f : Fds) (u w : ble_uuid128_t)
    (hw : w ≠ u) : (gds_create_tx_record ok f u).2.lookup w = f.lookup w := by
  unfold Fds.lookup
  rw [gds_create_tx_record_records]
  cases hx : f.records.find? (is_tx_of u) with
  | some t => rfl
  | none =>
    cases ok
    · rfl
    · exact lookup_create_other f.records f.next_id u w hw

theorem gds_create_tx_record_known (f : Fds) (u : ble_uuid128_t) :
    ((gds_create_tx_record true f u).2.lookup u).isSome = true := by
  unfold Fds.lookup lookup_seq
  rw [gds_create_tx_record_records]
  cases hx : f.records.find? (is_tx_of u) with
  | some t => simp [hx]
  | none =>
    have := create_find_tx_same f.records f.next_id u hx
    simp only [new_tx] at this
    simp [this]

/-! ### The command processor -/

theorem handle_adv_data_eq (c : Crypto) (tx_ok seq_ok : Bool) (s : State) (ad : gd_adv_data_t) :
    handle_adv_data c tx_ok seq_ok s ad =
      if s.gd_rx_disable_ctr > 0 then s
      else if gd_msg_check_digest c ad.uuid ad.msg = false then
        { s with gd_rx_disable_ctr := 10 }
      else
        match s.fds.lookup ad.uuid with
        | some stored =>
          if gd_msg_get_seqno ad.msg > stored then
            gd_activate_relay { s with fds :=
              (gds_set_seq_no seq_ok (gds_get_seq_no s.fds ad.uuid).2.2 ad.uuid
                (gd_msg_get_seqno ad.msg)).2 }
          else { s with fds := (gds_get_seq_no s.fds ad.uuid).2.2 }
        | none =>
          if s.gd_learn_ctr > 0 then
            { s with fds :=
              (gds_set_seq_no seq_ok
                (gds_create_tx_record tx_ok (gds_get_seq_no s.fds ad.uuid).2.2 ad.uuid).2
                ad.uuid (gd_msg_get_seqno ad.msg)).2 }
          else { s with fds := (gds_get_seq_no s.fds ad.uuid).2.2 } := by
  unfold handle_adv_data
  by_cases hrx : s.gd_rx_disable_ctr > 0
  · simp [gd_is_rx_disabled, hrx]
  · cases hd : gd_msg_check_digest c ad.uuid ad.msg
    · simp [gd_is_rx_disabled, hrx, timer_ticks_from_ms, GD_RX_DISABLE_DURATION_MS]
    · rw [gds_get_seq_no_eq]
      cases hl : s.fds.lookup ad.uuid with
      | none => simp [gd_is_rx_disabled, hrx, gd_is_learning]
      | some stored => simp [gd_is_rx_disabled, hrx]

theorem mem_tx_lookup (f : Fds) (u : ble_uuid128_t)
    (h : ∃ r ∈ f.records, r.file_id = GDS_TXINFO_FILE_ID ∧ r.data = .tx ⟨u⟩) :
    (f.lookup u).isSome = true := by
  obtain ⟨r, hr, h1, h2⟩ := h
  unfold Fds.lookup lookup_seq
  rw [Option.isSome_map']
  rw [List.find?_isSome]
  exact ⟨r, hr, by simp [is_tx_of, h1, h2]⟩

theorem gds_clear_inv (ok : Bool) (f : Fds) (h : f.inv) : (gds_clear ok f).inv := by
  unfold Fds.inv gds_clear fds_file_delete
  cases ok
  · exact h
  · exact StoreInv.filter f.records f.next_id _ h

theorem gds_tasks_store (cfg : FdsConfig) (stat_ok gc_ok : Bool) (f : Fds) :
    (gds_tasks cfg stat_ok gc_ok f).records = f.records ∧
    (gds_tasks cfg stat_ok gc_ok f).next_id = f.next_id := by
  unfold gds_tasks fds_stat fds_gc Fds.call
  cases stat_ok <;> cases gc_ok <;> simp <;> split <;> simp

theorem gds_tasks_inv (cfg : FdsConfig) (stat_ok gc_ok : Bool) (f : Fds) (h : f.inv) :
    (gds_tasks cfg stat_ok gc_ok f).inv := by
  obtain ⟨h1, h2⟩ := gds_tasks_store cfg stat_ok gc_ok f
  unfold Fds.inv
  rw [h1, h2]
  exact h

theorem StoreReachable.inv {f : Fds} (h : StoreReachable f) : f.inv := by
  induction h with
  | empty => exact StoreInv.nil
  | history f cs _ ih => exact ih
  | create_tx_record ok f u _ ih => exact gds_create_tx_record_inv ok f u ih
  | get_seq_no f u _ ih => exact gds_get_seq_no_inv f u ih
  | set_seq_no ok f u v _ ih => exact gds_set_seq_no_inv ok f u v ih
  | clear ok f _ ih => exact gds_clear_inv ok f ih
  | tasks cfg a b f _ ih => exact gds_tasks_inv cfg a b f ih

theorem handle_adv_data_accept_core (c : Crypto) (tx_ok : Bool) (s : State) (ad : gd_adv_data_t)
    (stored : Nat) (hinv : s.fds.inv) (hrx : s.gd_rx_disable_ctr = 0)
    (hdig : gd_msg_check_digest c ad.uuid ad.msg = true)
    (hl : s.fds.lookup ad.uuid = some stored) (hgt : gd_msg_get_seqno ad.msg > stored) :
    (handle_adv_data c tx_ok true s ad).fds.lookup ad.uuid = some (gd_msg_get_seqno ad.msg) ∧
    (handle_adv_data c tx_ok true s ad).gd_relay_timer = 10 ∧
    (handle_adv_data c tx_ok true s ad).relay_pin = true := by
  rw [handle_adv_data_eq]
  simp only [hrx, Nat.lt_irrefl, ↓reduceIte, hdig, Bool.true_eq_false, hl, hgt]
  refine ⟨?_, rfl, rfl⟩
  simp only [gd_activate_relay]
  apply gds_set_seq_no_lookup_same _ _ _ (gds_get_seq_no_inv _ _ hinv)
  rw [gds_get_seq_no_lookup, hl]
  rfl

theorem lookup_to_get (f : Fds) (u : ble_uuid128_t) (v : Nat) (h : f.lookup u = some v) :
    (gds_get_seq_no f u).1 = true ∧ (gds_get_seq_no f u).2.1 = v := by
  rw [gds_get_seq_no_fst, gds_get_seq_no_val]
  unfold Fds.lookup at h
  simp [h]

theorem get_to_lookup (f : Fds) (u : ble_uuid128_t) (v : Nat)
    (h1 : (gds_get_seq_no f u).1 = true) (h2 : (gds_get_seq_no f u).2.1 = v) :
    f.lookup u = some v := by
  rw [gds_get_seq_no_fst] at h1
  rw [gds_get_seq_no_val] at h2
  unfold Fds.lookup
  cases hx : lookup_seq f.records u with
  | none => simp [hx] at h1
  | some w => simpa [hx] using h2

/-- C1. Accept rule of `handle_adv_data`: in a state whose rx-disable counter
is 0 and whose store the firmware can reach, for an advertisement whose digest
verifies, whose UUID has a transmitter record and whose sequence number is
strictly greater than the stored one, and with the storage accepting the
update, the stored sequence number afterwards is the sequence number of the
message and the relay is armed: relay timer 10 ticks, relay output set. -/
theorem handle_adv_data_accept (c : Crypto) (tx_ok : Bool) (s : State) (ad : gd_adv_data_t)
    (S : Nat) (hreach : StoreReachable s.fds) (hrx : s.gd_rx_disable_ctr = 0)
    (hdig : gd_msg_check_digest c ad.uuid ad.msg = true)
    (hrec : ∃ r ∈ s.fds.records, r.file_id = GDS_TXINFO_FILE_ID ∧ r.data = .tx ⟨ad.uuid⟩)
    (hS : (gds_get_seq_no s.fds ad.uuid).2.1 = S)
    (hgt : gd_msg_get_seqno ad.msg > S) :
    (gds_get_seq_no (handle_adv_data c tx_ok true s ad).fds ad.uuid).1 = true ∧
    (gds_get_seq_no (handle_adv_data c tx_ok true s ad).fds ad.uuid).2.1
      = gd_msg_get_seqno ad.msg ∧
    (handle_adv_data c tx_ok true s ad).gd_relay_timer = timer_ticks_from_ms 1000 ∧
    (handle_adv_data c tx_ok true s ad).gd_relay_timer = 10 ∧
    (handle_adv_data c tx_ok true s ad).relay_pin = true ∧
    gd_is_relay_active (handle_adv_data c tx_ok true s ad) = true := by
  have hk := mem_tx_lookup s.fds ad.uuid hrec
  have h1 : (gds_get_seq_no s.fds ad.uuid).1 = true := by rw [gds_get_seq_no_fst]; exact hk
  have hl := get_to_lookup s.fds ad.uuid S h1 hS
  obtain ⟨a, b, d⟩ := handle_adv_data_accept_core c tx_ok s ad S hreach.inv hrx hdig hl hgt
  obtain ⟨e, g⟩ := lookup_to_get _ _ _ a
  refine ⟨e, g, ?_, b, d, ?_⟩
  · rw [b]; rfl
  · simp [gd_is_relay_active, b]

/-- C3. Digest failure: in a state whose rx-disable counter is 0, for an
advertisement whose digest does not verify, `handle_adv_data` sets the
rx-disable counter to 10 ticks (1000 ms) and changes nothing else: the storage
with its history of FDS calls is the same (no call was issued, the store was
neither read nor written), as are the relay timer, the relay output, the learn
counter and the button variables. -/
theorem handle_adv_data_digest_failure (c : Crypto) (tx_ok seq_ok : Bool) (s : State)
    (ad : gd_adv_data_t) (hrx : s.gd_rx_disable_ctr = 0)
    (hdig : gd_msg_check_digest c ad.uuid ad.msg = false) :
    handle_adv_data c tx_ok seq_ok s ad = { s with gd_rx_disable_ctr := 10 } ∧
    timer_ticks_from_ms GD_RX_DISABLE_DURATION_MS = 10 ∧
    (handle_adv_data c tx_ok seq_ok s ad).fds = s.fds ∧
    (handle_adv_data c tx_ok seq_ok s ad).fds.calls = s.fds.calls := by
  have h : handle_adv_data c tx_ok seq_ok s ad = { s with gd_rx_disable_ctr := 10 } := by
    rw [handle_adv_data_eq]
    simp [hrx, hdig]
  rw [h]
  exact ⟨rfl, rfl, rfl, rfl⟩

theorem lookup_none_of_not_mem (f : Fds) (u : ble_uuid128_t)
    (h : ¬ ∃ r ∈ f.records, r.file_id = GDS_TXINFO_FILE_ID ∧ r.data = .tx ⟨u⟩) :
    f.records.find? (is_tx_of u) = none := by
  rw [List.find?_eq_none]
  intro r hr hq
  apply h
  simp only [is_tx_of, decide_eq_true_eq] at hq
  exact ⟨r, hr, hq⟩

theorem gds_get_seq_no_fds (f : Fds) (u : ble_uuid128_t) :
    (gds_get_seq_no f u).2.2 = { f with calls := (gds_get_seq_no f u).2.2.calls } := by
  obtain ⟨h1, h2, h3⟩ := gds_get_seq_no_store f u
  cases hx : (gds_get_seq_no f u).2.2
  rw [hx] at h1 h2 h3
  simp only at h1 h2 h3
  simp [h1, h2, h3]

theorem enroll_records (f : Fds) (u : ble_uuid128_t) (v : Nat) (hinv : f.inv)
    (hnew : f.records.find? (is_tx_of u) = none) :
    (gds_set_seq_no true (gds_create_tx_record true f u).2 u v).2.records =
      f.records ++ [⟨f.next_id, GDS_TXINFO_FILE_ID, .tx ⟨u⟩⟩,
        ⟨f.next_id + 1, GDS_TXINFO_FILE_ID, .seq ⟨f.next_id, v⟩⟩] := by
  have hr := gds_create_tx_record_records true f u
  have hn := gds_create_tx_record_next_id true f u
  rw [hnew] at hr hn
  simp only [↓reduceIte] at hr hn
  rw [gds_set_seq_no_records, hr, hn]
  have h1 := create_find_tx_same f.records f.next_id u hnew
  simp only [new_tx] at h1
  rw [h1]
  simp only [↓reduceIte]
  have h2 : (f.records ++ [new_tx f.next_id u]).find? (is_seq_of f.next_id) = none := by
    rw [create_find_seq f.records f.next_id u f.next_id, List.find?_eq_none]
    intro r hr hq
    exact Nat.lt_irrefl _ (hinv.seq_ref f.next_id r hr hq)
  simp only [new_tx] at h2
  simp only [set_records, h2]
  simp

theorem not_learning_state (c : Crypto) (tx_ok seq_ok : Bool) (s : State) (ad : gd_adv_data_t)
    (hrx : s.gd_rx_disable_ctr = 0) (hdig : gd_msg_check_digest c ad.uuid ad.msg = true)
    (hl : s.fds.lookup ad.uuid = none) (hlearn : s.gd_learn_ctr = 0) :
    handle_adv_data c tx_ok seq_ok s ad = { s with fds := (gds_get_seq_no s.fds ad.uuid).2.2 } := by
  rw [handle_adv_data_eq]
  simp [hrx, hdig, hl, hlearn]

/-- C5. Enrollment: in a state whose rx-disable counter is 0 and whose store
the firmware can reach, for an advertisement with a valid digest whose UUID
has no transmitter record, `handle_adv_data` (the storage accepting the
writes) registers the UUID if and only if the learn counter is positive. With
a positive learn counter a transmitter record for the UUID and a sequence
number record with the sequence number of the message are appended,
`gds_get_seq_no` then yields that number, and the relay timer and output are
as before (the relay is not armed). With the learn counter 0 the state is the
same but for the history of FDS calls, whatever the storage would accept. -/
theorem handle_adv_data_enroll (c : Crypto) (s : State) (ad : gd_adv_data_t)
    (hreach : StoreReachable s.fds) (hrx : s.gd_rx_disable_ctr = 0)
    (hdig : gd_msg_check_digest c ad.uuid ad.msg = true)
    (hnew : ¬ ∃ r ∈ s.fds.records, r.file_id = GDS_TXINFO_FILE_ID ∧ r.data = .tx ⟨ad.uuid⟩) :
    ((∃ r ∈ (handle_adv_data c true true s ad).fds.records,
        r.file_id = GDS_TXINFO_FILE_ID ∧ r.data = .tx ⟨ad.uuid⟩) ↔ s.gd_learn_ctr > 0) ∧
    (s.gd_learn_ctr > 0 →
      (handle_adv_data c true true s ad).fds.records =
        s.fds.records ++ [⟨s.fds.next_id, GDS_TXINFO_FILE_ID, .tx ⟨ad.uuid⟩⟩,
          ⟨s.fds.next_id + 1, GDS_TXINFO_FILE_ID,
            .seq ⟨s.fds.next_id, gd_msg_get_seqno ad.msg⟩⟩] ∧
      (gds_get_seq_no (handle_adv_data c true true s ad).fds ad.uuid).1 = true ∧
      (gds_get_seq_no (handle_adv_data c true true s ad).fds ad.uuid).2.1
        = gd_msg_get_seqno ad.msg ∧
      (handle_adv_data c true true s ad).gd_relay_timer = s.gd_relay_timer ∧
      (handle_adv_data c true true s ad).relay_pin = s.relay_pin) ∧
    (s.gd_learn_ctr = 0 → ∀ tx_ok seq_ok : Bool,
      handle_adv_data c tx_ok seq_ok s ad =
        { s with fds := { s.fds with
            calls := (handle_adv_data c tx_ok seq_ok s ad).fds.calls } }) := by
  have hfind := lookup_none_of_not_mem s.fds ad.uuid hnew
  have hl : s.fds.lookup ad.uuid = none := by
    simp [Fds.lookup, lookup_seq, hfind]
  have hinv := hreach.inv
  have hG := gds_get_seq_no_store s.fds ad.uuid
  have hGinv := gds_get_seq_no_inv s.fds ad.uuid hinv
  have hGfind : (gds_get_seq_no s.fds ad.uuid).2.2.records.find? (is_tx_of ad.uuid) = none := by
    rw [hG.1]; exact hfind
  have hlearn : s.gd_learn_ctr > 0 →
      handle_adv_data c true true s ad = { s with fds :=
        (gds_set_seq_no true
          (gds_create_tx_record true (gds_get_seq_no s.fds ad.uuid).2.2 ad.uuid).2
          ad.uuid (gd_msg_get_seqno ad.msg)).2 } := by
    intro h
    rw [handle_adv_data_eq]
    simp [hrx, hdig, hl, h]
  have hrecs : s.gd_learn_ctr > 0 →
      (handle_adv_data c true true s ad).fds.records =
        s.fds.records ++ [⟨s.fds.next_id, GDS_TXINFO_FILE_ID, .tx ⟨ad.uuid⟩⟩,
          ⟨s.fds.next_id + 1, GDS_TXINFO_FILE_ID,
            .seq ⟨s.fds.next_id, gd_msg_get_seqno ad.msg⟩⟩] := by
    intro h
    rw [hlearn h]
    simp only
    rw [enroll_records _ _ _ hGinv hGfind, hG.1, hG.2.1]
  refine ⟨⟨?_, ?_⟩, ?_, ?_⟩
  · rintro ⟨r, hr, h1, h2⟩
    by_contra hz
    have hz : s.gd_learn_ctr = 0 := by omega
    rw [not_learning_state c true true s ad hrx hdig hl hz] at hr
    simp only at hr
    rw [hG.1] at hr
    exact hnew ⟨r, hr, h1, h2⟩
  · intro h
    rw [hrecs h]
    exact ⟨⟨s.fds.next_id, GDS_TXINFO_FILE_ID, .tx ⟨ad.uuid⟩⟩, by simp, rfl, rfl⟩
  · intro h
    have hlk : (handle_adv_data c true true s ad).fds.lookup ad.uuid
        = some (gd_msg_get_seqno ad.msg) := by
      rw [hlearn h]
      simp only
      apply gds_set_seq_no_lookup_same _ _ _ (gds_create_tx_record_inv _ _ _ hGinv)
      exact gds_create_tx_record_known _ _
    obtain ⟨e, g⟩ := lookup_to_get _ _ _ hlk
    refine ⟨hrecs h, e, g, ?_, ?_⟩
    · rw [hlearn h]
    · rw [hlearn h]
  · intro h tx_ok seq_ok
    rw [not_learning_state c tx_ok seq_ok s ad hrx hdig hl h]
    simp only
    rw [← gds_get_seq_no_fds]

theorem ex_fds_a5_reachable : StoreReachable ex_fds_a5 :=
  StoreReachable.set_seq_no true _ ex_uuid_a 5
    (StoreReachable.create_tx_record true _ ex_uuid_a StoreReachable.empty)

/-- Witness of C1: transmitter A with the stored sequence number 5 sends the
sequence number 6. -/
theorem handle_adv_data_accept_witness :
    StoreReachable ex_state_a5.fds ∧ ex_state_a5.gd_rx_disable_ctr = 0 ∧
    gd_msg_check_digest ex_crypto ex_uuid_a (ex_msg ex_uuid_a 1 0 0 6) = true ∧
    (gds_get_seq_no ex_state_a5.fds ex_uuid_a).2.1 = 5 ∧
    (gds_get_seq_no
      (handle_adv_data ex_crypto true true ex_state_a5 ⟨ex_uuid_a, ex_msg ex_uuid_a 1 0 0 6, 0⟩).fds
      ex_uuid_a).2.1 = gd_msg_get_seqno (ex_msg ex_uuid_a 1 0 0 6) ∧
    (handle_adv_data ex_crypto true true ex_state_a5
      ⟨ex_uuid_a, ex_msg ex_uuid_a 1 0 0 6, 0⟩).gd_relay_timer = 10 := by
  have h := handle_adv_data_accept ex_crypto true ex_state_a5
    ⟨ex_uuid_a, ex_msg ex_uuid_a 1 0 0 6, 0⟩ 5 ex_fds_a5_reachable (by decide) (by decide)
    ⟨⟨1, GDS_TXINFO_FILE_ID, .tx ⟨ex_uuid_a⟩⟩, by decide, rfl, rfl⟩ (by decide) (by decide)
  exact ⟨ex_fds_a5_reachable, by decide, by decide, by decide, h.2.1, h.2.2.2.1⟩

/-- Witness of C3: a message of transmitter A with a wrong digest. -/
theorem handle_adv_data_digest_failure_witness :
    ex_state_a5.gd_rx_disable_ctr = 0 ∧
    gd_msg_check_digest ex_crypto ex_uuid_a (ex_msg_bad ex_uuid_a 1 0 0 6) = false ∧
    handle_adv_data ex_crypto true true ex_state_a5 ⟨ex_uuid_a, ex_msg_bad ex_uuid_a 1 0 0 6, 0⟩
      = { ex_state_a5 with gd_rx_disable_ctr := 10 } :=
  ⟨by decide, by decide,
    (handle_adv_data_digest_failure ex_crypto true true ex_state_a5
      ⟨ex_uuid_a, ex_msg_bad ex_uuid_a 1 0 0 6, 0⟩ (by decide) (by decide)).1⟩

/-- Witness of C5: the unknown transmitter A sends the sequence number 1 while
the receiver is in learn mode. -/
theorem handle_adv_data_enroll_witness :
    StoreReachable ex_state_learn.fds ∧ ex_state_learn.gd_rx_disable_ctr = 0 ∧
    gd_msg_check_digest ex_crypto ex_uuid_a (ex_msg ex_uuid_a 1 0 0 1) = true ∧
    ex_state_learn.gd_learn_ctr > 0 ∧
    (gds_get_seq_no
      (handle_adv_data ex_crypto true true ex_state_learn
        ⟨ex_uuid_a, ex_msg ex_uuid_a 1 0 0 1, 0⟩).fds ex_uuid_a).2.1
      = gd_msg_get_seqno (ex_msg ex_uuid_a 1 0 0 1) ∧
    (handle_adv_data ex_crypto true true ex_state_learn
      ⟨ex_uuid_a, ex_msg ex_uuid_a 1 0 0 1, 0⟩).gd_relay_timer = ex_state_learn.gd_relay_timer :=
  have h := handle_adv_data_enroll ex_crypto ex_state_learn
    ⟨ex_uuid_a, ex_msg ex_uuid_a 1 0 0 1, 0⟩ StoreReachable.empty (by decide) (by decide)
    (by simp [ex_state_learn, State.init, Fds.empty])
  ⟨StoreReachable.empty, by decide, by decide, by decide,
    (h.2.1 (by decide)).2.2.1, (h.2.1 (by decide)).2.2.2.1⟩

/-! ### Ticks and traces -/

theorem timer_tick_handler_eq (b : Bool) (s : State) :
    timer_tick_handler b s = button_tick b
      { s with
        timer_ticks := (s.timer_ticks + 1) % 2 ^ 64
        gd_relay_timer := s.gd_relay_timer - 1
        relay_pin := if s.gd_relay_timer = 1 then false else s.relay_pin
        gd_learn_ctr := s.gd_learn_ctr - 1
        gd_rx_disable_ctr := s.gd_rx_disable_ctr - 1 } := by
  obtain ⟨tt, rt, bc, lc, rx, cmd, pin, fds⟩ := s
  rcases rt with _ | _ | rt <;> rcases lc with _ | lc <;> rcases rx with _ | rx <;>
    simp [timer_tick_handler]

theorem button_tick_frame (b : Bool) (s : State) :
    (button_tick b s).fds = s.fds ∧ (button_tick b s).gd_relay_timer = s.gd_relay_timer ∧
    (button_tick b s).relay_pin = s.relay_pin ∧ (button_tick b s).gd_learn_ctr = s.gd_learn_ctr ∧
    (button_tick b s).gd_rx_disable_ctr = s.gd_rx_disable_ctr ∧
    (button_tick b s).timer_ticks = s.timer_ticks := by
  unfold button_tick
  cases s.gd_button_cmd <;> cases b <;> simp <;> split <;> simp

theorem timer_tick_handler_fds (b : Bool) (s : State) : (timer_tick_handler b s).fds = s.fds := by
  rw [timer_tick_handler_eq, (button_tick_frame _ _).1]

theorem gd_get_button_fds (s : State) : (gd_get_button s).2.fds = s.fds := by
  unfold gd_get_button
  cases s.gd_button_cmd <;> rfl

theorem handle_adv_data_inv (c : Crypto) (tx_ok seq_ok : Bool) (s : State) (ad : gd_adv_data_t)
    (h : s.fds.inv) : (handle_adv_data c tx_ok seq_ok s ad).fds.inv := by
  have hG := gds_get_seq_no_inv s.fds ad.uuid h
  rw [handle_adv_data_eq]
  repeat' split
  · exact h
  · exact h
  · exact gds_set_seq_no_inv _ _ _ _ hG
  · exact hG
  · exact gds_set_seq_no_inv _ _ _ _ (gds_create_tx_record_inv _ _ _ hG)
  · exact hG

theorem handle_adv_data_lookup_mono (c : Crypto) (tx_ok seq_ok : Bool) (s : State)
    (ad : gd_adv_data_t) (u : ble_uuid128_t) (v : Nat) (h : s.fds.inv)
    (hl : s.fds.lookup u = some v) :
    ∃ w, (handle_adv_data c tx_ok seq_ok s ad).fds.lookup u = some w ∧ v ≤ w := by
  have hG := gds_get_seq_no_inv s.fds ad.uuid h
  have hGl := gds_get_seq_no_lookup s.fds ad.uuid u
  rw [handle_adv_data_eq]
  by_cases hu : u = ad.uuid
  · subst hu
    rw [hl]
    simp only
    repeat' split
    · exact ⟨v, hl, Nat.le_refl v⟩
    · exact ⟨v, hl, Nat.le_refl v⟩
    · rename_i hgt
      cases seq_ok
      · refine ⟨v, ?_, Nat.le_refl v⟩
        simp only [gd_activate_relay, Fds.lookup]
        rw [gds_set_seq_no_rejected, ← hl, ← hGl]
        rfl
      · refine ⟨gd_msg_get_seqno ad.msg, ?_, Nat.le_of_lt hgt⟩
        simp only [gd_activate_relay]
        apply gds_set_seq_no_lookup_same _ _ _ hG
        rw [hGl, hl]
        rfl
    · exact ⟨v, by rw [← hl, ← hGl], Nat.le_refl v⟩
  · refine ⟨v, ?_, Nat.le_refl v⟩
    repeat' split
    · exact hl
    · exact hl
    · simp only [gd_activate_relay]
      rw [gds_set_seq_no_lookup_other _ _ _ _ _ hG hu, hGl, hl]
    · simp only
      rw [hGl, hl]
    · simp only
      rw [gds_set_seq_no_lookup_other _ _ _ _ _ (gds_create_tx_record_inv _ _ _ hG) hu,
        gds_create_tx_record_lookup_other _ _ _ _ hu, hGl, hl]
    · simp only
      rw [hGl, hl]

theorem step_inv (c : Crypto) (cfg : FdsConfig) (s : State) (e : Event) (h : s.fds.inv) :
    (step c cfg s e).fds.inv := by
  cases e with
  | adv tx_ok seq_ok ad => exact handle_adv_data_inv c tx_ok seq_ok s ad h
  | tick b => simp only [step]; rw [timer_tick_handler_fds]; exact h
  | tasks a b => exact gds_tasks_inv cfg a b s.fds h
  | poll => simp only [step]; rw [gd_get_button_fds]; exact h
  | learn => exact h

theorem step_lookup_mono (c : Crypto) (cfg : FdsConfig) (s : State) (e : Event)
    (u : ble_uuid128_t) (v : Nat) (h : s.fds.inv) (hl : s.fds.lookup u = some v) :
    ∃ w, (step c cfg s e).fds.lookup u = some w ∧ v ≤ w := by
  cases e with
  | adv tx_ok seq_ok ad => exact handle_adv_data_lookup_mono c tx_ok seq_ok s ad u v h hl
  | tick b => exact ⟨v, by simp only [step]; rw [timer_tick_handler_fds]; exact hl, Nat.le_refl v⟩
  | tasks a b =>
    refine ⟨v, ?_, Nat.le_refl v⟩
    simp only [step, Fds.lookup]
    rw [(gds_tasks_store cfg a b s.fds).1]
    exact hl
  | poll => exact ⟨v, by simp only [step]; rw [gd_get_button_fds]; exact hl, Nat.le_refl v⟩
  | learn => exact ⟨v, hl, Nat.le_refl v⟩

theorem run_lookup_mono (c : Crypto) (cfg : FdsConfig) (es : List Event) (s : State)
    (u : ble_uuid128_t) (v : Nat) (h : s.fds.inv) (hl : s.fds.lookup u = some v) :
    (run c cfg es s).fds.inv ∧ ∃ w, (run c cfg es s).fds.lookup u = some w ∧ v ≤ w := by
  induction es generalizing s v with
  | nil => exact ⟨h, v, hl, Nat.le_refl v⟩
  | cons e es ih =>
    obtain ⟨w, hw, hvw⟩ := step_lookup_mono c cfg s e u v h hl
    obtain ⟨hi, x, hx, hwx⟩ := ih (step c cfg s e) w (step_inv c cfg s e h) hw
    exact ⟨hi, x, hx, Nat.le_trans hvw hwx⟩

theorem handle_adv_data_reject (c : Crypto) (tx_ok seq_ok : Bool) (s : State)
    (ad : gd_adv_data_t) (v : Nat) (hl : s.fds.lookup ad.uuid = some v)
    (hle : gd_msg_get_seqno ad.msg ≤ v) :
    (handle_adv_data c tx_ok seq_ok s ad).gd_relay_timer = s.gd_relay_timer ∧
    (handle_adv_data c tx_ok seq_ok s ad).relay_pin = s.relay_pin ∧
    (handle_adv_data c tx_ok seq_ok s ad).fds.records = s.fds.records ∧
    (handle_adv_data c tx_ok seq_ok s ad).fds.lookup ad.uuid = some v := by
  have hGl := gds_get_seq_no_lookup s.fds ad.uuid ad.uuid
  have hGs := (gds_get_seq_no_store s.fds ad.uuid).1
  have hnot : ¬ gd_msg_get_seqno ad.msg > v := Nat.not_lt.2 hle
  rw [handle_adv_data_eq, hl]
  simp only [hnot, ↓reduceIte]
  repeat' split
  · exact ⟨rfl, rfl, rfl, hl⟩
  · exact ⟨rfl, rfl, rfl, hl⟩
  · exact ⟨rfl, rfl, hGs, by rw [← hl, ← hGl]⟩

/-- C2, the code on every trace and at the failing input. After
`handle_adv_data` took the accept branch for the sequence number S of
transmitter I (known, valid digest, S greater than the stored S0), then after
every later sequence of events without a factory clear (advertisements of any
transmitter with any digest, timer ticks, storage tasks, button polls, start
of the learn window) transmitter I has a stored sequence number S', and every
advertisement of I with a sequence number at most S' is rejected: the relay
timer and output and the records of the store stay as they are and the stored
number is still S'. The stored number never falls below the value the
acceptance left, which is S when the storage accepted the update and S0 when
it rejected it. In that case the bound S does not hold: transmitter A has the
stored number 5, its valid message with the sequence number 6 is accepted (the
relay is armed with 10 ticks) while the storage rejects the update; after
three ticks, the storage tasks and a button poll the stored number is 5, less
than 6, the relay timer is at 7, and the same advertisement with the sequence
number 6 is accepted again: it arms the relay with 10 ticks and changes the
stored number to 6. -/
theorem replay_accepted_after_rejected_update :
    (∀ (c : Crypto) (cfg : FdsConfig) (tx_ok seq_ok : Bool) (p : State) (ad0 : gd_adv_data_t)
        (S0 : Nat) (es : List Event),
      StoreReachable p.fds → p.gd_rx_disable_ctr = 0 →
      gd_msg_check_digest c ad0.uuid ad0.msg = true →
      (∃ r ∈ p.fds.records, r.file_id = GDS_TXINFO_FILE_ID ∧ r.data = .tx ⟨ad0.uuid⟩) →
      (gds_get_seq_no p.fds ad0.uuid).2.1 = S0 →
      gd_msg_get_seqno ad0.msg > S0 →
      ∃ S' : Nat,
        (gds_get_seq_no (run c cfg es (handle_adv_data c tx_ok seq_ok p ad0)).fds ad0.uuid).1
          = true ∧
        (gds_get_seq_no (run c cfg es (handle_adv_data c tx_ok seq_ok p ad0)).fds ad0.uuid).2.1
          = S' ∧
        (if seq_ok then gd_msg_get_seqno ad0.msg else S0) ≤ S' ∧
        ∀ (ad : gd_adv_data_t) (tx_ok2 seq_ok2 : Bool), ad.uuid = ad0.uuid →
          gd_msg_get_seqno ad.msg ≤ S' →
          (handle_adv_data c tx_ok2 seq_ok2
              (run c cfg es (handle_adv_data c tx_ok seq_ok p ad0)) ad).gd_relay_timer
            = (run c cfg es (handle_adv_data c tx_ok seq_ok p ad0)).gd_relay_timer ∧
          (handle_adv_data c tx_ok2 seq_ok2
              (run c cfg es (handle_adv_data c tx_ok seq_ok p ad0)) ad).relay_pin
            = (run c cfg es (handle_adv_data c tx_ok seq_ok p ad0)).relay_pin ∧
          (handle_adv_data c tx_ok2 seq_ok2
              (run c cfg es (handle_adv_data c tx_ok seq_ok p ad0)) ad).fds.records
            = (run c cfg es (handle_adv_data c tx_ok seq_ok p ad0)).fds.records ∧
          (gds_get_seq_no (handle_adv_data c tx_ok2 seq_ok2
              (run c cfg es (handle_adv_data c tx_ok seq_ok p ad0)) ad).fds ad0.uuid).1 = true ∧
          (gds_get_seq_no (handle_adv_data c tx_ok2 seq_ok2
              (run c cfg es (handle_adv_data c tx_ok seq_ok p ad0)) ad).fds ad0.uuid).2.1 = S') ∧
    ex_state_a5.gd_rx_disable_ctr = 0 ∧
    gd_msg_check_digest ex_crypto ex_adv_a6.uuid ex_adv_a6.msg = true ∧
    gd_msg_get_seqno ex_adv_a6.msg = 6 ∧
    (gds_get_seq_no ex_state_a5.fds ex_uuid_a).1 = true ∧
    (gds_get_seq_no ex_state_a5.fds ex_uuid_a).2.1 = 5 ∧
    (handle_adv_data ex_crypto true false ex_state_a5 ex_adv_a6).gd_relay_timer = 10 ∧
    (handle_adv_data ex_crypto true false ex_state_a5 ex_adv_a6).relay_pin = true ∧
    (gds_get_seq_no (handle_adv_data ex_crypto true false ex_state_a5 ex_adv_a6).fds
      ex_uuid_a).2.1 = 5 ∧
    (gds_get_seq_no (run ex_crypto ex_cfg ex_replay_events
      (handle_adv_data ex_crypto true false ex_state_a5 ex_adv_a6)).fds ex_uuid_a).2.1 = 5 ∧
    (run ex_crypto ex_cfg ex_replay_events
      (handle_adv_data ex_crypto true false ex_state_a5 ex_adv_a6)).gd_relay_timer = 7 ∧
    (run ex_crypto ex_cfg ex_replay_events
      (handle_adv_data ex_crypto true false ex_state_a5 ex_adv_a6)).gd_rx_disable_ctr = 0 ∧
    (handle_adv_data ex_crypto true true
      (run ex_crypto ex_cfg ex_replay_events
        (handle_adv_data ex_crypto true false ex_state_a5 ex_adv_a6))
      ex_adv_a6).gd_relay_timer = 10 ∧
    (handle_adv_data ex_crypto true true
      (run ex_crypto ex_cfg ex_replay_events
        (handle_adv_data ex_crypto true false ex_state_a5 ex_adv_a6))
      ex_adv_a6).relay_pin = true ∧
    (gds_get_seq_no (handle_adv_data ex_crypto true true
      (run ex_crypto ex_cfg ex_replay_events
        (handle_adv_data ex_crypto true false ex_state_a5 ex_adv_a6))
      ex_adv_a6).fds ex_uuid_a).2.1 = 6 := by
  refine ⟨?_, by decide, by decide, by decide, by decide, by decide, by decide, by decide, by decide,
    by decide, by decide, by decide, by decide, by decide, by decide⟩
  intro c cfg tx_ok seq_ok p ad0 S0 es hreach hrx hdig hrec hS0 hgt
  have hk := mem_tx_lookup p.fds ad0.uuid hrec
  have h1 : (gds_get_seq_no p.fds ad0.uuid).1 = true := by rw [gds_get_seq_no_fst]; exact hk
  have hl := get_to_lookup p.fds ad0.uuid S0 h1 hS0
  have hinv := hreach.inv
  have h0 : ∃ w, (handle_adv_data c tx_ok seq_ok p ad0).fds.lookup ad0.uuid = some w ∧
      (if seq_ok then gd_msg_get_seqno ad0.msg else S0) ≤ w := by
    cases seq_ok
    · exact handle_adv_data_lookup_mono c tx_ok false p ad0 ad0.uuid S0 hinv hl
    · exact ⟨_, (handle_adv_data_accept_core c tx_ok p ad0 S0 hinv hrx hdig hl hgt).1,
        Nat.le_refl _⟩
  obtain ⟨w, hw, hle⟩ := h0
  obtain ⟨_, S', hS', hwS⟩ := run_lookup_mono c cfg es _ ad0.uuid w
    (handle_adv_data_inv c tx_ok seq_ok p ad0 hinv) hw
  obtain ⟨e1, e2⟩ := lookup_to_get _ _ _ hS'
  refine ⟨S', e1, e2, Nat.le_trans hle hwS, ?_⟩
  intro ad tx_ok2 seq_ok2 hu hseq
  rw [← hu] at hS'
  obtain ⟨a, b, d, e⟩ := handle_adv_data_reject c tx_ok2 seq_ok2 _ ad S' hS' hseq
  rw [hu] at e
  obtain ⟨g1, g2⟩ := lookup_to_get _ _ _ e
  exact ⟨a, b, d, g1, g2⟩

theorem ticks_frame (bs : List Bool) (s : State) :
    (ticks bs s).fds = s.fds ∧
    (ticks bs s).gd_rx_disable_ctr = s.gd_rx_disable_ctr - bs.length := by
  induction bs generalizing s with
  | nil => exact ⟨rfl, rfl⟩
  | cons b bs ih =>
    obtain ⟨h1, h2⟩ := ih (timer_tick_handler b s)
    have hf := timer_tick_handler_fds b s
    have hr : (timer_tick_handler b s).gd_rx_disable_ctr = s.gd_rx_disable_ctr - 1 := by
      rw [timer_tick_handler_eq, (button_tick_frame _ _).2.2.2.2.1]
    simp only [ticks, List.length_cons]
    rw [h1, h2, hf, hr]
    exact ⟨rfl, by omega⟩

/-- C4. Throttle: after a digest failure armed the rx-disable window, after
n < 10 ticks `handle_adv_data` leaves the whole state as it is for every
advertisement (valid and fresh ones of an enrolled transmitter and further
bad ones included); after the 10th tick `gd_is_rx_disabled` is false and a
valid, fresh message of an enrolled transmitter is accepted again (the
storage accepting the update): its sequence number is stored and the relay is
armed. -/
theorem throttle_window (c : Crypto) (s : State) (bad : gd_adv_data_t) (tx0 seq0 : Bool)
    (hrx : s.gd_rx_disable_ctr = 0)
    (hdig : gd_msg_check_digest c bad.uuid bad.msg = false) :
    (∀ bs : List Bool, bs.length < 10 → ∀ (ad : gd_adv_data_t) (tx_ok seq_ok : Bool),
      handle_adv_data c tx_ok seq_ok (ticks bs (handle_adv_data c tx0 seq0 s bad)) ad
        = ticks bs (handle_adv_data c tx0 seq0 s bad)) ∧
    (∀ bs : List Bool, bs.length = 10 →
      gd_is_rx_disabled (ticks bs (handle_adv_data c tx0 seq0 s bad)) = false ∧
      ∀ (ad : gd_adv_data_t) (tx_ok : Bool) (S : Nat), StoreReachable s.fds →
        gd_msg_check_digest c ad.uuid ad.msg = true →
        (∃ r ∈ s.fds.records, r.file_id = GDS_TXINFO_FILE_ID ∧ r.data = .tx ⟨ad.uuid⟩) →
        (gds_get_seq_no s.fds ad.uuid).2.1 = S → gd_msg_get_seqno ad.msg > S →
        (gds_get_seq_no (handle_adv_data c tx_ok true
          (ticks bs (handle_adv_data c tx0 seq0 s bad)) ad).fds ad.uuid).1 = true ∧
        (gds_get_seq_no (handle_adv_data c tx_ok true
          (ticks bs (handle_adv_data c tx0 seq0 s bad)) ad).fds ad.uuid).2.1
          = gd_msg_get_seqno ad.msg ∧
        (handle_adv_data c tx_ok true
          (ticks bs (handle_adv_data c tx0 seq0 s bad)) ad).gd_relay_timer = 10 ∧
        (handle_adv_data c tx_ok true
          (ticks bs (handle_adv_data c tx0 seq0 s bad)) ad).relay_pin = true) := by
  have h : handle_adv_data c tx0 seq0 s bad = { s with gd_rx_disable_ctr := 10 } := by
    rw [handle_adv_data_eq]
    simp [hrx, hdig]
  rw [h]
  constructor
  · intro bs hbs ad tx_ok seq_ok
    have hr := (ticks_frame bs { s with gd_rx_disable_ctr := 10 }).2
    simp only at hr
    rw [handle_adv_data_eq]
    have : (ticks bs { s with gd_rx_disable_ctr := 10 }).gd_rx_disable_ctr > 0 := by omega
    simp [this]
  · intro bs hbs
    obtain ⟨hf, hr⟩ := ticks_frame bs { s with gd_rx_disable_ctr := 10 }
    simp only at hf hr
    have hz : (ticks bs { s with gd_rx_disable_ctr := 10 }).gd_rx_disable_ctr = 0 := by omega
    refine ⟨by simp [gd_is_rx_disabled, hz], ?_⟩
    intro ad tx_ok S hreach hd hrec hS hgt
    have hk := mem_tx_lookup s.fds ad.uuid hrec
    have h1 : (gds_get_seq_no s.fds ad.uuid).1 = true := by rw [gds_get_seq_no_fst]; exact hk
    have hl := get_to_lookup s.fds ad.uuid S h1 hS
    rw [← hf] at hl
    have hinv := hreach.inv
    rw [← hf] at hinv
    obtain ⟨a, b, d⟩ := handle_adv_data_accept_core c tx_ok _ ad S hinv hz hd hl hgt
    obtain ⟨e, g⟩ := lookup_to_get _ _ _ a
    exact ⟨e, g, b, d⟩

/-! ### Write requests and the effects of one advertisement -/

theorem write_requests_append (a b : List FdsCall) :
    write_requests (a ++ b) = write_requests a + write_requests b := by
  simp [write_requests]

theorem write_requests_tx_loop (u : ble_uuid128_t) (l : List FdsRecord) :
    write_requests (gds_get_tx_rec_loop u l).2 = 0 := by
  induction l with
  | nil => rfl
  | cons r l ih =>
    obtain ⟨id, file, d⟩ := r
    cases d with
    | seq sn => simpa [gds_get_tx_rec_loop] using ih
    | tx t =>
      simp only [gds_get_tx_rec_loop]
      split
      · split
        · rfl
        · simp only [write_requests_append, ih]; rfl
      · exact ih

theorem write_requests_find_seq_loop (id : Nat) (l : List FdsRecord) :
    write_requests (gds_find_seq_no_record_loop id l).2 = 0 := by
  induction l with
  | nil => rfl
  | cons r l ih =>
    obtain ⟨rid, file, d⟩ := r
    cases d with
    | tx t => simpa [gds_find_seq_no_record_loop] using ih
    | seq sn =>
      simp only [gds_find_seq_no_record_loop]
      split
      · split
        · rfl
        · simp only [write_requests_append, ih]; rfl
      · exact ih

theorem write_requests_get_seq_loop (id d : Nat) (l : List FdsRecord) :
    write_requests (gds_get_seq_no_loop id d l).2 = 0 := by
  induction l with
  | nil => rfl
  | cons r l ih =>
    obtain ⟨rid, file, dt⟩ := r
    cases dt with
    | tx t => simpa [gds_get_seq_no_loop] using ih
    | seq sn =>
      simp only [gds_get_seq_no_loop]
      split
      · split
        · rfl
        · simp only [write_requests_append, ih]; rfl
      · exact ih

theorem write_requests_get_seq_no (f : Fds) (u : ble_uuid128_t) :
    write_requests (gds_get_seq_no f u).2.2.calls = write_requests f.calls := by
  rw [gds_get_seq_no, gds_get_tx_recid_eq]
  generalize f.records.find? (is_tx_of u) = o
  cases o with
  | none => simp [write_requests_append, write_requests_tx_loop]
  | some t =>
    simp [write_requests_append, write_requests_tx_loop, write_requests_get_seq_loop]

theorem write_requests_set_seq_no (ok : Bool) (f : Fds) (u : ble_uuid128_t) (v : Nat) :
    write_requests (gds_set_seq_no ok f u v).2.calls =
      write_requests f.calls + (if (f.lookup u).isSome then 1 else 0) := by
  rw [gds_set_seq_no, gds_get_tx_recid_eq, Fds.lookup, lookup_seq]
  generalize f.records.find? (is_tx_of u) = o
  cases o with
  | none => simp [write_requests_append, write_requests_tx_loop]
  | some t =>
    simp only [Option.map_some', gds_find_seq_no_record_eq]
    generalize f.records.find? (is_seq_of t.record_id) = o2
    cases o2 <;> cases ok <;>
      simp [fds_record_write, fds_record_update, Fds.call, write_requests_append,
        write_requests_tx_loop, write_requests_find_seq_loop] <;> rfl

theorem write_requests_create_tx_record (ok : Bool) (f : Fds) (u : ble_uuid128_t) :
    write_requests (gds_create_tx_record ok f u).2.calls =
      write_requests f.calls + (if (f.lookup u).isSome then 0 else 1) := by
  rw [gds_create_tx_record, gds_get_tx_rec_eq, Fds.lookup, lookup_seq]
  generalize f.records.find? (is_tx_of u) = o
  cases o with
  | some t => simp [write_requests_append, write_requests_tx_loop]
  | none =>
    cases ok <;>
      simp [fds_record_write, Fds.call, write_requests_append, write_requests_tx_loop] <;> rfl

/-- Witness of C2: transmitter A (stored 5) is accepted with 6 and the storage
accepts the update; after further events that enroll transmitter B, the replay
of the message of A leaves the relay timer as it is. -/
theorem replay_accepted_after_rejected_update_witness :
    StoreReachable ex_state_a5.fds ∧ ex_state_a5.gd_rx_disable_ctr = 0 ∧
    gd_msg_check_digest ex_crypto ex_adv_a6.uuid ex_adv_a6.msg = true ∧
    (gds_get_seq_no ex_state_a5.fds ex_adv_a6.uuid).2.1 = 5 ∧
    gd_msg_get_seqno ex_adv_a6.msg > 5 ∧
    (handle_adv_data ex_crypto true true
        (run ex_crypto ex_cfg ex_events (handle_adv_data ex_crypto true true ex_state_a5 ex_adv_a6))
        ex_adv_a6).gd_relay_timer
      = (run ex_crypto ex_cfg ex_events
          (handle_adv_data ex_crypto true true ex_state_a5 ex_adv_a6)).gd_relay_timer := by
  obtain ⟨S', _, _, hle, hall⟩ := replay_accepted_after_rejected_update.1 ex_crypto ex_cfg
    true true ex_state_a5 ex_adv_a6 5 ex_events ex_fds_a5_reachable (by decide) (by decide)
    ⟨⟨1, GDS_TXINFO_FILE_ID, .tx ⟨ex_uuid_a⟩⟩, by decide, rfl, rfl⟩ (by decide) (by decide)
  exact ⟨ex_fds_a5_reachable, by decide, by decide, by decide, by decide,
    (hall ex_adv_a6 true true rfl hle).1⟩

/-- Witness of C4: after a bad digest and three ticks a valid message of
transmitter A is dropped, after ten ticks it is accepted. -/
theorem throttle_window_witness :
    ex_state_a5.gd_rx_disable_ctr = 0 ∧
    gd_msg_check_digest ex_crypto ex_adv_a6_bad.uuid ex_adv_a6_bad.msg = false ∧
    handle_adv_data ex_crypto true true
        (ticks [false, true, false] (handle_adv_data ex_crypto true true ex_state_a5 ex_adv_a6_bad))
        ex_adv_a6
      = ticks [false, true, false] (handle_adv_data ex_crypto true true ex_state_a5 ex_adv_a6_bad) ∧
    gd_is_rx_disabled (ticks (List.replicate 10 false)
      (handle_adv_data ex_crypto true true ex_state_a5 ex_adv_a6_bad)) = false ∧
    (handle_adv_data ex_crypto true true
      (ticks (List.replicate 10 false)
        (handle_adv_data ex_crypto true true ex_state_a5 ex_adv_a6_bad)) ex_adv_a6).gd_relay_timer
      = 10 := by
  have h := throttle_window ex_crypto ex_state_a5 ex_adv_a6_bad true true (by decide) (by decide)
  have h2 := h.2 (List.replicate 10 false) (by decide)
  exact ⟨by decide, by decide, h.1 [false, true, false] (by decide) ex_adv_a6 true true, h2.1,
    (h2.2 ex_adv_a6 true 5 ex_fds_a5_reachable (by decide)
      ⟨⟨1, GDS_TXINFO_FILE_ID, .tx ⟨ex_uuid_a⟩⟩, by decide, rfl, rfl⟩ (by decide)
      (by decide)).2.2.1⟩

/-- C10, counterexample: for transmitter A with the stored sequence number 5
and a valid message with the sequence number 6, `handle_adv_data` both
activates the relay (timer 0 to 10, output off to on) and writes the storage
(one update request, the records change). -/
theorem handle_adv_data_two_effects :
    ex_state_a5.gd_relay_timer = 0 ∧ ex_state_a5.relay_pin = false ∧
    (handle_adv_data ex_crypto true true ex_state_a5 ex_adv_a6).gd_relay_timer = 10 ∧
    (handle_adv_data ex_crypto true true ex_state_a5 ex_adv_a6).relay_pin = true ∧
    (handle_adv_data ex_crypto true true ex_state_a5 ex_adv_a6).fds.records
      ≠ ex_state_a5.fds.records ∧
    write_requests (handle_adv_data ex_crypto true true ex_state_a5 ex_adv_a6).fds.calls
      = write_requests ex_state_a5.fds.calls + 1 := by
  decide

/-- C10, amended: for every state and advertisement `handle_adv_data` does one
of four things. It does nothing (the state is the same but for the history of
FDS calls, which gains no write or update request); or it arms the rx-disable
window and nothing else; or it issues storage write requests and nothing else
(enrollment, the relay stays as it is); or it activates the relay together
with exactly one storage write or update request (acceptance). -/
theorem handle_adv_data_effects (c : Crypto) (tx_ok seq_ok : Bool) (s : State)
    (ad : gd_adv_data_t) :
    (handle_adv_data c tx_ok seq_ok s ad
        = { s with fds := { s.fds with
              calls := (handle_adv_data c tx_ok seq_ok s ad).fds.calls } } ∧
      write_requests (handle_adv_data c tx_ok seq_ok s ad).fds.calls
        = write_requests s.fds.calls) ∨
    (s.gd_rx_disable_ctr = 0 ∧
      handle_adv_data c tx_ok seq_ok s ad = { s with gd_rx_disable_ctr := 10 }) ∨
    (handle_adv_data c tx_ok seq_ok s ad
        = { s with fds := (handle_adv_data c tx_ok seq_ok s ad).fds } ∧
      write_requests (handle_adv_data c tx_ok seq_ok s ad).fds.calls
        > write_requests s.fds.calls) ∨
    (handle_adv_data c tx_ok seq_ok s ad
        = gd_activate_relay { s with fds := (handle_adv_data c tx_ok seq_ok s ad).fds } ∧
      write_requests (handle_adv_data c tx_ok seq_ok s ad).fds.calls
        = write_requests s.fds.calls + 1) := by
  have hG := gds_get_seq_no_fds s.fds ad.uuid
  have hGw := write_requests_get_seq_no s.fds ad.uuid
  have hGl := gds_get_seq_no_lookup s.fds ad.uuid ad.uuid
  rw [handle_adv_data_eq]
  by_cases hrx : s.gd_rx_disable_ctr > 0
  · left
    simp [hrx]
  · have hz : s.gd_rx_disable_ctr = 0 := by omega
    cases hd : gd_msg_check_digest c ad.uuid ad.msg
    · right; left
      simp [hz]
    · simp only [hrx, ↓reduceIte, Bool.true_eq_false]
      cases hl : s.fds.lookup ad.uuid with
      | some stored =>
        simp only
        by_cases hgt : gd_msg_get_seqno ad.msg > stored
        · right; right; right
          simp only [hgt, ↓reduceIte]
          refine ⟨rfl, ?_⟩
          simp only [gd_activate_relay]
          rw [write_requests_set_seq_no, hGw, hGl, hl]
          rfl
        · left
          simp only [hgt, ↓reduceIte]
          exact ⟨by rw [← hG], hGw⟩
      | none =>
        simp only
        by_cases hlearn : s.gd_learn_ctr > 0
        · right; right; left
          simp only [hlearn, ↓reduceIte]
          refine ⟨trivial, ?_⟩
          rw [write_requests_set_seq_no, write_requests_create_tx_record, hGw, hGl, hl]
          simp only [Option.isSome_none, Bool.false_eq_true, ↓reduceIte]
          omega
        · left
          simp only [hlearn, ↓reduceIte]
          exact ⟨by rw [← hG], hGw⟩

/-! ### The authenticator -/

theorem uuid_to_be_apply (I : ble_uuid128_t) (j : Fin 16) :
    uuid_to_be I j = I.uuid128 ⟨15 - j.val, by omega⟩ := by
  unfold uuid_to_be
  fin_cases j <;>
    simp +decide [List.finRange, List.ofFn, Fin.foldr, Fin.foldr.loop, Function.update,
      Fin.ext_iff]

theorem ofFn_uuid_to_be (I : ble_uuid128_t) :
    List.ofFn (uuid_to_be I) = (List.ofFn I.uuid128).reverse := by
  have : uuid_to_be I = fun j => I.uuid128 ⟨15 - j.val, by omega⟩ :=
    funext (uuid_to_be_apply I)
  rw [this]
  simp [List.ofFn, Fin.foldr, Fin.foldr.loop]

theorem take4_ofFn (d : Fin 32 → Byte) :
    (List.ofFn d).take 4 = List.ofFn (fun i : Fin 4 => d ⟨i.val, by omega⟩) := by
  simp [List.ofFn, Fin.foldr, Fin.foldr.loop]

/-- C6. Authenticator: with HMAC-SHA-256 as the function `c.hmac key data`,
`gd_calculate_tx_key I` is the HMAC under the master secret of the 16 octets
of `I` in reversed order; `gd_msg_check_digest I M` is true if and only if the
first 4 octets of the HMAC under that key of `[cmd, seq_no[0], seq_no[1],
seq_no[2]]` equal `M.digest`; and a message that carries these 4 octets as its
digest verifies. Both are functions of the UUID, the message, the master
secret and the HMAC only. -/
theorem authenticator_definition (c : Crypto) (I : ble_uuid128_t) (M : gd_message_t) :
    gd_calculate_tx_key c I
      = c.hmac (List.ofFn c.gd_rxm_key) (List.ofFn I.uuid128).reverse ∧
    (gd_msg_check_digest c I M = true ↔
      (List.ofFn (c.hmac (List.ofFn (gd_calculate_tx_key c I))
          [M.cmd, M.seq_no 0, M.seq_no 1, M.seq_no 2])).take 4 = List.ofFn M.digest) ∧
    gd_msg_check_digest c I
      { M with digest := fun i =>
          (c.hmac (List.ofFn (gd_calculate_tx_key c I))
            [M.cmd, M.seq_no 0, M.seq_no 1, M.seq_no 2]) ⟨i.val, by omega⟩ } = true := by
  refine ⟨?_, ?_, ?_⟩
  · rw [gd_calculate_tx_key, ofFn_uuid_to_be]
  · rw [take4_ofFn, List.ofFn_inj]
    unfold gd_msg_check_digest
    simp only [memcmp_eq_iff, msg_header]
  · unfold gd_msg_check_digest
    simp only [memcmp_eq_iff, msg_header]

/-! ### The relay timer -/

theorem tick_relay (b : Bool) (s : State) :
    (timer_tick_handler b s).gd_relay_timer = s.gd_relay_timer - 1 ∧
    (timer_tick_handler b s).relay_pin
      = if s.gd_relay_timer = 1 then false else s.relay_pin := by
  rw [timer_tick_handler_eq]
  exact ⟨(button_tick_frame _ _).2.1, (button_tick_frame _ _).2.2.1⟩

theorem ticks_relay (bs : List Bool) (s : State)
    (h : s.relay_pin = decide (s.gd_relay_timer > 0)) :
    (ticks bs s).gd_relay_timer = s.gd_relay_timer - bs.length ∧
    (ticks bs s).relay_pin = decide (s.gd_relay_timer - bs.length > 0) := by
  induction bs generalizing s with
  | nil => exact ⟨rfl, h⟩
  | cons b bs ih =>
    obtain ⟨h1, h2⟩ := tick_relay b s
    have hc : (timer_tick_handler b s).relay_pin
        = decide ((timer_tick_handler b s).gd_relay_timer > 0) := by
      rw [h1, h2, h]
      by_cases ht : s.gd_relay_timer = 1
      · simp [ht]
      · simp only [ht, ↓reduceIte, decide_eq_decide]
        omega
    obtain ⟨i1, i2⟩ := ih (timer_tick_handler b s) hc
    simp only [ticks, List.length_cons]
    rw [i1, i2, h1]
    exact ⟨by omega, by congr 1; rw [eq_iff_iff]; omega⟩

/-- C7. Relay hold time: after `gd_activate_relay` the relay output is on and
the timer is 10; after each of the next 9 ticks the output is still on and
`gd_is_relay_active` is true; from the 10th tick on the timer is 0 and the
output is off, as long as the relay is not armed again. -/
theorem relay_hold_time (s : State) :
    (gd_activate_relay s).relay_pin = true ∧ (gd_activate_relay s).gd_relay_timer = 10 ∧
    (∀ bs : List Bool, bs.length ≤ 9 →
      (ticks bs (gd_activate_relay s)).relay_pin = true ∧
      gd_is_relay_active (ticks bs (gd_activate_relay s)) = true ∧
      (ticks bs (gd_activate_relay s)).gd_relay_timer = 10 - bs.length) ∧
    (∀ bs : List Bool, 10 ≤ bs.length →
      (ticks bs (gd_activate_relay s)).relay_pin = false ∧
      gd_is_relay_active (ticks bs (gd_activate_relay s)) = false ∧
      (ticks bs (gd_activate_relay s)).gd_relay_timer = 0) := by
  have h := fun bs => ticks_relay bs (gd_activate_relay s) rfl
  have ht : (gd_activate_relay s).gd_relay_timer = 10 := rfl
  refine ⟨rfl, rfl, ?_, ?_⟩
  · intro bs hbs
    obtain ⟨h1, h2⟩ := h bs
    rw [ht] at h1 h2
    refine ⟨?_, ?_, h1⟩
    · rw [h2]; simp; omega
    · simp only [gd_is_relay_active, h1]; simp; omega
  · intro bs hbs
    obtain ⟨h1, h2⟩ := h bs
    rw [ht] at h1 h2
    refine ⟨?_, ?_, ?_⟩
    · rw [h2]; simp; omega
    · simp only [gd_is_relay_active, h1]; simp; omega
    · rw [h1]; omega

/-- Witness of C7: the relay is on after 9 ticks and off after 10. -/
theorem relay_hold_time_witness :
    (List.replicate 9 true).length ≤ 9 ∧ 10 ≤ (List.replicate 10 false).length ∧
    (ticks (List.replicate 9 true) (gd_activate_relay ex_state_a5)).relay_pin = true ∧
    (ticks (List.replicate 10 false) (gd_activate_relay ex_state_a5)).relay_pin = false :=
  ⟨by decide, by decide,
    ((relay_hold_time ex_state_a5).2.2.1 (List.replicate 9 true) (by decide)).1,
    ((relay_hold_time ex_state_a5).2.2.2 (List.replicate 10 false) (by decide)).1⟩

/-! ### The button -/

theorem tick_button (b : Bool) (s : State) :
    (timer_tick_handler b s).gd_button_cmd = (button_tick b s).gd_button_cmd ∧
    (timer_tick_handler b s).gd_button_presssed_ctr
      = (button_tick b s).gd_button_presssed_ctr := by
  rw [timer_tick_handler_eq]
  obtain ⟨tt, rt, bc, lc, rx, cmd, pin, fds⟩ := s
  cases cmd <;> cases b <;> simp [button_tick] <;> split <;> simp

theorem tick_none_pressed (s : State) (k : Nat) (hc : s.gd_button_cmd = GD_BUTCMD_NONE)
    (hk : s.gd_button_presssed_ctr = k) (hlt : k + 1 < 50) :
    (timer_tick_handler true s).gd_button_cmd = GD_BUTCMD_NONE ∧
    (timer_tick_handler true s).gd_button_presssed_ctr = k + 1 := by
  obtain ⟨h1, h2⟩ := tick_button true s
  rw [h1, h2]
  have hm : (k + 1) % 4294967296 = k + 1 := Nat.mod_eq_of_lt (by omega)
  have : ¬ 50 ≤ k + 1 := by omega
  simp [button_tick, hc, hk, timer_ticks_from_ms, hm, this]

theorem tick_none_clear (s : State) (hc : s.gd_button_cmd = GD_BUTCMD_NONE)
    (hk : s.gd_button_presssed_ctr = 49) :
    (timer_tick_handler true s).gd_button_cmd = GD_BUTCMD_CLEAR ∧
    (timer_tick_handler true s).gd_button_presssed_ctr = 50 := by
  obtain ⟨h1, h2⟩ := tick_button true s
  rw [h1, h2]
  simp [button_tick, hc, hk, timer_ticks_from_ms]

theorem tick_none_released (s : State) (hc : s.gd_button_cmd = GD_BUTCMD_NONE) :
    (timer_tick_handler false s).gd_button_cmd
      = (if s.gd_button_presssed_ctr ≥ 1 then GD_BUTCMD_LEARN else GD_BUTCMD_NONE) ∧
    (timer_tick_handler false s).gd_button_presssed_ctr = 0 := by
  obtain ⟨h1, h2⟩ := tick_button false s
  rw [h1, h2]
  by_cases h : 1 ≤ s.gd_button_presssed_ctr <;>
    simp [button_tick, hc, timer_ticks_from_ms, h]

theorem tick_clear (b : Bool) (s : State) (hc : s.gd_button_cmd = GD_BUTCMD_CLEAR) :
    (timer_tick_handler b s).gd_button_cmd = GD_BUTCMD_CLEAR := by
  rw [(tick_button b s).1]
  simp [button_tick, hc]

theorem tick_consumed_pressed (s : State) (hc : s.gd_button_cmd = GD_BUTCMD_CONSUMED) :
    (timer_tick_handler true s).gd_button_cmd = GD_BUTCMD_CONSUMED := by
  rw [(tick_button true s).1]
  simp [button_tick, hc]

theorem tick_consumed_released (s : State) (hc : s.gd_button_cmd = GD_BUTCMD_CONSUMED) :
    (timer_tick_handler false s).gd_button_cmd = GD_BUTCMD_NONE ∧
    (timer_tick_handler false s).gd_button_presssed_ctr = 0 := by
  obtain ⟨h1, h2⟩ := tick_button false s
  rw [h1, h2]
  simp [button_tick, hc]

theorem poll_none (s : State) (hc : s.gd_button_cmd = GD_BUTCMD_NONE) :
    gd_get_button s = (GD_BUTCMD_NONE, s) := by
  simp [gd_get_button, hc]

theorem poll_consumed (s : State) (hc : s.gd_button_cmd = GD_BUTCMD_CONSUMED) :
    gd_get_button s = (GD_BUTCMD_NONE, s) := by
  simp [gd_get_button, hc]

theorem poll_clear (s : State) (hc : s.gd_button_cmd = GD_BUTCMD_CLEAR) :
    (gd_get_button s).1 = GD_BUTCMD_CLEAR ∧
    (gd_get_button s).2.gd_button_cmd = GD_BUTCMD_CONSUMED := by
  simp [gd_get_button, hc]

theorem poll_learn (s : State) (hc : s.gd_button_cmd = GD_BUTCMD_LEARN) :
    (gd_get_button s).1 = GD_BUTCMD_LEARN ∧
    (gd_get_button s).2.gd_button_cmd = GD_BUTCMD_CONSUMED := by
  simp [gd_get_button, hc]

/-- Released button, idle state: every call returns NONE. -/
theorem released_idle (rel : List ButtonEvent) (s : State)
    (hrel : ∀ e ∈ rel, e = .poll ∨ e = .tick false)
    (hc : s.gd_button_cmd = GD_BUTCMD_NONE) (hk : s.gd_button_presssed_ctr = 0) :
    ∀ x ∈ button_run rel s, x = GD_BUTCMD_NONE := by
  induction rel generalizing s with
  | nil => intro x hx; simp [button_run] at hx
  | cons e es ih =>
    have hes : ∀ e ∈ es, e = .poll ∨ e = .tick false :=
      fun e he => hrel e (List.mem_cons_of_mem _ he)
    rcases hrel e (List.mem_cons_self _ _) with rfl | rfl
    · simp only [button_run, poll_none s hc, List.mem_cons]
      rintro x (rfl | hx)
      · rfl
      · exact ih s hes hc hk x hx
    · obtain ⟨h1, h2⟩ := tick_none_released s hc
      have : ¬ s.gd_button_presssed_ctr ≥ 1 := by omega
      simp only [this, ↓reduceIte] at h1
      exact ih _ hes h1 h2

/-- Released or pressed button, consumed command: every call returns NONE. -/
theorem consumed_run (hold rel : List ButtonEvent) (s : State)
    (hhold : ∀ e ∈ hold, e = .poll ∨ e = .tick true)
    (hrel : ∀ e ∈ rel, e = .poll ∨ e = .tick false)
    (hc : s.gd_button_cmd = GD_BUTCMD_CONSUMED) :
    ∀ x ∈ button_run (hold ++ rel) s, x = GD_BUTCMD_NONE := by
  induction hold generalizing s with
  | nil =>
    simp only [List.nil_append]
    induction rel generalizing s with
    | nil => intro x hx; simp [button_run] at hx
    | cons e es ih =>
      have hes : ∀ e ∈ es, e = .poll ∨ e = .tick false :=
        fun e he => hrel e (List.mem_cons_of_mem _ he)
      rcases hrel e (List.mem_cons_self _ _) with rfl | rfl
      · simp only [button_run, poll_consumed s hc, List.mem_cons]
        rintro x (rfl | hx)
        · rfl
        · exact ih hes s hc x hx
      · obtain ⟨h1, h2⟩ := tick_consumed_released s hc
        exact released_idle es _ hes h1 h2
  | cons e es ih =>
    have hes : ∀ e ∈ es, e = .poll ∨ e = .tick true :=
      fun e he => hhold e (List.mem_cons_of_mem _ he)
    rcases hhold e (List.mem_cons_self _ _) with rfl | rfl
    · simp only [List.cons_append, button_run, poll_consumed s hc, List.mem_cons]
      rintro x (rfl | hx)
      · rfl
      · exact ih s hes hc x hx
    · exact ih _ hes (tick_consumed_pressed s hc)

theorem count_of_all_none (out : List gd_button_cmd_t)
    (h : ∀ x ∈ out, x = GD_BUTCMD_NONE) :
    GD_BUTCMD_LEARN ∉ out ∧ out.count GD_BUTCMD_CLEAR = 0 := by
  constructor
  · intro hm
    exact gd_button_cmd_t.noConfusion (h _ hm)
  · rw [List.count_eq_zero]
    intro hm
    exact gd_button_cmd_t.noConfusion (h _ hm)

/-- Pending CLEAR command: the first call returns CLEAR, the others NONE. -/
theorem clear_run (es : List ButtonEvent) (s : State)
    (hsplit : ∃ hold rel, es = hold ++ rel ∧ (∀ e ∈ hold, e = .poll ∨ e = .tick true) ∧
      (∀ e ∈ rel, e = .poll ∨ e = .tick false))
    (hc : s.gd_button_cmd = GD_BUTCMD_CLEAR) :
    GD_BUTCMD_LEARN ∉ button_run es s ∧
    (button_run es s).count GD_BUTCMD_CLEAR = if polled_after 0 es then 1 else 0 := by
  induction es generalizing s with
  | nil => simp [button_run, polled_after]
  | cons e es ih =>
    obtain ⟨hold, rel, hsp, hh, hr⟩ := hsplit
    cases e with
    | tick b =>
      have htail : ∃ hold rel, es = hold ++ rel ∧
          (∀ e ∈ hold, e = .poll ∨ e = .tick true) ∧
          (∀ e ∈ rel, e = .poll ∨ e = .tick false) := by
        cases hold with
        | nil =>
          cases rel with
          | nil => simp at hsp
          | cons r rs =>
            simp only [List.nil_append, List.cons.injEq] at hsp
            exact ⟨[], rs, by simp [hsp.2], by simp,
              fun e he => hr e (List.mem_cons_of_mem _ he)⟩
        | cons h hs =>
          simp only [List.cons_append, List.cons.injEq] at hsp
          exact ⟨hs, rel, hsp.2, fun e he => hh e (List.mem_cons_of_mem _ he), hr⟩
      simpa [button_run, polled_after] using ih _ htail (tick_clear b s hc)
    | poll =>
      have htail : ∃ hold rel, es = hold ++ rel ∧
          (∀ e ∈ hold, e = .poll ∨ e = .tick true) ∧
          (∀ e ∈ rel, e = .poll ∨ e = .tick false) := by
        cases hold with
        | nil =>
          cases rel with
          | nil => simp at hsp
          | cons r rs =>
            simp only [List.nil_append, List.cons.injEq] at hsp
            exact ⟨[], rs, by simp [hsp.2], by simp,
              fun e he => hr e (List.mem_cons_of_mem _ he)⟩
        | cons h hs =>
          simp only [List.cons_append, List.cons.injEq] at hsp
          exact ⟨hs, rel, hsp.2, fun e he => hh e (List.mem_cons_of_mem _ he), hr⟩
      obtain ⟨hold2, rel2, hsp2, hh2, hr2⟩ := htail
      obtain ⟨p1, p2⟩ := poll_clear s hc
      have hn := consumed_run hold2 rel2 _ hh2 hr2 p2
      rw [← hsp2] at hn
      obtain ⟨c1, c2⟩ := count_of_all_none _ hn
      simp only [button_run, p1, polled_after, ↓reduceIte, List.mem_cons, not_or]
      refine ⟨⟨by decide, c1⟩, ?_⟩
      rw [List.count_cons_self, c2]

/-- Idle state with the press counter at `k < 50`: no call returns LEARN, and
CLEAR is returned once if and only if there is a call after the tick that
brings the counter to 50. -/
theorem none_run (hold rel : List ButtonEvent) (s : State) (k : Nat)
    (hhold : ∀ e ∈ hold, e = .poll ∨ e = .tick true)
    (hrel : ∀ e ∈ rel, e = .poll ∨ e = .tick false)
    (hc : s.gd_button_cmd = GD_BUTCMD_NONE) (hk : s.gd_button_presssed_ctr = k)
    (hlt : k < 50) (hen : 50 - k ≤ n_ticks hold ∨ rel = []) :
    GD_BUTCMD_LEARN ∉ button_run (hold ++ rel) s ∧
    (button_run (hold ++ rel) s).count GD_BUTCMD_CLEAR
      = if polled_after (50 - k) (hold ++ rel) then 1 else 0 := by
  induction hold generalizing s k with
  | nil =>
    rcases hen with h | h
    · simp only [n_ticks] at h; omega
    · subst h; simp [button_run, polled_after]
  | cons e es ih =>
    have hes : ∀ e ∈ es, e = .poll ∨ e = .tick true :=
      fun e he => hhold e (List.mem_cons_of_mem _ he)
    obtain ⟨m, hm⟩ : ∃ m, 50 - k = m + 1 := ⟨49 - k, by omega⟩
    rcases hhold e (List.mem_cons_self _ _) with rfl | rfl
    · have hen2 : 50 - k ≤ n_ticks es ∨ rel = [] := by
        simpa [n_ticks] using hen
      obtain ⟨i1, i2⟩ := ih s k hes hc hk hlt hen2
      rw [hm] at i2
      simp only [List.cons_append, button_run, poll_none s hc, hm, polled_after,
        List.mem_cons, not_or]
      refine ⟨⟨by decide, i1⟩, ?_⟩
      rw [List.count_cons_of_ne (by decide)]
      exact i2
    · simp only [List.cons_append, button_run, hm, polled_after]
      by_cases h49 : k = 49
      · have hm0 : m = 0 := by omega
        subst hm0
        obtain ⟨t1, _⟩ := tick_none_clear s hc (hk.trans h49)
        exact clear_run (es ++ rel) _ ⟨es, rel, rfl, hes, hrel⟩ t1
      · obtain ⟨t1, t2⟩ := tick_none_pressed s k hc hk (by omega)
        have hen2 : 50 - (k + 1) ≤ n_ticks es ∨ rel = [] := by
          rcases hen with h | h
          · left; simp only [n_ticks] at h; omega
          · right; exact h
        have := ih _ (k + 1) hes t1 t2 (by omega) hen2
        have hm2 : 50 - (k + 1) = m := by omega
        rw [hm2] at this
        exact this

theorem polled_after_few_ticks (n : Nat) (es : List ButtonEvent) (h : n_ticks es < n) :
    polled_after n es = false := by
  induction es generalizing n with
  | nil => cases n <;> rfl
  | cons e es ih =>
    cases n with
    | zero => omega
    | succ n =>
      cases e with
      | tick b =>
        simp only [n_ticks] at h
        simpa [polled_after] using ih n (by omega)
      | poll =>
        simp only [n_ticks] at h
        simpa [polled_after] using ih (n + 1) h

theorem polled_after_zero (pre post : List ButtonEvent) :
    polled_after 0 (pre ++ .poll :: post) = true := by
  induction pre with
  | nil => rfl
  | cons e es ih => cases e <;> simp [polled_after, ih]

theorem polled_after_split (n : Nat) (pre post : List ButtonEvent) (h : n ≤ n_ticks pre) :
    polled_after n (pre ++ .poll :: post) = true := by
  induction pre generalizing n with
  | nil =>
    simp only [n_ticks] at h
    have : n = 0 := by omega
    subst this
    rfl
  | cons e es ih =>
    cases n with
    | zero => exact polled_after_zero (e :: es) post
    | succ n =>
      cases e with
      | tick b =>
        simp only [n_ticks] at h
        simpa [polled_after] using ih n (by omega)
      | poll =>
        simp only [n_ticks] at h
        simpa [polled_after] using ih (n + 1) h

theorem tick_learn (b : Bool) (s : State) (hc : s.gd_button_cmd = GD_BUTCMD_LEARN) :
    (timer_tick_handler b s).gd_button_cmd = GD_BUTCMD_LEARN := by
  rw [(tick_button b s).1]
  simp [button_tick, hc]

/-- Pending LEARN command, released button: the first call returns LEARN, the
others NONE. -/
theorem learn_run (rel : List ButtonEvent) (s : State)
    (hrel : ∀ e ∈ rel, e = .poll ∨ e = .tick false)
    (hc : s.gd_button_cmd = GD_BUTCMD_LEARN) :
    GD_BUTCMD_CLEAR ∉ button_run rel s ∧
    (button_run rel s).count GD_BUTCMD_LEARN = if polled_after 0 rel then 1 else 0 := by
  induction rel generalizing s with
  | nil => simp [button_run, polled_after]
  | cons e es ih =>
    have hes : ∀ e ∈ es, e = .poll ∨ e = .tick false :=
      fun e he => hrel e (List.mem_cons_of_mem _ he)
    rcases hrel e (List.mem_cons_self _ _) with rfl | rfl
    · obtain ⟨p1, p2⟩ := poll_learn s hc
      have hn := consumed_run [] es _ (by simp) hes p2
      simp only [List.nil_append] at hn
      have c1 : GD_BUTCMD_CLEAR ∉ button_run es (gd_get_button s).2 :=
        fun hm => gd_button_cmd_t.noConfusion (hn _ hm)
      have c2 : (button_run es (gd_get_button s).2).count GD_BUTCMD_LEARN = 0 := by
        rw [List.count_eq_zero]
        intro hm
        exact gd_button_cmd_t.noConfusion (hn _ hm)
      simp only [button_run, p1, polled_after, ↓reduceIte, List.mem_cons, not_or]
      refine ⟨⟨by decide, c1⟩, ?_⟩
      rw [List.count_cons_self, c2]
    · simpa [button_run, polled_after] using ih _ hes (tick_learn false s hc)

/-- Released button, no command, press counter at 1 or more: the first tick
sets LEARN, the first call after it returns LEARN, the other calls NONE. -/
theorem released_short_run (rel : List ButtonEvent) (s : State)
    (hrel : ∀ e ∈ rel, e = .poll ∨ e = .tick false)
    (hc : s.gd_button_cmd = GD_BUTCMD_NONE) (hk : 1 ≤ s.gd_button_presssed_ctr) :
    GD_BUTCMD_CLEAR ∉ button_run rel s ∧
    (button_run rel s).count GD_BUTCMD_LEARN = if polled_after 1 rel then 1 else 0 := by
  induction rel with
  | nil => simp [button_run, polled_after]
  | cons e es ih =>
    have hes : ∀ e ∈ es, e = .poll ∨ e = .tick false :=
      fun e he => hrel e (List.mem_cons_of_mem _ he)
    rcases hrel e (List.mem_cons_self _ _) with rfl | rfl
    · obtain ⟨i1, i2⟩ := ih hes
      simp only [button_run, poll_none s hc, polled_after, List.mem_cons, not_or]
      refine ⟨⟨by decide, i1⟩, ?_⟩
      rw [List.count_cons_of_ne (by decide)]
      exact i2
    · obtain ⟨t1, _⟩ := tick_none_released s hc
      have hge : s.gd_button_presssed_ctr ≥ 1 := hk
      simp only [hge, ↓reduceIte] at t1
      simpa [button_run, polled_after] using learn_run es _ hes t1

/-- No command, press counter at `k`, a hold that leaves the counter between 1
and 49, then the release: no call returns CLEAR, and LEARN is returned once if
and only if there is a call after the first tick of the release. -/
theorem short_hold_run (hold rel : List ButtonEvent) (s : State) (k : Nat)
    (hhold : ∀ e ∈ hold, e = .poll ∨ e = .tick true)
    (hrel : ∀ e ∈ rel, e = .poll ∨ e = .tick false)
    (hc : s.gd_button_cmd = GD_BUTCMD_NONE) (hk : s.gd_button_presssed_ctr = k)
    (hpos : 1 ≤ k + n_ticks hold) (hlt : k + n_ticks hold < 50) :
    GD_BUTCMD_CLEAR ∉ button_run (hold ++ rel) s ∧
    (button_run (hold ++ rel) s).count GD_BUTCMD_LEARN
      = if polled_after 1 rel then 1 else 0 := by
  induction hold generalizing s k with
  | nil =>
    simp only [n_ticks] at hpos
    exact released_short_run rel s hrel hc (by omega)
  | cons e es ih =>
    have hes : ∀ e ∈ es, e = .poll ∨ e = .tick true :=
      fun e he => hhold e (List.mem_cons_of_mem _ he)
    rcases hhold e (List.mem_cons_self _ _) with rfl | rfl
    · simp only [n_ticks] at hpos hlt
      obtain ⟨i1, i2⟩ := ih s k hes hc hk hpos hlt
      simp only [List.cons_append, button_run, poll_none s hc, List.mem_cons, not_or]
      refine ⟨⟨by decide, i1⟩, ?_⟩
      rw [List.count_cons_of_ne (by decide)]
      exact i2
    · simp only [n_ticks] at hpos hlt
      obtain ⟨t1, t2⟩ := tick_none_pressed s k hc hk (by omega)
      simpa [button_run] using ih _ (k + 1) hes t1 t2 (by omega) (by omega)

/-- C8, counterexample: from the idle button state, three ticks that read the
button as pressed, the tick that observes the release and a call of
`gd_get_button`: the call returns LEARN. The same with calls during the hold
and a second tick and call after the release: the calls return NONE, LEARN,
NONE. -/
theorem short_hold_release_returns_learn :
    ex_state_idle.gd_button_cmd = GD_BUTCMD_NONE ∧
    ex_state_idle.gd_button_presssed_ctr = 0 ∧
    button_run ([.tick true, .tick true, .tick true] ++ [.tick false, .poll]) ex_state_idle
      = [GD_BUTCMD_LEARN] ∧
    button_run ([.tick true, .poll, .tick true] ++ [.tick false, .tick false, .poll, .poll])
      ex_state_idle = [GD_BUTCMD_NONE, GD_BUTCMD_LEARN, GD_BUTCMD_NONE] := by
  decide

/-- C8, amended. Clear exactly once per press: from the idle button state
(command NONE, press counter 0), along every interleaving `hold` of ticks that
read the button as pressed with calls of `gd_get_button`, the calls return
CLEAR at most once, not at all while fewer than 50 ticks have passed, exactly
once if there is a call after the 50th tick (however many ticks follow), and
never LEARN. When the hold lasted 50 ticks or more and the button is then
released (`rel`: ticks that read it as released, and calls), the same holds
for the whole sequence: CLEAR at most once, exactly once if called after the
50th tick, LEARN never. When the hold lasted between 1 and 49 ticks, no call
of the whole sequence returns CLEAR, and LEARN is returned at most once: not
before a tick has observed the release, and exactly once if there is a call
after that tick. -/
theorem clear_once_per_press (s : State) (hold rel : List ButtonEvent)
    (hc : s.gd_button_cmd = GD_BUTCMD_NONE) (hk : s.gd_button_presssed_ctr = 0)
    (hhold : ∀ e ∈ hold, e = .poll ∨ e = .tick true)
    (hrel : ∀ e ∈ rel, e = .poll ∨ e = .tick false) :
    (button_run hold s).count GD_BUTCMD_CLEAR ≤ 1 ∧
    (n_ticks hold < 50 → GD_BUTCMD_CLEAR ∉ button_run hold s) ∧
    (∀ pre post, hold = pre ++ .poll :: post → 50 ≤ n_ticks pre →
      (button_run hold s).count GD_BUTCMD_CLEAR = 1) ∧
    GD_BUTCMD_LEARN ∉ button_run hold s ∧
    (50 ≤ n_ticks hold →
      (button_run (hold ++ rel) s).count GD_BUTCMD_CLEAR ≤ 1 ∧
      (∀ pre post, hold ++ rel = pre ++ .poll :: post → 50 ≤ n_ticks pre →
        (button_run (hold ++ rel) s).count GD_BUTCMD_CLEAR = 1) ∧
      GD_BUTCMD_LEARN ∉ button_run (hold ++ rel) s) ∧
    (1 ≤ n_ticks hold → n_ticks hold < 50 →
      GD_BUTCMD_CLEAR ∉ button_run (hold ++ rel) s ∧
      (button_run (hold ++ rel) s).count GD_BUTCMD_LEARN ≤ 1 ∧
      (n_ticks rel = 0 → GD_BUTCMD_LEARN ∉ button_run (hold ++ rel) s) ∧
      (∀ pre post, rel = pre ++ .poll :: post → 1 ≤ n_ticks pre →
        (button_run (hold ++ rel) s).count GD_BUTCMD_LEARN = 1)) := by
  have h1 := none_run hold [] s 0 hhold (by simp) hc hk (by omega) (Or.inr rfl)
  simp only [List.append_nil, Nat.sub_zero] at h1
  obtain ⟨l1, c1⟩ := h1
  refine ⟨?_, ?_, ?_, l1, ?_, ?_⟩
  · rw [c1]; split <;> omega
  · intro hlt
    rw [← List.count_eq_zero, c1, polled_after_few_ticks 50 hold hlt]
    rfl
  · intro pre post hsp hn
    rw [c1, hsp, polled_after_split 50 pre post hn]
    rfl
  · intro hn
    obtain ⟨l2, c2⟩ := none_run hold rel s 0 hhold hrel hc hk (by omega) (Or.inl (by omega))
    simp only [Nat.sub_zero] at c2
    refine ⟨?_, ?_, l2⟩
    · rw [c2]; split <;> omega
    · intro pre post hsp hn2
      rw [c2, hsp, polled_after_split 50 pre post hn2]
      rfl
  · intro hpos h49
    obtain ⟨s1, s2⟩ := short_hold_run hold rel s 0 hhold hrel hc hk (by omega) (by omega)
    refine ⟨s1, ?_, ?_, ?_⟩
    · rw [s2]; split <;> omega
    · intro h0
      rw [← List.count_eq_zero, s2, polled_after_few_ticks 1 rel (by omega)]
      rfl
    · intro pre post hsp hn
      rw [s2, hsp, polled_after_split 1 pre post hn]
      rfl

/-- Witness of C8: the button is held for 60 ticks with calls after the 10th,
the 55th and the 60th tick, then released; and the button is held for 3 ticks
with a call, then released with a call after the first tick of the release. -/
theorem clear_once_per_press_witness :
    ex_state_idle.gd_button_cmd = GD_BUTCMD_NONE ∧
    ex_state_idle.gd_button_presssed_ctr = 0 ∧
    (button_run
      (List.replicate 10 (.tick true) ++ .poll :: List.replicate 45 (.tick true)
        ++ .poll :: List.replicate 5 (.tick true) ++ [.poll]) ex_state_idle).count
      GD_BUTCMD_CLEAR = 1 ∧
    GD_BUTCMD_LEARN ∉ button_run
      ((List.replicate 10 (.tick true) ++ .poll :: List.replicate 45 (.tick true)
        ++ .poll :: List.replicate 5 (.tick true) ++ [.poll])
        ++ [.tick false, .poll, .tick false]) ex_state_idle ∧
    (button_run ([.tick true, .poll, .tick true, .tick true] ++ [.poll, .tick false, .poll])
      ex_state_idle).count GD_BUTCMD_LEARN = 1 := by
  have h := clear_once_per_press ex_state_idle
    (List.replicate 10 (.tick true) ++ .poll :: List.replicate 45 (.tick true)
      ++ .poll :: List.replicate 5 (.tick true) ++ [.poll])
    [.tick false, .poll, .tick false] rfl rfl (by decide) (by decide)
  have h2 := clear_once_per_press ex_state_idle [.tick true, .poll, .tick true, .tick true]
    [.poll, .tick false, .poll] rfl rfl (by decide) (by decide)
  exact ⟨rfl, rfl,
    h.2.2.1 (List.replicate 10 (.tick true) ++ .poll :: List.replicate 45 (.tick true))
      (List.replicate 5 (.tick true) ++ [.poll]) (by decide) (by decide),
    (h.2.2.2.2.1 (by decide)).2.2,
    (h2.2.2.2.2.2 (by decide) (by decide)).2.2.2 [.poll, .tick false] [] rfl (by decide)⟩

theorem ticks_append (a b : List Bool) (s : State) :
    ticks (a ++ b) s = ticks b (ticks a s) := by
  induction a generalizing s with
  | nil => rfl
  | cons x xs ih => exact ih (timer_tick_handler x s)

theorem pressed_ticks (n : Nat) (s : State) (k : Nat)
    (hc : s.gd_button_cmd = GD_BUTCMD_NONE) (hk : s.gd_button_presssed_ctr = k)
    (hlt : k + n < 50) :
    (ticks (List.replicate n true) s).gd_button_cmd = GD_BUTCMD_NONE ∧
    (ticks (List.replicate n true) s).gd_button_presssed_ctr = k + n := by
  induction n generalizing s k with
  | zero => exact ⟨hc, hk⟩
  | succ n ih =>
    obtain ⟨t1, t2⟩ := tick_none_pressed s k hc hk (by omega)
    obtain ⟨i1, i2⟩ := ih (timer_tick_handler true s) (k + 1) t1 t2 (by omega)
    simp only [List.replicate_succ, ticks]
    exact ⟨i1, by rw [i2]; omega⟩

/-- C9. Learn on short press: from the idle button state (command NONE, press
counter 0), `n` ticks that read the button as pressed followed by one tick
that reads it as released leave the command LEARN and the press counter 0 for
every `1 ≤ n ≤ 49`, and the command NONE for `n = 0`. The next call of
`gd_get_button` then returns LEARN, and later calls return NONE as long as the
ticks read the button as released. -/
theorem learn_on_short_press (s : State) (n : Nat)
    (hc : s.gd_button_cmd = GD_BUTCMD_NONE) (hk : s.gd_button_presssed_ctr = 0) :
    (1 ≤ n → n ≤ 49 →
      (ticks (List.replicate n true ++ [false]) s).gd_button_cmd = GD_BUTCMD_LEARN ∧
      (ticks (List.replicate n true ++ [false]) s).gd_button_presssed_ctr = 0 ∧
      (gd_get_button (ticks (List.replicate n true ++ [false]) s)).1 = GD_BUTCMD_LEARN ∧
      ∀ rel : List ButtonEvent, (∀ e ∈ rel, e = .poll ∨ e = .tick false) →
        ∀ x ∈ button_run rel (gd_get_button (ticks (List.replicate n true ++ [false]) s)).2,
          x = GD_BUTCMD_NONE) ∧
    (n = 0 →
      (ticks (List.replicate n true ++ [false]) s).gd_button_cmd = GD_BUTCMD_NONE ∧
      (ticks (List.replicate n true ++ [false]) s).gd_button_presssed_ctr = 0) := by
  constructor
  · intro h1 h49
    obtain ⟨p1, p2⟩ := pressed_ticks n s 0 hc hk (by omega)
    obtain ⟨r1, r2⟩ := tick_none_released (ticks (List.replicate n true) s) p1
    have hge : (ticks (List.replicate n true) s).gd_button_presssed_ctr ≥ 1 := by
      rw [p2]; omega
    simp only [hge, ↓reduceIte] at r1
    rw [ticks_append]
    simp only [ticks]
    obtain ⟨q1, q2⟩ := poll_learn _ r1
    refine ⟨r1, r2, q1, ?_⟩
    intro rel hrel
    have := consumed_run [] rel _ (by simp) hrel q2
    simpa using this
  · intro h0
    subst h0
    obtain ⟨r1, r2⟩ := tick_none_released s hc
    have : ¬ s.gd_button_presssed_ctr ≥ 1 := by omega
    simp only [this, ↓reduceIte] at r1
    exact ⟨r1, r2⟩

/-- Witness of C9: a press of 3 ticks, and no press at all. -/
theorem learn_on_short_press_witness :
    ex_state_idle.gd_button_cmd = GD_BUTCMD_NONE ∧
    ex_state_idle.gd_button_presssed_ctr = 0 ∧
    (gd_get_button (ticks (List.replicate 3 true ++ [false]) ex_state_idle)).1
      = GD_BUTCMD_LEARN ∧
    (ticks (List.replicate 0 true ++ [false]) ex_state_idle).gd_button_cmd = GD_BUTCMD_NONE :=
  ⟨rfl, rfl,
    ((learn_on_short_press ex_state_idle 3 rfl rfl).1 (by decide) (by decide)).2.2.1,
    ((learn_on_short_press ex_state_idle 0 rfl rfl).2 rfl).1⟩

/-! ### The sequence number of a message -/

theorem gd_msg_get_seqno_eq (msg : gd_message_t) :
    gd_msg_get_seqno msg
      = (msg.seq_no 0).val * 65536 + (msg.seq_no 1).val * 256 + (msg.seq_no 2).val := by
  have h0 := (msg.seq_no 0).isLt
  have h1 := (msg.seq_no 1).isLt
  have h2 := (msg.seq_no 2).isLt
  unfold gd_msg_get_seqno
  rw [Nat.shiftLeft_eq, Nat.shiftLeft_eq]
  have e1 : (msg.seq_no 0).val * 2 ^ 16 ||| (msg.seq_no 1).val * 2 ^ 8
      = 2 ^ 8 * ((msg.seq_no 0).val * 2 ^ 8 + (msg.seq_no 1).val) := by
    have := Nat.mul_add_lt_is_or (i := 16) (b := (msg.seq_no 1).val * 2 ^ 8) (by omega)
      (msg.seq_no 0).val
    rw [Nat.mul_comm (2 ^ 16)] at this
    rw [← this]
    omega
  rw [e1, ← Nat.mul_add_lt_is_or (by omega)]
  omega

/-- C19. Sequence number decoding: for the sequence octets (b0, b1, b2) of a
message `gd_msg_get_seqno` returns b0 * 65536 + b1 * 256 + b2 (big endian),
which is less than 2^24, and two messages with the same result have the same
three octets. -/
theorem gd_msg_get_seqno_decoding (msg : gd_message_t) :
    gd_msg_get_seqno msg
      = (msg.seq_no 0).val * 65536 + (msg.seq_no 1).val * 256 + (msg.seq_no 2).val ∧
    gd_msg_get_seqno msg < 2 ^ 24 ∧
    ∀ msg2 : gd_message_t, gd_msg_get_seqno msg = gd_msg_get_seqno msg2 →
      msg.seq_no = msg2.seq_no := by
  have h0 := (msg.seq_no 0).isLt
  have h1 := (msg.seq_no 1).isLt
  have h2 := (msg.seq_no 2).isLt
  refine ⟨gd_msg_get_seqno_eq msg, ?_, ?_⟩
  · rw [gd_msg_get_seqno_eq]; omega
  · intro msg2 h
    have g0 := (msg2.seq_no 0).isLt
    have g1 := (msg2.seq_no 1).isLt
    have g2 := (msg2.seq_no 2).isLt
    rw [gd_msg_get_seqno_eq, gd_msg_get_seqno_eq] at h
    funext i
    apply Fin.ext
    fin_cases i
    · show (msg.seq_no 0).val = (msg2.seq_no 0).val
      omega
    · show (msg.seq_no 1).val = (msg2.seq_no 1).val
      omega
    · show (msg.seq_no 2).val = (msg2.seq_no 2).val
      omega

/-- Witness of C19: two messages of different transmitters with the sequence
number 6 carry the same sequence octets. -/
theorem gd_msg_get_seqno_decoding_witness :
    gd_msg_get_seqno (ex_msg ex_uuid_a 1 0 0 6) = gd_msg_get_seqno (ex_msg ex_uuid_b 2 0 0 6) ∧
    (ex_msg ex_uuid_a 1 0 0 6).seq_no = (ex_msg ex_uuid_b 2 0 0 6).seq_no :=
  ⟨by decide,
    (gd_msg_get_seqno_decoding (ex_msg ex_uuid_a 1 0 0 6)).2.2 (ex_msg ex_uuid_b 2 0 0 6)
      (by decide)⟩

/-! ### The press counter -/

theorem handle_adv_data_button (c : Crypto) (tx_ok seq_ok : Bool) (s : State)
    (ad : gd_adv_data_t) :
    (handle_adv_data c tx_ok seq_ok s ad).gd_button_cmd = s.gd_button_cmd ∧
    (handle_adv_data c tx_ok seq_ok s ad).gd_button_presssed_ctr = s.gd_button_presssed_ctr := by
  rw [handle_adv_data_eq]
  repeat' split
  all_goals exact ⟨rfl, rfl⟩

/-- The bound on the press counter that every tick and call keeps: at most
50, and below 50 while no command is pending. -/
theorem button_bound_step (c : Crypto) (cfg : FdsConfig) (s : State) (e : Event)
    (h : s.gd_button_presssed_ctr ≤ 50 ∧
      (s.gd_button_cmd = GD_BUTCMD_NONE → s.gd_button_presssed_ctr < 50)) :
    (step c cfg s e).gd_button_presssed_ctr ≤ 50 ∧
    ((step c cfg s e).gd_button_cmd = GD_BUTCMD_NONE →
      (step c cfg s e).gd_button_presssed_ctr < 50) := by
  obtain ⟨h1, h2⟩ := h
  cases e with
  | adv tx_ok seq_ok ad =>
    obtain ⟨a, b⟩ := handle_adv_data_button c tx_ok seq_ok s ad
    simp only [step]
    rw [a, b]
    exact ⟨h1, h2⟩
  | tick b =>
    obtain ⟨a, d⟩ := tick_button b s
    simp only [step]
    rw [a, d]
    obtain ⟨tt, rt, bc, lc, rx, cmd, pin, fds⟩ := s
    simp only at h1 h2
    cases cmd <;> cases b <;> simp [button_tick, timer_ticks_from_ms] <;>
      first
        | omega
        | (simp only [forall_const] at h2
           have hm : (bc + 1) % 4294967296 = bc + 1 := Nat.mod_eq_of_lt (by omega)
           rw [hm]
           split <;> simp <;> omega)
  | tasks a b => exact ⟨h1, h2⟩
  | poll =>
    simp only [step]
    obtain ⟨tt, rt, bc, lc, rx, cmd, pin, fds⟩ := s
    simp only at h1 h2
    cases cmd <;> simp [gd_get_button] <;> first | omega | exact ⟨h1, h2 rfl⟩
  | learn => exact ⟨h1, h2⟩

/-- C20. The press counter never overflows: in every state that the receiver
reaches from a state with the press counter 0 (the idle state with the command
NONE in particular) through timer
ticks with arbitrary button levels and calls of `gd_get_button` (and the other
events of the main loop), `gd_button_presssed_ctr` is at most 50, the 5000 ms
threshold in ticks; the increment never wraps around. -/
theorem press_counter_bounded (c : Crypto) (cfg : FdsConfig) (s : State) (es : List Event)
    (hk : s.gd_button_presssed_ctr = 0) :
    (run c cfg es s).gd_button_presssed_ctr ≤ 50 ∧
    (run c cfg es s).gd_button_presssed_ctr ≤ timer_ticks_from_ms 5000 := by
  have key : ∀ (es : List Event) (s : State),
      (s.gd_button_presssed_ctr ≤ 50 ∧
        (s.gd_button_cmd = GD_BUTCMD_NONE → s.gd_button_presssed_ctr < 50)) →
      (run c cfg es s).gd_button_presssed_ctr ≤ 50 := by
    intro es
    induction es with
    | nil => intro s h; exact h.1
    | cons e es ih => intro s h; exact ih _ (button_bound_step c cfg s e h)
  have := key es s ⟨by omega, fun _ => by omega⟩
  exact ⟨this, this⟩

/-- Witness of C20: the button is held for 53 ticks with a call after the
52nd. -/
theorem press_counter_bounded_witness :
    ex_state_idle.gd_button_presssed_ctr = 0 ∧
    (run ex_crypto ex_cfg ex_long_press ex_state_idle).gd_button_presssed_ctr ≤ 50 :=
  ⟨rfl, (press_counter_bounded ex_crypto ex_cfg ex_state_idle ex_long_press rfl).1⟩

/-! ### The links between the records -/

theorem pairwise_append_single {α : Type} (R : α → α → Prop) (l : List α) (a : α)
    (hl : l.Pairwise R) (ha : ∀ b ∈ l, R b a) : (l ++ [a]).Pairwise R := by
  rw [List.pairwise_append]
  refine ⟨hl, List.pairwise_singleton R a, ?_⟩
  intro b hb c hc
  rw [List.mem_singleton] at hc
  subst hc
  exact ha b hb

theorem set_records_base (l : List FdsRecord) (n : Nat) (t : FdsRecord) (v : Nat)
    (hinv : StoreInv l n) :
    ∃ base : List FdsRecord, set_records l n t v = base ++ [new_seq n t.record_id v] ∧
      base.Sublist l ∧ (∀ r ∈ base, is_seq_of t.record_id r = false) ∧
      (∀ r ∈ l, ∀ u, is_tx_of u r = true → r ∈ base) := by
  rw [set_records_eq]
  cases hx : l.find? (is_seq_of t.record_id) with
  | none =>
    refine ⟨l, rfl, List.Sublist.refl l, ?_, fun r hr _ _ => hr⟩
    intro r hr
    rw [List.find?_eq_none] at hx
    simpa using hx r hr
  | some x =>
    have hxm := List.mem_of_find?_eq_some hx
    have hxs := List.find?_some hx
    refine ⟨l.filter (fun r => r.record_id ≠ x.record_id), rfl, List.filter_sublist l, ?_, ?_⟩
    · intro r hr
      rw [List.mem_filter] at hr
      rw [Bool.eq_false_iff]
      intro hs
      have := hinv.seq_inj _ r hr.1 x hxm hs hxs
      subst this
      simp at hr
    · intro r hr u hu
      rw [List.mem_filter]
      refine ⟨hr, ?_⟩
      simp only [ne_eq, decide_not, Bool.not_eq_eq_eq_not, Bool.not_true,
        decide_eq_false_iff_not]
      intro he
      have := hinv.id_inj r hr x hxm he
      subst this
      rw [is_seq_of_tx_false _ _ _ hu] at hxs
      exact Bool.noConfusion hxs

theorem store_links_set (l : List FdsRecord) (n : Nat) (t : FdsRecord) (v : Nat)
    (u : ble_uuid128_t) (hinv : StoreInv l n) (hl : StoreLinks l) (ht : t ∈ l)
    (htx : is_tx_of u t = true) : StoreLinks (set_records l n t v) := by
  obtain ⟨base, hb, hsub, hnone, hkeep⟩ := set_records_base l n t v hinv
  have hnew_seq : ∀ id, is_seq_of id (new_seq n t.record_id v) = true → id = t.record_id := by
    intro id h
    simp only [new_seq, is_seq_of, decide_eq_true_eq] at h
    exact h.2.symm
  have hnew_tx : ∀ w, is_tx_of w (new_seq n t.record_id v) = false := by
    intro w
    simp [new_seq, is_tx_of]
  rw [hb]
  refine ⟨?_, ?_, ?_⟩
  · apply pairwise_append_single _ _ _ (hl.tx_unique.sublist hsub)
    intro b _ w _ h2
    rw [hnew_tx] at h2
    exact Bool.noConfusion h2
  · apply pairwise_append_single _ _ _ (hl.seq_unique.sublist hsub)
    intro b hb2 id h1 h2
    have := hnew_seq id h2
    subst this
    rw [hnone b hb2] at h1
    exact Bool.noConfusion h1
  · intro q hq id hs
    rw [List.mem_append, List.mem_singleton] at hq
    rcases hq with hq | hq
    · obtain ⟨t2, ht2, he, w, hw⟩ := hl.seq_has_tx q (hsub.subset hq) id hs
      exact ⟨t2, List.mem_append_left _ (hkeep t2 ht2 w hw), he, w, hw⟩
    · subst hq
      have := hnew_seq id hs
      subst this
      exact ⟨t, List.mem_append_left _ (hkeep t ht u htx), rfl, u, htx⟩

theorem store_links_create (l : List FdsRecord) (n : Nat) (u : ble_uuid128_t)
    (hl : StoreLinks l) (hnew : l.find? (is_tx_of u) = none) :
    StoreLinks (l ++ [new_tx n u]) := by
  have hns : ∀ id, is_seq_of id (new_tx n u) = false := fun id => rfl
  rw [List.find?_eq_none] at hnew
  refine ⟨?_, ?_, ?_⟩
  · apply pairwise_append_single _ _ _ hl.tx_unique
    intro b hb w h1 h2
    have : w = u := by
      simp only [new_tx, is_tx_of, decide_eq_true_eq] at h2
      have := h2.2
      simp only [FdsData.tx.injEq, gds_transmitter_record_t.mk.injEq] at this
      exact this.symm
    subst this
    exact hnew b hb h1
  · apply pairwise_append_single _ _ _ hl.seq_unique
    intro b _ id _ h2
    rw [hns] at h2
    exact Bool.noConfusion h2
  · intro q hq id hs
    rw [List.mem_append, List.mem_singleton] at hq
    rcases hq with hq | hq
    · obtain ⟨t2, ht2, he, w, hw⟩ := hl.seq_has_tx q hq id hs
      exact ⟨t2, List.mem_append_left _ ht2, he, w, hw⟩
    · subst hq
      rw [hns] at hs
      exact Bool.noConfusion hs

theorem store_links_clear (l : List FdsRecord) (hl : StoreLinks l) :
    StoreLinks (l.filter (fun r => r.file_id ≠ GDS_TXINFO_FILE_ID)) := by
  refine ⟨hl.tx_unique.sublist (List.filter_sublist l),
    hl.seq_unique.sublist (List.filter_sublist l), ?_⟩
  intro q hq id hs
  rw [List.mem_filter] at hq
  obtain ⟨rid, file, d⟩ := q
  cases d with
  | tx t => simp [is_seq_of] at hs
  | seq sn =>
    simp only [is_seq_of, decide_eq_true_eq] at hs
    simp [hs.1] at hq

theorem store_links_nil : StoreLinks [] :=
  ⟨List.Pairwise.nil, List.Pairwise.nil, fun _ h => by simp at h⟩

theorem StoreReachable.links {f : Fds} (h : StoreReachable f) : StoreLinks f.records := by
  induction h with
  | empty => exact store_links_nil
  | history f cs _ ih => exact ih
  | create_tx_record ok f u _ ih =>
    rw [gds_create_tx_record_records]
    cases hx : f.records.find? (is_tx_of u) with
    | some t => exact ih
    | none =>
      cases ok
      · exact ih
      · exact store_links_create f.records f.next_id u ih hx
  | get_seq_no f u _ ih =>
    rw [(gds_get_seq_no_store f u).1]
    exact ih
  | set_seq_no ok f u v hr ih =>
    rw [gds_set_seq_no_records]
    cases hx : f.records.find? (is_tx_of u) with
    | none => exact ih
    | some t =>
      cases ok
      · exact ih
      · exact store_links_set f.records f.next_id t v u hr.inv ih
          (List.mem_of_find?_eq_some hx) (List.find?_some hx)
  | clear ok f _ ih =>
    unfold gds_clear fds_file_delete
    cases ok
    · exact ih
    · exact store_links_clear f.records ih
  | tasks cfg a b f _ ih =>
    rw [(gds_tasks_store cfg a b f).1]
    exact ih

/-! ### The contracts of the storage functions -/

theorem is_tx_of_iff (u : ble_uuid128_t) (r : FdsRecord) :
    is_tx_of u r = true ↔ r.file_id = GDS_TXINFO_FILE_ID ∧ r.data = .tx ⟨u⟩ := by
  simp [is_tx_of]

theorem is_seq_of_iff (id : Nat) (r : FdsRecord) :
    is_seq_of id r = true ↔ r.file_id = GDS_TXINFO_FILE_ID ∧ ∃ v, r.data = .seq ⟨id, v⟩ := by
  obtain ⟨rid, file, d⟩ := r
  cases d with
  | tx t => simp [is_seq_of]
  | seq sn =>
    obtain ⟨a, b⟩ := sn
    simp only [is_seq_of, decide_eq_true_eq, FdsData.seq.injEq, gds_seq_no_record_t.mk.injEq]
    constructor
    · rintro ⟨h1, h2⟩
      exact ⟨h1, b, h2, rfl⟩
    · rintro ⟨h1, v, h2, _⟩
      exact ⟨h1, h2⟩

theorem find_tx_isSome_iff (l : List FdsRecord) (u : ble_uuid128_t) :
    (l.find? (is_tx_of u)).isSome = true ↔
      ∃ r ∈ l, r.file_id = GDS_TXINFO_FILE_ID ∧ r.data = .tx ⟨u⟩ := by
  rw [List.find?_isSome]
  constructor
  · rintro ⟨r, hr, h⟩
    exact ⟨r, hr, (is_tx_of_iff u r).1 h⟩
  · rintro ⟨r, hr, h⟩
    exact ⟨r, hr, (is_tx_of_iff u r).2 h⟩

theorem gds_create_tx_record_frame (ok : Bool) (f : Fds) (u : ble_uuid128_t) :
    (gds_create_tx_record ok f u).1 = ((f.records.find? (is_tx_of u)).isSome || ok) ∧
    (gds_create_tx_record ok f u).2.freeable_words = f.freeable_words := by
  rw [gds_create_tx_record, gds_get_tx_rec_eq]
  generalize f.records.find? (is_tx_of u) = o
  cases o with
  | some t => exact ⟨rfl, rfl⟩
  | none => cases ok <;> simp [fds_record_write, Fds.call]

theorem tx_unique_explicit (l : List FdsRecord) (h : TxUnique l) :
    l.Pairwise (fun r1 r2 => ¬ ∃ u : ble_uuid128_t,
      (r1.file_id = GDS_TXINFO_FILE_ID ∧ r1.data = .tx ⟨u⟩) ∧
      (r2.file_id = GDS_TXINFO_FILE_ID ∧ r2.data = .tx ⟨u⟩)) := by
  refine List.Pairwise.imp ?_ h
  intro a b hab
  rintro ⟨u, h1, h2⟩
  exact hab u ((is_tx_of_iff u a).2 h1) ((is_tx_of_iff u b).2 h2)

/-- C14. `gds_create_tx_record` is find-or-create: if the store has a
transmitter record with the UUID it returns true and leaves the store as it
is (records, ID counter and reclaimable words; no write request), whatever
the storage would accept; otherwise it appends one transmitter record with
the UUID and returns true when the storage accepts the write, and returns
false with the store as it is when the storage rejects it. In every store
that the firmware can reach from the empty store no two transmitter records
carry the same UUID. -/
theorem gds_create_tx_record_find_or_create (f : Fds) (I : ble_uuid128_t) :
    ((∃ r ∈ f.records, r.file_id = GDS_TXINFO_FILE_ID ∧ r.data = .tx ⟨I⟩) →
      ∀ ok : Bool, (gds_create_tx_record ok f I).1 = true ∧
        (gds_create_tx_record ok f I).2.records = f.records ∧
        (gds_create_tx_record ok f I).2.next_id = f.next_id ∧
        (gds_create_tx_record ok f I).2.freeable_words = f.freeable_words ∧
        write_requests (gds_create_tx_record ok f I).2.calls = write_requests f.calls) ∧
    ((¬ ∃ r ∈ f.records, r.file_id = GDS_TXINFO_FILE_ID ∧ r.data = .tx ⟨I⟩) →
      ((gds_create_tx_record true f I).1 = true ∧
        (gds_create_tx_record true f I).2.records
          = f.records ++ [⟨f.next_id, GDS_TXINFO_FILE_ID, .tx ⟨I⟩⟩]) ∧
      ((gds_create_tx_record false f I).1 = false ∧
        (gds_create_tx_record false f I).2.records = f.records ∧
        (gds_create_tx_record false f I).2.next_id = f.next_id ∧
        (gds_create_tx_record false f I).2.freeable_words = f.freeable_words)) ∧
    (StoreReachable f →
      f.records.Pairwise (fun r1 r2 => ¬ ∃ u : ble_uuid128_t,
        (r1.file_id = GDS_TXINFO_FILE_ID ∧ r1.data = .tx ⟨u⟩) ∧
        (r2.file_id = GDS_TXINFO_FILE_ID ∧ r2.data = .tx ⟨u⟩))) := by
  refine ⟨?_, ?_, fun h => tx_unique_explicit _ h.links.tx_unique⟩
  · intro hex ok
    have hs := (find_tx_isSome_iff f.records I).2 hex
    obtain ⟨t, ht⟩ := Option.isSome_iff_exists.1 hs
    have h1 := gds_create_tx_record_frame ok f I
    have h2 := gds_create_tx_record_records ok f I
    have h3 := gds_create_tx_record_next_id ok f I
    have h4 := write_requests_create_tx_record ok f I
    rw [ht] at h1 h2 h3
    have hl : (f.lookup I).isSome = true := by simp [Fds.lookup, lookup_seq, ht]
    rw [hl] at h4
    exact ⟨by simpa using h1.1, h2, h3, h1.2, by simpa using h4⟩
  · intro hno
    have hn := lookup_none_of_not_mem f I hno
    have a1 := gds_create_tx_record_frame true f I
    have a2 := gds_create_tx_record_records true f I
    have b1 := gds_create_tx_record_frame false f I
    have b2 := gds_create_tx_record_records false f I
    have b3 := gds_create_tx_record_next_id false f I
    rw [hn] at a1 a2 b1 b2 b3
    exact ⟨⟨by simpa using a1.1, by simpa using a2⟩,
      by simpa using b1.1, by simpa using b2, by simpa using b3, b1.2⟩

/-- Witness of C14: transmitter A is known to the example store, transmitter B
is not, and the example store is reachable. -/
theorem gds_create_tx_record_find_or_create_witness :
    (∃ r ∈ ex_fds_a5.records, r.file_id = GDS_TXINFO_FILE_ID ∧ r.data = .tx ⟨ex_uuid_a⟩) ∧
    (gds_create_tx_record false ex_fds_a5 ex_uuid_a).1 = true ∧
    StoreReachable ex_fds_a5 ∧
    ex_fds_a5.records.Pairwise (fun r1 r2 => ¬ ∃ u : ble_uuid128_t,
      (r1.file_id = GDS_TXINFO_FILE_ID ∧ r1.data = .tx ⟨u⟩) ∧
      (r2.file_id = GDS_TXINFO_FILE_ID ∧ r2.data = .tx ⟨u⟩)) :=
  have h := gds_create_tx_record_find_or_create ex_fds_a5 ex_uuid_a
  have hex : ∃ r ∈ ex_fds_a5.records,
      r.file_id = GDS_TXINFO_FILE_ID ∧ r.data = .tx ⟨ex_uuid_a⟩ :=
    ⟨⟨1, GDS_TXINFO_FILE_ID, .tx ⟨ex_uuid_a⟩⟩, by decide, rfl, rfl⟩
  ⟨hex, (h.1 hex false).1, ex_fds_a5_reachable, h.2.2 ex_fds_a5_reachable⟩

theorem tx_unique_mem (l : List FdsRecord) (h : TxUnique l) (u : ble_uuid128_t)
    (a b : FdsRecord) (ha : a ∈ l) (hb : b ∈ l) (h1 : is_tx_of u a = true)
    (h2 : is_tx_of u b = true) : a = b := by
  by_contra hne
  have hsym : Symmetric (fun r1 r2 : FdsRecord =>
      ∀ u, is_tx_of u r1 = true → is_tx_of u r2 = true → False) :=
    fun x y hxy w hy hx => hxy w hx hy
  exact List.Pairwise.forall hsym h ha hb hne u h1 h2

theorem seq_unique_mem (l : List FdsRecord) (h : SeqUnique l) (id : Nat)
    (a b : FdsRecord) (ha : a ∈ l) (hb : b ∈ l) (h1 : is_seq_of id a = true)
    (h2 : is_seq_of id b = true) : a = b := by
  by_contra hne
  have hsym : Symmetric (fun r1 r2 : FdsRecord =>
      ∀ id, is_seq_of id r1 = true → is_seq_of id r2 = true → False) :=
    fun x y hxy w hy hx => hxy w hx hy
  exact List.Pairwise.forall hsym h ha hb hne id h1 h2

theorem find_tx_of_mem (l : List FdsRecord) (h : TxUnique l) (u : ble_uuid128_t)
    (t : FdsRecord) (ht : t ∈ l) (htx : is_tx_of u t = true) :
    l.find? (is_tx_of u) = some t := by
  cases hx : l.find? (is_tx_of u) with
  | none =>
    rw [List.find?_eq_none] at hx
    exact absurd htx (hx t ht)
  | some t2 =>
    rw [tx_unique_mem l h u t2 t (List.mem_of_find?_eq_some hx) ht (List.find?_some hx) htx]

theorem find_seq_of_mem (l : List FdsRecord) (h : SeqUnique l) (id : Nat)
    (q : FdsRecord) (hq : q ∈ l) (hs : is_seq_of id q = true) :
    l.find? (is_seq_of id) = some q := by
  cases hx : l.find? (is_seq_of id) with
  | none =>
    rw [List.find?_eq_none] at hx
    exact absurd hs (hx q hq)
  | some q2 =>
    rw [seq_unique_mem l h id q2 q (List.mem_of_find?_eq_some hx) hq (List.find?_some hx) hs]

/-- C12. Contract of `gds_get_seq_no`: for every store and UUID it returns
false if and only if the store has no transmitter record with the UUID, and
then `*seq_no` is 0. When it returns true, `*seq_no` is the `seq_no` of the
first sequence number record of the store whose `txrecid` is the record ID of
the first transmitter record with the UUID, or 0 if there is none; in a store
that the firmware can reach these records are the only ones of their kind, so
`*seq_no` is the `seq_no` of the sequence number record that names the
transmitter record of the UUID. The records, the ID counter and the
reclaimable words of the store are as before and no write or update was
requested. -/
theorem gds_get_seq_no_contract (f : Fds) (I : ble_uuid128_t) :
    ((gds_get_seq_no f I).1 = false ↔
      ¬ ∃ r ∈ f.records, r.file_id = GDS_TXINFO_FILE_ID ∧ r.data = .tx ⟨I⟩) ∧
    ((gds_get_seq_no f I).1 = false → (gds_get_seq_no f I).2.1 = 0) ∧
    (∀ t, f.records.find? (is_tx_of I) = some t →
      (gds_get_seq_no f I).1 = true ∧
      (gds_get_seq_no f I).2.1
        = ((f.records.find? (is_seq_of t.record_id)).map seq_of).getD 0) ∧
    (StoreReachable f → ∀ t ∈ f.records,
      t.file_id = GDS_TXINFO_FILE_ID → t.data = .tx ⟨I⟩ →
      (gds_get_seq_no f I).1 = true ∧
      (∀ q ∈ f.records, ∀ v : Nat, q.file_id = GDS_TXINFO_FILE_ID →
        q.data = .seq ⟨t.record_id, v⟩ → (gds_get_seq_no f I).2.1 = v) ∧
      ((¬ ∃ q ∈ f.records, q.file_id = GDS_TXINFO_FILE_ID ∧
          ∃ v : Nat, q.data = .seq ⟨t.record_id, v⟩) → (gds_get_seq_no f I).2.1 = 0)) ∧
    ((gds_get_seq_no f I).2.2.records = f.records ∧
      (gds_get_seq_no f I).2.2.next_id = f.next_id ∧
      (gds_get_seq_no f I).2.2.freeable_words = f.freeable_words ∧
      write_requests (gds_get_seq_no f I).2.2.calls = write_requests f.calls) := by
  have hfst := gds_get_seq_no_fst f I
  have hval := gds_get_seq_no_val f I
  have hfirst : ∀ t, f.records.find? (is_tx_of I) = some t →
      (gds_get_seq_no f I).1 = true ∧
      (gds_get_seq_no f I).2.1
        = ((f.records.find? (is_seq_of t.record_id)).map seq_of).getD 0 := by
    intro t ht
    rw [hfst, hval]
    simp [lookup_seq, ht]
  refine ⟨?_, ?_, hfirst, ?_, ?_⟩
  · rw [hfst, ← find_tx_isSome_iff, lookup_seq, Option.isSome_map']
    simp
  · intro h
    rw [hfst] at h
    rw [hval]
    cases hx : lookup_seq f.records I with
    | none => rfl
    | some v => simp [hx] at h
  · intro hreach t ht hfile hdata
    have hl := hreach.links
    have htx : is_tx_of I t = true := (is_tx_of_iff I t).2 ⟨hfile, hdata⟩
    obtain ⟨h1, h2⟩ := hfirst t (find_tx_of_mem _ hl.tx_unique I t ht htx)
    refine ⟨h1, ?_, ?_⟩
    · intro q hq v hqf hqd
      have hs : is_seq_of t.record_id q = true := (is_seq_of_iff _ q).2 ⟨hqf, v, hqd⟩
      rw [h2, find_seq_of_mem _ hl.seq_unique _ q hq hs]
      simp [seq_of, hqd]
    · intro hno
      rw [h2]
      have : f.records.find? (is_seq_of t.record_id) = none := by
        rw [List.find?_eq_none]
        intro q hq hs
        exact hno ⟨q, hq, (is_seq_of_iff _ q).1 hs⟩
      simp [this]
  · obtain ⟨a, b, c⟩ := gds_get_seq_no_store f I
    exact ⟨a, b, c, write_requests_get_seq_no f I⟩

/-- Witness of C12: transmitter A with the stored sequence number 5 in the
example store. -/
theorem gds_get_seq_no_contract_witness :
    StoreReachable ex_fds_a5 ∧
    (gds_get_seq_no ex_fds_a5 ex_uuid_a).1 = true ∧
    (gds_get_seq_no ex_fds_a5 ex_uuid_a).2.1 = 5 ∧
    (gds_get_seq_no Fds.empty ex_uuid_a).2.1 = 0 :=
  have h := (gds_get_seq_no_contract ex_fds_a5 ex_uuid_a).2.2.2.1 ex_fds_a5_reachable
    ⟨1, GDS_TXINFO_FILE_ID, .tx ⟨ex_uuid_a⟩⟩ (by decide) rfl rfl
  ⟨ex_fds_a5_reachable, h.1,
    h.2.1 ⟨2, GDS_TXINFO_FILE_ID, .seq ⟨1, 5⟩⟩ (by decide) 5 rfl rfl,
    (gds_get_seq_no_contract Fds.empty ex_uuid_a).2.1 (by decide)⟩

theorem gds_set_seq_no_frame (ok : Bool) (f : Fds) (u : ble_uuid128_t) (v : Nat) :
    (gds_set_seq_no ok f u v).1 = (f.records.find? (is_tx_of u)).isSome ∧
    (f.records.find? (is_tx_of u) = none →
      (gds_set_seq_no ok f u v).2.freeable_words = f.freeable_words) ∧
    (ok = false → (gds_set_seq_no ok f u v).2.freeable_words = f.freeable_words ∧
      (gds_set_seq_no ok f u v).2.next_id = f.next_id ∧
      (gds_set_seq_no ok f u v).2.records = f.records) := by
  rw [gds_set_seq_no, gds_get_tx_recid_eq]
  generalize f.records.find? (is_tx_of u) = o
  cases o with
  | none => simp
  | some t =>
    simp only [Option.map_some', gds_find_seq_no_record_eq]
    generalize f.records.find? (is_seq_of t.record_id) = o2
    cases o2 <;> cases ok <;> simp [fds_record_write, fds_record_update, Fds.call]

theorem gds_set_seq_no_last_call (f : Fds) (u : ble_uuid128_t) (v : Nat) (t : FdsRecord)
    (ht : f.records.find? (is_tx_of u) = some t) :
    (gds_set_seq_no true f u v).2.calls.getLast? =
      match f.records.find? (is_seq_of t.record_id) with
      | some x => some (.record_update x.record_id)
      | none => some (.record_write GDS_TXINFO_FILE_ID GDS_SEQNOREC_KEY) := by
  rw [gds_set_seq_no, gds_get_tx_recid_eq, ht]
  simp only [Option.map_some', gds_find_seq_no_record_eq]
  generalize f.records.find? (is_seq_of t.record_id) = o2
  cases o2 <;>
    simp [fds_record_write, fds_record_update, Fds.call, List.getLast?_concat, FdsRecord.key]

theorem set_records_filter_seq (l : List FdsRecord) (n : Nat) (t : FdsRecord) (v : Nat)
    (hinv : StoreInv l n) :
    (set_records l n t v).filter (is_seq_of t.record_id) = [new_seq n t.record_id v] := by
  obtain ⟨base, hb, _, hnone, _⟩ := set_records_base l n t v hinv
  rw [hb, List.filter_append]
  have h1 : base.filter (is_seq_of t.record_id) = [] := by
    rw [List.filter_eq_nil_iff]
    intro r hr
    simp [hnone r hr]
  rw [h1]
  simp [new_seq, is_seq_of]

/-- C13. Postcondition of `gds_set_seq_no` in a store that the firmware can
reach: for a UUID without a transmitter record it returns false and leaves the
store as it is. For a UUID with the transmitter record `t` and the storage
accepting the request it returns true; if the store has a sequence number
record for `t` it requests the update of this record, which replaces it by the
record with the new value, and if there is none it requests the write of a new
record, which is appended. Afterwards the record with the new value is the
only sequence number record for `t` and `gds_get_seq_no` returns true with the
new value. -/
theorem gds_set_seq_no_postcondition (f : Fds) (I : ble_uuid128_t) (v : Nat)
    (hreach : StoreReachable f) :
    ((¬ ∃ r ∈ f.records, r.file_id = GDS_TXINFO_FILE_ID ∧ r.data = .tx ⟨I⟩) →
      ∀ ok : Bool, (gds_set_seq_no ok f I v).1 = false ∧
        (gds_set_seq_no ok f I v).2.records = f.records ∧
        (gds_set_seq_no ok f I v).2.next_id = f.next_id ∧
        (gds_set_seq_no ok f I v).2.freeable_words = f.freeable_words ∧
        write_requests (gds_set_seq_no ok f I v).2.calls = write_requests f.calls) ∧
    (∀ t ∈ f.records, t.file_id = GDS_TXINFO_FILE_ID → t.data = .tx ⟨I⟩ →
      (gds_set_seq_no true f I v).1 = true ∧
      (∀ x ∈ f.records, ∀ w : Nat, x.file_id = GDS_TXINFO_FILE_ID →
        x.data = .seq ⟨t.record_id, w⟩ →
        (gds_set_seq_no true f I v).2.calls.getLast? = some (.record_update x.record_id) ∧
        (gds_set_seq_no true f I v).2.records
          = f.records.filter (fun r => r.record_id ≠ x.record_id)
            ++ [⟨f.next_id, GDS_TXINFO_FILE_ID, .seq ⟨t.record_id, v⟩⟩]) ∧
      ((¬ ∃ x ∈ f.records, x.file_id = GDS_TXINFO_FILE_ID ∧
          ∃ w : Nat, x.data = .seq ⟨t.record_id, w⟩) →
        (gds_set_seq_no true f I v).2.calls.getLast?
          = some (.record_write GDS_TXINFO_FILE_ID GDS_SEQNOREC_KEY) ∧
        (gds_set_seq_no true f I v).2.records
          = f.records ++ [⟨f.next_id, GDS_TXINFO_FILE_ID, .seq ⟨t.record_id, v⟩⟩]) ∧
      (gds_set_seq_no true f I v).2.records.filter (is_seq_of t.record_id)
        = [⟨f.next_id, GDS_TXINFO_FILE_ID, .seq ⟨t.record_id, v⟩⟩] ∧
      (gds_get_seq_no (gds_set_seq_no true f I v).2 I).1 = true ∧
      (gds_get_seq_no (gds_set_seq_no true f I v).2 I).2.1 = v) := by
  have hinv := hreach.inv
  have hl := hreach.links
  constructor
  · intro hno ok
    have hn := lookup_none_of_not_mem f I hno
    have hlk : f.lookup I = none := by simp [Fds.lookup, lookup_seq, hn]
    obtain ⟨a, b, _⟩ := gds_set_seq_no_frame ok f I v
    have hr := gds_set_seq_no_unknown ok f I v hlk
    have hid := gds_set_seq_no_next_id ok f I v
    have hw := write_requests_set_seq_no ok f I v
    rw [hn] at a hid
    rw [hlk] at hw
    exact ⟨by simpa using a, hr, hid, b hn, by simpa using hw⟩
  · intro t ht hfile hdata
    have htx : is_tx_of I t = true := (is_tx_of_iff I t).2 ⟨hfile, hdata⟩
    have hfind := find_tx_of_mem _ hl.tx_unique I t ht htx
    have hrec := gds_set_seq_no_records true f I v
    have hlast := gds_set_seq_no_last_call f I v t hfind
    rw [hfind] at hrec
    simp only [↓reduceIte] at hrec
    have hfst := (gds_set_seq_no_frame true f I v).1
    rw [hfind] at hfst
    have hk : (f.lookup I).isSome = true := by simp [Fds.lookup, lookup_seq, hfind]
    obtain ⟨g1, g2⟩ := lookup_to_get _ _ _ (gds_set_seq_no_lookup_same f I v hinv hk)
    refine ⟨by simpa using hfst, ?_, ?_, ?_, g1, g2⟩
    · intro x hx w hxf hxd
      have hs : is_seq_of t.record_id x = true := (is_seq_of_iff _ x).2 ⟨hxf, w, hxd⟩
      have hfs := find_seq_of_mem _ hl.seq_unique _ x hx hs
      rw [hfs] at hlast
      rw [hrec]
      simp only [set_records, hfs]
      exact ⟨hlast, trivial⟩
    · intro hno
      have hfs : f.records.find? (is_seq_of t.record_id) = none := by
        rw [List.find?_eq_none]
        intro q hq hs
        exact hno ⟨q, hq, (is_seq_of_iff _ q).1 hs⟩
      rw [hfs] at hlast
      rw [hrec]
      simp only [set_records, hfs]
      exact ⟨hlast, trivial⟩
    · rw [hrec, set_records_filter_seq _ _ _ _ hinv]
      rfl

/-- Witness of C13: the sequence number of transmitter A in the example store
is set to 9, and that of the unknown transmitter B is not set. -/
theorem gds_set_seq_no_postcondition_witness :
    StoreReachable ex_fds_a5 ∧
    (¬ ∃ r ∈ ex_fds_a5.records, r.file_id = GDS_TXINFO_FILE_ID ∧ r.data = .tx ⟨ex_uuid_b⟩) ∧
    (gds_set_seq_no true ex_fds_a5 ex_uuid_b 9).1 = false ∧
    (gds_get_seq_no (gds_set_seq_no true ex_fds_a5 ex_uuid_a 9).2 ex_uuid_a).2.1 = 9 :=
  have h := gds_set_seq_no_postcondition ex_fds_a5 ex_uuid_a 9 ex_fds_a5_reachable
  have hb := gds_set_seq_no_postcondition ex_fds_a5 ex_uuid_b 9 ex_fds_a5_reachable
  have hno : ¬ ∃ r ∈ ex_fds_a5.records,
      r.file_id = GDS_TXINFO_FILE_ID ∧ r.data = .tx ⟨ex_uuid_b⟩ := by decide
  ⟨ex_fds_a5_reachable, hno, (hb.1 hno true).1,
    (h.2 ⟨1, GDS_TXINFO_FILE_ID, .tx ⟨ex_uuid_a⟩⟩ (by decide) rfl rfl).2.2.2.2.2⟩

/-- C15, the code at the failing input: transmitter A has a transmitter
record in the example store and the storage rejects the update request of
`gds_set_seq_no`; the function returns true although neither the records nor
the stored sequence number 5 changed. `gds_create_tx_record` returns false
when the storage rejects its write request. -/
theorem gds_set_seq_no_rejected_returns_true :
    (∃ r ∈ ex_fds_a5.records, r.file_id = GDS_TXINFO_FILE_ID ∧ r.data = .tx ⟨ex_uuid_a⟩) ∧
    (gds_set_seq_no false ex_fds_a5 ex_uuid_a 6).1 = true ∧
    (gds_set_seq_no false ex_fds_a5 ex_uuid_a 6).2.records = ex_fds_a5.records ∧
    (gds_get_seq_no (gds_set_seq_no false ex_fds_a5 ex_uuid_a 6).2 ex_uuid_a).2.1 = 5 ∧
    (gds_create_tx_record false Fds.empty ex_uuid_a).1 = false := by
  decide

theorem filter_length_le_one {α : Type} (p : α → Bool) (l : List α)
    (h : l.Pairwise (fun a b => p a = true → p b = true → False)) :
    (l.filter p).length ≤ 1 := by
  induction l with
  | nil => simp
  | cons a l ih =>
    rw [List.pairwise_cons] at h
    by_cases ha : p a = true
    · have : l.filter p = [] := by
        rw [List.filter_eq_nil_iff]
        intro b hb hpb
        exact h.1 b hb ha hpb
      simp [List.filter, ha, this]
    · simpa [List.filter, ha] using ih h.2

theorem handle_adv_data_reachable (c : Crypto) (tx_ok seq_ok : Bool) (s : State)
    (ad : gd_adv_data_t) (h : StoreReachable s.fds) :
    StoreReachable (handle_adv_data c tx_ok seq_ok s ad).fds := by
  have hG := StoreReachable.get_seq_no s.fds ad.uuid h
  rw [handle_adv_data_eq]
  repeat' split
  · exact h
  · exact h
  · exact StoreReachable.set_seq_no _ _ _ _ hG
  · exact hG
  · exact StoreReachable.set_seq_no _ _ _ _ (StoreReachable.create_tx_record _ _ _ hG)
  · exact hG

/-- C16, counterexample: the store after `gds_create_tx_record` for
transmitter A on the empty store is reachable and holds a transmitter record
for A but no sequence number record that names it. -/
theorem registry_without_seq_record :
    StoreReachable ex_fds_a_new ∧
    ∃ t ∈ ex_fds_a_new.records, t.file_id = GDS_TXINFO_FILE_ID ∧ t.data = .tx ⟨ex_uuid_a⟩ ∧
      ¬ ∃ q ∈ ex_fds_a_new.records, q.file_id = GDS_TXINFO_FILE_ID ∧
        ∃ v : Nat, q.data = .seq ⟨t.record_id, v⟩ := by
  refine ⟨StoreReachable.create_tx_record true _ ex_uuid_a StoreReachable.empty,
    ⟨1, GDS_TXINFO_FILE_ID, .tx ⟨ex_uuid_a⟩⟩, by decide, rfl, rfl, ?_⟩
  rintro ⟨q, hq, hf, v, hv⟩
  have hs : is_seq_of 1 q = true := (is_seq_of_iff 1 q).2 ⟨hf, v, hv⟩
  have hall : ∀ r ∈ ex_fds_a_new.records, is_seq_of 1 r = false := by decide
  rw [hall q hq] at hs
  exact Bool.noConfusion hs

/-- C16, amended: in every store that the firmware can reach from the empty
store through `handle_adv_data`, `gds_create_tx_record`, `gds_set_seq_no`,
`gds_clear` and `gds_tasks`, the `txrecid` of every sequence number record is
the record ID of a transmitter record of the store, and a transmitter record
has at most one sequence number record. `handle_adv_data` keeps the store
among the reachable ones. -/
theorem store_links_invariant (f : Fds) (hreach : StoreReachable f) :
    (∀ q ∈ f.records, ∀ id v : Nat, q.file_id = GDS_TXINFO_FILE_ID →
      q.data = .seq ⟨id, v⟩ →
      ∃ t ∈ f.records, t.record_id = id ∧ t.file_id = GDS_TXINFO_FILE_ID ∧
        ∃ u : ble_uuid128_t, t.data = .tx ⟨u⟩) ∧
    (∀ t ∈ f.records, (f.records.filter (is_seq_of t.record_id)).length ≤ 1) ∧
    (∀ (c : Crypto) (tx_ok seq_ok : Bool) (s : State) (ad : gd_adv_data_t), s.fds = f →
      StoreReachable (handle_adv_data c tx_ok seq_ok s ad).fds) := by
  have hl := hreach.links
  refine ⟨?_, ?_, ?_⟩
  · intro q hq id v hf hd
    obtain ⟨t, ht, he, u, hu⟩ := hl.seq_has_tx q hq id ((is_seq_of_iff id q).2 ⟨hf, v, hd⟩)
    obtain ⟨h1, h2⟩ := (is_tx_of_iff u t).1 hu
    exact ⟨t, ht, he, h1, u, h2⟩
  · intro t _
    apply filter_length_le_one
    exact List.Pairwise.imp (fun h => h t.record_id) hl.seq_unique
  · intro c tx_ok seq_ok s ad hs
    subst hs
    exact handle_adv_data_reachable c tx_ok seq_ok s ad hreach

/-- Witness of C16 (amended): the sequence number record of the example store
names the transmitter record of A. -/
theorem store_links_invariant_witness :
    StoreReachable ex_fds_a5 ∧
    (∃ t ∈ ex_fds_a5.records, t.record_id = 1 ∧ t.file_id = GDS_TXINFO_FILE_ID ∧
      ∃ u : ble_uuid128_t, t.data = .tx ⟨u⟩) ∧
    (ex_fds_a5.records.filter (is_seq_of 1)).length ≤ 1 :=
  have h := store_links_invariant ex_fds_a5 ex_fds_a5_reachable
  ⟨ex_fds_a5_reachable,
    h.1 ⟨2, GDS_TXINFO_FILE_ID, .seq ⟨1, 5⟩⟩ (by decide) 1 5 rfl rfl,
    h.2.1 ⟨1, GDS_TXINFO_FILE_ID, .tx ⟨ex_uuid_a⟩⟩ (by decide)⟩

/-- C17. Factory clear: after an accepted `gds_clear` the store holds no
record of the file 0x1000 (the records of other files stay), `gds_get_seq_no`
returns false for every UUID, and outside learn mode a valid message of
whatever transmitter is rejected as unknown: the relay and the records stay
as they are. -/
theorem gds_clear_postcondition (f : Fds) :
    (gds_clear true f).records = f.records.filter (fun r => r.file_id ≠ GDS_TXINFO_FILE_ID) ∧
    (∀ r ∈ (gds_clear true f).records, r.file_id ≠ GDS_TXINFO_FILE_ID) ∧
    (∀ I : ble_uuid128_t, (gds_get_seq_no (gds_clear true f) I).1 = false ∧
      (gds_get_seq_no (gds_clear true f) I).2.1 = 0) ∧
    (∀ (c : Crypto) (tx_ok seq_ok : Bool) (s : State) (ad : gd_adv_data_t),
      s.fds = gds_clear true f → s.gd_rx_disable_ctr = 0 →
      gd_msg_check_digest c ad.uuid ad.msg = true → s.gd_learn_ctr = 0 →
      (handle_adv_data c tx_ok seq_ok s ad).gd_relay_timer = s.gd_relay_timer ∧
      (handle_adv_data c tx_ok seq_ok s ad).relay_pin = s.relay_pin ∧
      (handle_adv_data c tx_ok seq_ok s ad).fds.records = s.fds.records ∧
      (gds_get_seq_no (handle_adv_data c tx_ok seq_ok s ad).fds ad.uuid).1 = false) := by
  have hrec : (gds_clear true f).records
      = f.records.filter (fun r => r.file_id ≠ GDS_TXINFO_FILE_ID) := by
    simp [gds_clear, fds_file_delete, Fds.call]
  have hnone : ∀ r ∈ (gds_clear true f).records, r.file_id ≠ GDS_TXINFO_FILE_ID := by
    intro r hr
    rw [hrec, List.mem_filter] at hr
    simpa using hr.2
  have hlk : ∀ I : ble_uuid128_t, (gds_clear true f).lookup I = none := by
    intro I
    have : (gds_clear true f).records.find? (is_tx_of I) = none := by
      rw [List.find?_eq_none]
      intro r hr hq
      exact hnone r hr ((is_tx_of_iff I r).1 hq).1
    simp [Fds.lookup, lookup_seq, this]
  refine ⟨hrec, hnone, ?_, ?_⟩
  · intro I
    rw [gds_get_seq_no_fst, gds_get_seq_no_val]
    have := hlk I
    unfold Fds.lookup at this
    simp [this]
  · intro c tx_ok seq_ok s ad hs hrx hdig hlearn
    have hl : s.fds.lookup ad.uuid = none := by rw [hs]; exact hlk ad.uuid
    rw [not_learning_state c tx_ok seq_ok s ad hrx hdig hl hlearn]
    refine ⟨rfl, rfl, (gds_get_seq_no_store s.fds ad.uuid).1, ?_⟩
    simp only
    rw [gds_get_seq_no_fst, (gds_get_seq_no_store s.fds ad.uuid).1]
    unfold Fds.lookup at hl
    simp [hl]

/-- Witness of C17: after the factory clear the valid message of transmitter A
with the fresh sequence number 6 does not arm the relay. -/
theorem gds_clear_postcondition_witness :
    ex_state_cleared.fds = gds_clear true ex_fds_a5 ∧ ex_state_cleared.gd_rx_disable_ctr = 0 ∧
    gd_msg_check_digest ex_crypto ex_adv_a6.uuid ex_adv_a6.msg = true ∧
    ex_state_cleared.gd_learn_ctr = 0 ∧
    (gds_get_seq_no ex_fds_a5 ex_uuid_a).1 = true ∧
    (handle_adv_data ex_crypto true true ex_state_cleared ex_adv_a6).gd_relay_timer
      = ex_state_cleared.gd_relay_timer :=
  ⟨rfl, rfl, by decide, rfl, by decide,
    ((gds_clear_postcondition ex_fds_a5).2.2.2 ex_crypto true true ex_state_cleared ex_adv_a6
      rfl rfl (by decide) rfl).1⟩

theorem gds_tasks_eq (cfg : FdsConfig) (stat_ok gc_ok : Bool) (f : Fds) :
    gds_tasks cfg stat_ok gc_ok f =
      if stat_ok = true ∧
          f.freeable_words > (cfg.FDS_VIRTUAL_PAGES - 2) * cfg.FDS_VIRTUAL_PAGE_SIZE then
        { f with calls := f.calls ++ [.stat, .gc]
                 freeable_words := if gc_ok then 0 else f.freeable_words }
      else { f with calls := f.calls ++ [.stat] } := by
  unfold gds_tasks fds_stat fds_gc Fds.call GDS_GC_THRESHOLD
  cases stat_ok <;> cases gc_ok <;> simp

/-- C18. Threshold and idempotence of `gds_tasks`: it requests the garbage
collection if and only if `fds_stat` succeeds and `freeable_words` is greater
than `(FDS_VIRTUAL_PAGES - 2) * FDS_VIRTUAL_PAGE_SIZE`. With `freeable_words`
at or below this threshold it only reads the statistics: the history of FDS
calls gains the one `fds_stat` call and the store is otherwise the same, so
after any number of calls the records, the ID counter and the reclaimable
words are those of the store before. -/
theorem gds_tasks_threshold (cfg : FdsConfig) (f : Fds) :
    (∀ stat_ok gc_ok : Bool,
      (gds_tasks cfg stat_ok gc_ok f).calls
        = f.calls ++ (if stat_ok = true ∧ f.freeable_words
              > (cfg.FDS_VIRTUAL_PAGES - 2) * cfg.FDS_VIRTUAL_PAGE_SIZE
            then [FdsCall.stat, FdsCall.gc] else [FdsCall.stat]) ∧
      (FdsCall.gc ∈ (gds_tasks cfg stat_ok gc_ok f).calls.drop f.calls.length ↔
        stat_ok = true ∧ f.freeable_words
          > (cfg.FDS_VIRTUAL_PAGES - 2) * cfg.FDS_VIRTUAL_PAGE_SIZE)) ∧
    (f.freeable_words ≤ (cfg.FDS_VIRTUAL_PAGES - 2) * cfg.FDS_VIRTUAL_PAGE_SIZE →
      (∀ stat_ok gc_ok : Bool,
        gds_tasks cfg stat_ok gc_ok f = { f with calls := f.calls ++ [.stat] }) ∧
      ∀ outcomes : List (Bool × Bool),
        gds_tasks_calls cfg outcomes f
          = { f with calls := f.calls ++ List.replicate outcomes.length .stat } ∧
        (gds_tasks_calls cfg outcomes f).records = f.records ∧
        (gds_tasks_calls cfg outcomes f).next_id = f.next_id ∧
        (gds_tasks_calls cfg outcomes f).freeable_words = f.freeable_words) := by
  constructor
  · intro stat_ok gc_ok
    have hc : (gds_tasks cfg stat_ok gc_ok f).calls
        = f.calls ++ (if stat_ok = true ∧ f.freeable_words
              > (cfg.FDS_VIRTUAL_PAGES - 2) * cfg.FDS_VIRTUAL_PAGE_SIZE
            then [FdsCall.stat, FdsCall.gc] else [FdsCall.stat]) := by
      rw [gds_tasks_eq]
      split <;> rfl
    refine ⟨hc, ?_⟩
    rw [hc, List.drop_left]
    split
    · rename_i h; simp [h]
    · rename_i h; simp [h]
  · intro hle
    have hnot : ∀ stat_ok : Bool, ¬ (stat_ok = true ∧ f.freeable_words
        > (cfg.FDS_VIRTUAL_PAGES - 2) * cfg.FDS_VIRTUAL_PAGE_SIZE) :=
      fun _ h => Nat.not_lt.2 hle h.2
    have hone : ∀ (g : Fds), g.freeable_words = f.freeable_words → ∀ stat_ok gc_ok : Bool,
        gds_tasks cfg stat_ok gc_ok g = { g with calls := g.calls ++ [.stat] } := by
      intro g hg stat_ok gc_ok
      rw [gds_tasks_eq, hg]
      simp [hnot stat_ok]
    have hall : ∀ (outcomes : List (Bool × Bool)) (g : Fds),
        g.freeable_words = f.freeable_words →
        gds_tasks_calls cfg outcomes g
          = { g with calls := g.calls ++ List.replicate outcomes.length .stat } := by
      intro outcomes
      induction outcomes with
      | nil => intro g _; simp [gds_tasks_calls]
      | cons p ps ih =>
        intro g hg
        simp only [gds_tasks_calls, List.length_cons]
        rw [hone g hg p.1 p.2, ih { g with calls := g.calls ++ [.stat] } hg]
        simp [List.replicate_succ]
    refine ⟨hone f rfl, ?_⟩
    intro outcomes
    rw [hall outcomes f rfl]
    exact ⟨rfl, rfl, rfl, rfl⟩

/-- Witness of C18: the example store has 5 reclaimable words, below the
threshold of 1024; three calls of `gds_tasks` leave its records as they
are. -/
theorem gds_tasks_threshold_witness :
    ex_fds_a5.freeable_words
      ≤ (ex_cfg.FDS_VIRTUAL_PAGES - 2) * ex_cfg.FDS_VIRTUAL_PAGE_SIZE ∧
    (gds_tasks_calls ex_cfg [(true, true), (false, true), (true, false)] ex_fds_a5).records
      = ex_fds_a5.records :=
  ⟨by decide,
    (((gds_tasks_threshold ex_cfg ex_fds_a5).2 (by decide)).2
      [(true, true), (false, true), (true, false)]).2.1⟩

/-! ### The parser of advertising reports -/

theorem read_octet_mid (pre mid rest : List Byte) (i : Nat) (hi : i < mid.length) :
    read_octet (pre ++ mid ++ rest) (pre.length + i) = mid.getD i 0 := by
  unfold read_octet
  rw [List.getD_eq_getElem?_getD, List.getD_eq_getElem?_getD, List.append_assoc,
    List.getElem?_append_right (by omega)]
  have : pre.length + i - pre.length = i := by omega
  rw [this, List.getElem?_append_left hi]

theorem ad_element_length (b : List Byte) : (ad_element b).length = b.length + 1 := by
  simp [ad_element]

theorem ad_element_val (b : List Byte) (hb : b.length < 256) :
    (Fin.ofNat b.length : Byte).val = b.length := by
  simp [Fin.ofNat, Nat.mod_eq_of_lt hb]

theorem adv_data_at_body (pre b rest : List Byte) (rssi : Int) (hb : b.length = 25) :
    adv_data_at (pre ++ b ++ rest) pre.length rssi =
      { uuid := ⟨fun i => b.getD (1 + i.val) 0⟩
        msg :=
          { cmd := b.getD 17 0
            seq_no := fun i => b.getD (18 + i.val) 0
            digest := fun i => b.getD (21 + i.val) 0 }
        rssi := rssi } := by
  unfold adv_data_at
  congr 1
  · congr 1
    funext i
    rw [Nat.add_assoc, read_octet_mid pre b rest (1 + i.val) (by omega)]
  · congr 1
    · rw [read_octet_mid pre b rest 17 (by omega)]
    · funext i
      rw [Nat.add_assoc, read_octet_mid pre b rest (18 + i.val) (by omega)]
    · funext i
      rw [Nat.add_assoc, read_octet_mid pre b rest (21 + i.val) (by omega)]

/-- One element: the queue after the body of the loop is the queue with the
record of the element put in. -/
theorem element_step (pre b rest : List Byte) (rssi : Int) (st : ReportState) :
    (if (read_octet (pre ++ b ++ rest) pre.length).val = AD_TYPE_SERVICE_DATA128 then
        handle_service_data128 (pre ++ b ++ rest) rssi b.length pre.length
          { st with reads := st.reads ++ [pre.length - 1] ++ [pre.length] }
      else { st with reads := st.reads ++ [pre.length - 1] ++ [pre.length] }).fifo
      = match ad_record rssi b with
        | some ad => adv_fifo_put st.fifo ad
        | none => st.fifo := by
  by_cases h25 : b.length = 25
  · have hread : read_octet (pre ++ b ++ rest) pre.length = b.getD 0 0 := by
      have := read_octet_mid pre b rest 0 (by omega)
      simpa using this
    rw [hread]
    obtain ⟨x, xs, rfl⟩ : ∃ x xs, b = x :: xs := by
      cases b with
      | nil => simp at h25
      | cons x xs => exact ⟨x, xs, rfl⟩
    simp only [List.getD_cons_zero]
    by_cases ht : x.val = AD_TYPE_SERVICE_DATA128
    · have hx : x = 0x21 := Fin.ext ht
      subst hx
      have hrec := adv_data_at_body pre ((0x21 : Byte) :: xs) rest rssi h25
      have hA : ad_record rssi ((0x21 : Byte) :: xs) = some
          { uuid := ⟨fun i => ((0x21 : Byte) :: xs).getD (1 + i.val) 0⟩
            msg :=
              { cmd := ((0x21 : Byte) :: xs).getD 17 0
                seq_no := fun i => ((0x21 : Byte) :: xs).getD (18 + i.val) 0
                digest := fun i => ((0x21 : Byte) :: xs).getD (21 + i.val) 0 }
            rssi := rssi } := by
        simp only [ad_record, h25, List.head?_cons, and_self, ↓reduceIte]
      rw [hA, if_pos ht]
      unfold handle_service_data128
      rw [hrec, if_neg (not_not.2 h25)]
      by_cases hfull : st.fifo.length < GD_ADV_FIFO_SIZE
      · simp only [hfull, ↓reduceIte, adv_fifo_put]
      · simp only [hfull, ↓reduceIte, adv_fifo_put]
    · have hx : ¬ x = 0x21 := fun h => ht (by rw [h]; rfl)
      simp [ht, ad_record, hx]
  · have : ad_record rssi b = none := by simp [ad_record, h25]
    rw [this]
    simp only [handle_service_data128, h25, ne_eq, not_false_eq_true, ↓reduceIte]
    split <;> rfl
/-- The loop on a report that consists of the elements `bodies` and the tail
`tail` at which the parser stops, from the index behind `pre`: it returns,
and the queue is the one with the records of the elements put in. -/
theorem parse_elements (rssi : Int) (bodies : List (List Byte)) :
    ∀ (pre tail rest : List Byte) (fuel : Nat) (st : ReportState),
      (∀ b ∈ bodies, b.length < 256) → ad_stop tail →
      (ad_encode bodies ++ tail).length ≤ fuel →
      ∃ st2 : ReportState,
        handle_adv_report_loop (pre ++ (ad_encode bodies ++ tail) ++ rest)
          (pre.length + (ad_encode bodies ++ tail).length) rssi fuel pre.length st = some st2 ∧
        st2.fifo = (bodies.filterMap (ad_record rssi)).foldl adv_fifo_put st.fifo := by
  induction bodies with
  | nil =>
    intro pre tail rest fuel st _ hstop hfuel
    simp only [ad_encode, List.nil_append, List.filterMap_nil, List.foldl_nil]
    rcases hstop with rfl | ⟨l, r, rfl, hl⟩
    · refine ⟨st, ?_, rfl⟩
      cases fuel <;> simp [handle_adv_report_loop]
    · simp only [ad_encode, List.nil_append, List.length_cons] at hfuel
      obtain ⟨k, rfl⟩ : ∃ k, fuel = k + 1 := ⟨fuel - 1, by omega⟩
      have hread : read_octet (pre ++ l :: r ++ rest) pre.length = l := by
        have := read_octet_mid pre (l :: r) rest 0 (by simp)
        simpa using this
      refine ⟨{ st with reads := st.reads ++ [pre.length] }, ?_, rfl⟩
      simp only [handle_adv_report_loop, hread, List.length_cons]
      have h1 : pre.length < pre.length + (r.length + 1) := by omega
      have h2 : pre.length + 1 + l.val > pre.length + (r.length + 1) := by omega
      simp only [h1, h2, ↓reduceIte]
  | cons b bs ih =>
    intro pre tail rest fuel st hb hstop hfuel
    have hblen := hb b (List.mem_cons_self _ _)
    have hbs : ∀ x ∈ bs, x.length < 256 := fun x hx => hb x (List.mem_cons_of_mem _ hx)
    have hval := ad_element_val b hblen
    simp only [ad_encode, ad_element, List.cons_append, List.append_assoc,
      List.length_cons, List.length_append] at hfuel
    obtain ⟨k, rfl⟩ : ∃ k, fuel = k + 1 := ⟨fuel - 1, by omega⟩
    have hlen : pre.length + (ad_encode (b :: bs) ++ tail).length
        = (pre ++ (Fin.ofNat b.length : Byte) :: b).length + (ad_encode bs ++ tail).length := by
      simp only [ad_encode, ad_element, List.cons_append, List.append_assoc,
        List.length_cons, List.length_append]
      omega
    have hD3 : pre ++ (ad_encode (b :: bs) ++ tail) ++ rest
        = (pre ++ (Fin.ofNat b.length : Byte) :: b) ++ (ad_encode bs ++ tail) ++ rest := by
      simp [ad_encode, ad_element]
    have hD2 : pre ++ (ad_encode (b :: bs) ++ tail) ++ rest
        = (pre ++ [(Fin.ofNat b.length : Byte)]) ++ b ++ (ad_encode bs ++ tail ++ rest) := by
      simp [ad_encode, ad_element]
    have hD1 : pre ++ (ad_encode (b :: bs) ++ tail) ++ rest
        = pre ++ ((Fin.ofNat b.length : Byte) :: (b ++ (ad_encode bs ++ tail))) ++ rest := by
      simp [ad_encode, ad_element]
    have hread : read_octet (pre ++ (ad_encode (b :: bs) ++ tail) ++ rest) pre.length
        = (Fin.ofNat b.length : Byte) := by
      rw [hD1]
      have := read_octet_mid pre ((Fin.ofNat b.length : Byte) :: (b ++ (ad_encode bs ++ tail)))
        rest 0 (by simp)
      simpa using this
    have hstep := element_step (pre ++ [(Fin.ofNat b.length : Byte)]) b
      (ad_encode bs ++ tail ++ rest) rssi st
    rw [← hD2] at hstep
    simp only [List.length_append, List.length_singleton, Nat.add_sub_cancel] at hstep
    obtain ⟨st2, hrun, hfifo⟩ := ih (pre ++ (Fin.ofNat b.length : Byte) :: b) tail rest k
      (if (read_octet (pre ++ (ad_encode (b :: bs) ++ tail) ++ rest) (pre.length + 1)).val
            = AD_TYPE_SERVICE_DATA128 then
          handle_service_data128 (pre ++ (ad_encode (b :: bs) ++ tail) ++ rest) rssi b.length
            (pre.length + 1) { st with reads := st.reads ++ [pre.length] ++ [pre.length + 1] }
        else { st with reads := st.reads ++ [pre.length] ++ [pre.length + 1] })
      hbs hstop (by simp only [List.length_append]; omega)
    rw [← hD3, ← hlen] at hrun
    refine ⟨st2, ?_, ?_⟩
    · rw [← hrun]
      generalize pre ++ (ad_encode (b :: bs) ++ tail) ++ rest = D at hread ⊢
      generalize hL : pre.length + (ad_encode (b :: bs) ++ tail).length = len
      have h1 : pre.length < len := by
        rw [← hL]
        simp only [ad_encode, ad_element, List.cons_append, List.append_assoc,
          List.length_cons, List.length_append]
        omega
      have h2 : ¬ pre.length + 1 + b.length > len := by
        rw [← hL]
        simp only [ad_encode, ad_element, List.cons_append, List.append_assoc,
          List.length_cons, List.length_append]
        omega
      have hnext : (pre ++ (Fin.ofNat b.length : Byte) :: b).length
          = pre.length + 1 + b.length := by
        simp only [List.length_append, List.length_cons]
        omega
      rw [hnext]
      simp only [handle_adv_report_loop, hread, hval, h1, h2, ↓reduceIte,
        List.append_assoc]
    · rw [hfifo, hstep]
      cases hrec : ad_record rssi b <;> simp [List.filterMap_cons, hrec]
theorem ad_decompose (n : Nat) :
    ∀ l : List Byte, l.length ≤ n →
      ∃ (bodies : List (List Byte)) (tail : List Byte),
        l = ad_encode bodies ++ tail ∧ (∀ b ∈ bodies, b.length < 256) ∧ ad_stop tail := by
  induction n with
  | zero =>
    intro l hl
    have : l = [] := List.length_eq_zero.1 (by omega)
    subst this
    exact ⟨[], [], rfl, fun _ h => by simp at h, Or.inl rfl⟩
  | succ n ih =>
    intro l hl
    cases l with
    | nil => exact ⟨[], [], rfl, fun _ h => by simp at h, Or.inl rfl⟩
    | cons x r =>
      by_cases hx : x.val > r.length
      · exact ⟨[], x :: r, rfl, fun _ h => by simp at h, Or.inr ⟨x, r, rfl, hx⟩⟩
      · have hr : (r.drop x.val).length ≤ n := by
          simp only [List.length_drop, List.length_cons] at hl ⊢
          omega
        obtain ⟨bodies, tail, hsplit, hb, hstop⟩ := ih (r.drop x.val) hr
        have htl : (r.take x.val).length = x.val := by
          rw [List.length_take]
          omega
        refine ⟨r.take x.val :: bodies, tail, ?_, ?_, hstop⟩
        · have hfin : (Fin.ofNat (r.take x.val).length : Byte) = x := by
            apply Fin.ext
            rw [htl]
            simp [Fin.ofNat, Nat.mod_eq_of_lt x.isLt]
          simp only [ad_encode, ad_element, hfin, List.cons_append, List.append_assoc]
          rw [← hsplit, List.take_append_drop]
        · intro b hbm
          rw [List.mem_cons] at hbm
          rcases hbm with rfl | hbm
          · rw [htl]; exact x.isLt
          · exact hb b hbm

/-- C11. Reference behaviour of the parser: the first `len` octets of every
report buffer are a sequence of advertising data elements (a length octet and
as many octets as it says) followed by a tail that is empty or begins with a
length octet that exceeds the octets that remain. For every such reading of
the report `handle_adv_report` returns, and the queue afterwards is the one
before with the records of the elements put in, in order and as long as it
has a free slot: an element of 25 octets with the type octet 0x21 gives the
record with the 16 octets after the type octet as UUID, the following 8 octets
as message and the RSSI of the report; other elements, the tail and what
follows it give nothing. -/
theorem handle_adv_report_reference (data : List Byte) (len : Nat) (rssi : Int)
    (fifo : List gd_adv_data_t) (hlen : len ≤ data.length) :
    (∃ (bodies : List (List Byte)) (tail : List Byte),
      data.take len = ad_encode bodies ++ tail ∧ (∀ b ∈ bodies, b.length < 256) ∧
      ad_stop tail) ∧
    (∀ (bodies : List (List Byte)) (tail : List Byte),
      data.take len = ad_encode bodies ++ tail → (∀ b ∈ bodies, b.length < 256) →
      ad_stop tail →
      ∃ st : ReportState, handle_adv_report data len rssi fifo = some st ∧
        st.fifo = (bodies.filterMap (ad_record rssi)).foldl adv_fifo_put fifo) := by
  refine ⟨ad_decompose len (data.take len) (by simp), ?_⟩
  intro bodies tail hsplit hb hstop
  have hl : (ad_encode bodies ++ tail).length = len := by
    rw [← hsplit, List.length_take]
    omega
  have h := parse_elements rssi bodies [] tail (data.drop len) len ⟨fifo, []⟩ hb hstop
    (by omega)
  simp only [List.nil_append, List.length_nil, Nat.zero_add] at h
  rw [← hsplit, List.take_append_drop, List.length_take, Nat.min_eq_left hlen] at h
  exact h

/-- Witness of C11: a report with the service data element of transmitter A, a
flags element and a bad length octet puts one record into the empty queue, the
one of A with the sequence number 6. -/
theorem handle_adv_report_reference_witness :
    31 ≤ ex_report.length ∧
    ex_report.take 31 = ad_encode [ex_body_a6, [1, 6]] ++ [9, 0] ∧
    ∃ st : ReportState, handle_adv_report ex_report 31 (-40) [] = some st ∧
      st.fifo.map (fun ad => (List.ofFn ad.uuid.uuid128, gd_msg_get_seqno ad.msg))
        = [(List.ofFn ex_uuid_a.uuid128, 6)] := by
  have hstop : ad_stop [9, 0] := Or.inr ⟨9, [0], rfl, by decide⟩
  obtain ⟨st, h1, h2⟩ := (handle_adv_report_reference ex_report 31 (-40) [] (by decide)).2
    [ex_body_a6, [1, 6]] [9, 0] (by decide) (by decide) hstop
  refine ⟨by decide, by decide, st, h1, ?_⟩
  rw [h2]
  decide

/-! ### The tick counters -/

theorem tick_counters_one (b : Bool) (s : State) :
    (timer_tick_handler b s).gd_relay_timer = s.gd_relay_timer - 1 ∧
    (timer_tick_handler b s).gd_learn_ctr = s.gd_learn_ctr - 1 ∧
    (timer_tick_handler b s).gd_rx_disable_ctr = s.gd_rx_disable_ctr - 1 := by
  rw [timer_tick_handler_eq]
  obtain ⟨_, h1, _, h2, h3, _⟩ := button_tick_frame b
    { s with
      timer_ticks := (s.timer_ticks + 1) % 2 ^ 64
      gd_relay_timer := s.gd_relay_timer - 1
      relay_pin := if s.gd_relay_timer = 1 then false else s.relay_pin
      gd_learn_ctr := s.gd_learn_ctr - 1
      gd_rx_disable_ctr := s.gd_rx_disable_ctr - 1 }
  exact ⟨h1, h2, h3⟩

theorem ticks_counters (bs : List Bool) (s : State) :
    (ticks bs s).gd_relay_timer = s.gd_relay_timer - bs.length ∧
    (ticks bs s).gd_learn_ctr = s.gd_learn_ctr - bs.length ∧
    (ticks bs s).gd_rx_disable_ctr = s.gd_rx_disable_ctr - bs.length := by
  induction bs generalizing s with
  | nil => exact ⟨rfl, rfl, rfl⟩
  | cons b bs ih =>
    obtain ⟨a1, a2, a3⟩ := tick_counters_one b s
    obtain ⟨i1, i2, i3⟩ := ih (timer_tick_handler b s)
    simp only [ticks, List.length_cons]
    rw [i1, i2, i3, a1, a2, a3]
    exact ⟨by omega, by omega, by omega⟩

/-- C22. Tick counters: one `timer_tick_handler` call replaces each of the
relay, learn and rx-disable counters `c` by `c - 1` if `c > 0` and leaves it
at 0 otherwise, whatever the other counters, the button level and the button
state are. Hence after `k` ticks a counter is `c - k` or 0: a counter armed to
`n` is positive after fewer than `n` ticks and 0 from the `n`-th tick on (as
long as it is not armed again). The learn window is armed to 100 ticks
(10 s). -/
theorem tick_counters (b : Bool) (s : State) (bs : List Bool) :
    ((timer_tick_handler b s).gd_relay_timer
        = if s.gd_relay_timer > 0 then s.gd_relay_timer - 1 else 0) ∧
    ((timer_tick_handler b s).gd_learn_ctr
        = if s.gd_learn_ctr > 0 then s.gd_learn_ctr - 1 else 0) ∧
    ((timer_tick_handler b s).gd_rx_disable_ctr
        = if s.gd_rx_disable_ctr > 0 then s.gd_rx_disable_ctr - 1 else 0) ∧
    ((ticks bs s).gd_relay_timer = s.gd_relay_timer - bs.length ∧
      (ticks bs s).gd_learn_ctr = s.gd_learn_ctr - bs.length ∧
      (ticks bs s).gd_rx_disable_ctr = s.gd_rx_disable_ctr - bs.length) ∧
    ((gd_is_relay_active (ticks bs s) = true ↔ bs.length < s.gd_relay_timer) ∧
      (gd_is_learning (ticks bs s) = true ↔ bs.length < s.gd_learn_ctr) ∧
      (gd_is_rx_disabled (ticks bs s) = true ↔ bs.length < s.gd_rx_disable_ctr)) ∧
    ((gd_start_learning s).gd_learn_ctr = 100 ∧
      timer_ticks_from_ms GD_LEARN_DURATION_MS = 100 ∧
      (gd_is_learning (ticks bs (gd_start_learning s)) = true ↔ bs.length < 100)) := by
  obtain ⟨a1, a2, a3⟩ := tick_counters_one b s
  obtain ⟨t1, t2, t3⟩ := ticks_counters bs s
  obtain ⟨_, l2, _⟩ := ticks_counters bs (gd_start_learning s)
  have hl : (gd_start_learning s).gd_learn_ctr = 100 := rfl
  refine ⟨?_, ?_, ?_, ⟨t1, t2, t3⟩, ⟨?_, ?_, ?_⟩, hl, rfl, ?_⟩
  · rw [a1]; split <;> omega
  · rw [a2]; split <;> omega
  · rw [a3]; split <;> omega
  · simp only [gd_is_relay_active, t1, decide_eq_true_eq]; omega
  · simp only [gd_is_learning, t2, decide_eq_true_eq]; omega
  · simp only [gd_is_rx_disabled, t3, decide_eq_true_eq]; omega
  · simp only [gd_is_learning, l2, hl, decide_eq_true_eq]; omega

/-! ### Isolation of the transmitters -/

theorem handle_adv_data_lookup_other (c : Crypto) (tx_ok seq_ok : Bool) (s : State)
    (ad : gd_adv_data_t) (w : ble_uuid128_t) (h : s.fds.inv) (hw : w ≠ ad.uuid) :
    (handle_adv_data c tx_ok seq_ok s ad).fds.lookup w = s.fds.lookup w := by
  have hG := gds_get_seq_no_inv s.fds ad.uuid h
  have hGl := gds_get_seq_no_lookup s.fds ad.uuid w
  rw [handle_adv_data_eq]
  repeat' split
  · rfl
  · rfl
  · simp only [gd_activate_relay]
    rw [gds_set_seq_no_lookup_other _ _ _ _ _ hG hw, hGl]
  · exact hGl
  · simp only
    rw [gds_set_seq_no_lookup_other _ _ _ _ _ (gds_create_tx_record_inv _ _ _ hG) hw,
      gds_create_tx_record_lookup_other _ _ _ _ hw, hGl]
  · exact hGl

theorem get_of_lookup_eq (f g : Fds) (u : ble_uuid128_t) (h : g.lookup u = f.lookup u) :
    (gds_get_seq_no g u).1 = (gds_get_seq_no f u).1 ∧
    (gds_get_seq_no g u).2.1 = (gds_get_seq_no f u).2.1 := by
  rw [gds_get_seq_no_fst, gds_get_seq_no_fst, gds_get_seq_no_val, gds_get_seq_no_val]
  unfold Fds.lookup at h
  rw [h]
  exact ⟨rfl, rfl⟩

/-- C25. Isolation of the transmitters: in a store that the firmware can reach
and for two different UUIDs I and J, neither `gds_set_seq_no` for I, nor
`gds_create_tx_record` for I, nor `handle_adv_data` for an advertisement of I
changes what `gds_get_seq_no` returns for J (whether J is known, and its
stored sequence number), whatever the storage accepts. -/
theorem per_transmitter_isolation (f : Fds) (I J : ble_uuid128_t)
    (hreach : StoreReachable f) (hne : I ≠ J) :
    (∀ (ok : Bool) (v : Nat),
      (gds_get_seq_no (gds_set_seq_no ok f I v).2 J).1 = (gds_get_seq_no f J).1 ∧
      (gds_get_seq_no (gds_set_seq_no ok f I v).2 J).2.1 = (gds_get_seq_no f J).2.1) ∧
    (∀ ok : Bool,
      (gds_get_seq_no (gds_create_tx_record ok f I).2 J).1 = (gds_get_seq_no f J).1 ∧
      (gds_get_seq_no (gds_create_tx_record ok f I).2 J).2.1 = (gds_get_seq_no f J).2.1) ∧
    (∀ (c : Crypto) (tx_ok seq_ok : Bool) (s : State) (ad : gd_adv_data_t),
      s.fds = f → ad.uuid = I →
      (gds_get_seq_no (handle_adv_data c tx_ok seq_ok s ad).fds J).1
        = (gds_get_seq_no f J).1 ∧
      (gds_get_seq_no (handle_adv_data c tx_ok seq_ok s ad).fds J).2.1
        = (gds_get_seq_no f J).2.1) := by
  have hinv := hreach.inv
  have hJ : J ≠ I := fun h => hne h.symm
  refine ⟨?_, ?_, ?_⟩
  · intro ok v
    exact get_of_lookup_eq _ _ J (gds_set_seq_no_lookup_other ok f I J v hinv hJ)
  · intro ok
    exact get_of_lookup_eq _ _ J (gds_create_tx_record_lookup_other ok f I J hJ)
  · intro c tx_ok seq_ok s ad hs hu
    subst hs
    subst hu
    exact get_of_lookup_eq _ _ J (handle_adv_data_lookup_other c tx_ok seq_ok s ad J hinv hJ)
theorem ex_fds_a5_b9_reachable : StoreReachable ex_fds_a5_b9 :=
  StoreReachable.set_seq_no true _ ex_uuid_b 9
    (StoreReachable.create_tx_record true _ ex_uuid_b ex_fds_a5_reachable)

/-- Witness of C25: in the store that knows A with 5 and B with 9, the accepted
message of A with the sequence number 6 leaves the stored number of B at 9. -/
theorem per_transmitter_isolation_witness :
    StoreReachable ex_fds_a5_b9 ∧ ex_uuid_a ≠ ex_uuid_b ∧
    (gds_get_seq_no ex_fds_a5_b9 ex_uuid_b).2.1 = 9 ∧
    (gds_get_seq_no (handle_adv_data ex_crypto true true (State.init ex_fds_a5_b9)
      ex_adv_a6).fds ex_uuid_a).2.1 = 6 ∧
    (gds_get_seq_no (handle_adv_data ex_crypto true true (State.init ex_fds_a5_b9)
      ex_adv_a6).fds ex_uuid_b).2.1 = (gds_get_seq_no ex_fds_a5_b9 ex_uuid_b).2.1 :=
  have hne : ex_uuid_a ≠ ex_uuid_b := by
    intro h
    have := congrArg (fun u => u.uuid128 0) h
    exact absurd this (by decide)
  ⟨ex_fds_a5_b9_reachable, hne, by decide, by decide,
    ((per_transmitter_isolation ex_fds_a5_b9 ex_uuid_a ex_uuid_b ex_fds_a5_b9_reachable
      hne).2.2 ex_crypto true true (State.init ex_fds_a5_b9) ex_adv_a6 rfl rfl).2⟩

/-! ### The relay and the persisted sequence number -/

/-- C23, the code at the failing input: transmitter A has the stored sequence
number 5 and sends a valid message with the sequence number 6 while the
storage rejects the update request. `handle_adv_data` arms the relay although
the stored sequence number is still 5; after the relay timer ran out (10
ticks) the same advertisement arms the relay again. -/
theorem relay_armed_without_persisted_seq_no :
    gd_msg_get_seqno ex_adv_a6.msg = 6 ∧
    (gds_get_seq_no ex_state_a5.fds ex_uuid_a).2.1 = 5 ∧
    (handle_adv_data ex_crypto true false ex_state_a5 ex_adv_a6).gd_relay_timer = 10 ∧
    (handle_adv_data ex_crypto true false ex_state_a5 ex_adv_a6).relay_pin = true ∧
    (gds_get_seq_no (handle_adv_data ex_crypto true false ex_state_a5 ex_adv_a6).fds
      ex_uuid_a).2.1 = 5 ∧
    (ticks (List.replicate 10 false)
      (handle_adv_data ex_crypto true false ex_state_a5 ex_adv_a6)).gd_relay_timer = 0 ∧
    (ticks (List.replicate 10 false)
      (handle_adv_data ex_crypto true false ex_state_a5 ex_adv_a6)).relay_pin = false ∧
    (ticks (List.replicate 10 false)
      (handle_adv_data ex_crypto true false ex_state_a5 ex_adv_a6)).gd_rx_disable_ctr = 0 ∧
    (handle_adv_data ex_crypto true true
      (ticks (List.replicate 10 false)
        (handle_adv_data ex_crypto true false ex_state_a5 ex_adv_a6))
      ex_adv_a6).gd_relay_timer = 10 ∧
    (handle_adv_data ex_crypto true true
      (ticks (List.replicate 10 false)
        (handle_adv_data ex_crypto true false ex_state_a5 ex_adv_a6))
      ex_adv_a6).relay_pin = true := by
  decide

/-! ### The indices that the parser reads -/

theorem handle_service_data128_reads (data : List Byte) (rssi : Int) (l ndx len : Nat)
    (st : ReportState) (hl : ndx + l ≤ len) :
    ∀ i ∈ (handle_service_data128 data rssi l ndx st).reads, i ∈ st.reads ∨ i < len := by
  intro i hi
  unfold handle_service_data128 at hi
  by_cases h25 : l = 25
  · by_cases hfull : st.fifo.length < GD_ADV_FIFO_SIZE
    · simp only [h25, ne_eq, not_true_eq_false, ↓reduceIte, hfull, List.mem_append,
        List.mem_map, List.mem_range] at hi
      rcases hi with hi | ⟨j, hj, rfl⟩
      · exact Or.inl hi
      · right; omega
    · simp only [h25, ne_eq, not_true_eq_false, ↓reduceIte, hfull] at hi
      exact Or.inl hi
  · simp only [ne_eq, h25, not_false_eq_true, ↓reduceIte] at hi
    exact Or.inl hi

/-- The loop returns when the fuel covers the octets that are left, and it
reads no index beyond `len`. -/
theorem handle_adv_report_loop_reads (data : List Byte) (len : Nat) (rssi : Int) :
    ∀ (fuel ndx : Nat) (st : ReportState), len ≤ ndx + fuel →
      ∃ st2 : ReportState, handle_adv_report_loop data len rssi fuel ndx st = some st2 ∧
        ∀ i ∈ st2.reads, i ∈ st.reads ∨ i ≤ len := by
  intro fuel
  induction fuel with
  | zero =>
    intro ndx st h
    have : ¬ ndx < len := by omega
    exact ⟨st, by simp [handle_adv_report_loop, this], fun i hi => Or.inl hi⟩
  | succ fuel ih =>
    intro ndx st h
    by_cases hlt : ndx < len
    · by_cases hbig : ndx + 1 + (read_octet data ndx).val > len
      · refine ⟨{ st with reads := st.reads ++ [ndx] }, ?_, ?_⟩
        · simp [handle_adv_report_loop, hlt, hbig]
        · intro i hi
          simp only [List.mem_append, List.mem_singleton] at hi
          rcases hi with hi | rfl
          · exact Or.inl hi
          · right; omega
      · obtain ⟨st2, hrun, hreads⟩ := ih (ndx + 1 + (read_octet data ndx).val)
          (if (read_octet data (ndx + 1)).val = AD_TYPE_SERVICE_DATA128 then
            handle_service_data128 data rssi (read_octet data ndx).val (ndx + 1)
              { st with reads := st.reads ++ [ndx] ++ [ndx + 1] }
          else { st with reads := st.reads ++ [ndx] ++ [ndx + 1] }) (by omega)
        refine ⟨st2, ?_, ?_⟩
        · simp only [handle_adv_report_loop, hlt, hbig, ↓reduceIte]
          exact hrun
        · intro i hi
          have hbase : ∀ j ∈ st.reads ++ [ndx] ++ [ndx + 1], j ∈ st.reads ∨ j ≤ len := by
            intro j hj
            simp only [List.mem_append, List.mem_singleton] at hj
            rcases hj with (hj | rfl) | rfl
            · exact Or.inl hj
            · right; omega
            · right; omega
          rcases hreads i hi with hi2 | hi2
          · split at hi2
            · rcases handle_service_data128_reads data rssi _ (ndx + 1) len _ (by omega) i hi2
                with h3 | h3
              · exact hbase i h3
              · right; omega
            · exact hbase i hi2
          · exact Or.inr hi2
    · exact ⟨st, by simp [handle_adv_report_loop, hlt], fun i hi => Or.inl hi⟩

/-- C24, the code on every input and at the failing input: `handle_adv_report`
returns after at most `len` iterations of the loop and reads no index greater
than `len`, but it does read the index `len`: for the report `[0]` of the
length 1 it reads `data[0]` as length octet and then `data[1]` as type octet,
and for a report of 4 octets that ends with the length octet 0 it reads
`data[4]`. -/
theorem handle_adv_report_reads_index_len :
    (∀ (data : List Byte) (len : Nat) (rssi : Int) (fifo : List gd_adv_data_t),
      ∃ st : ReportState, handle_adv_report data len rssi fifo = some st ∧
        ∀ i ∈ st.reads, i ≤ len) ∧
    (handle_adv_report [0, 7] 1 0 []).map (fun st => st.reads) = some [0, 1] ∧
    (handle_adv_report (ad_encode [[1, 6]] ++ [0, 7]) 4 0 []).map (fun st => st.reads)
      = some [0, 1, 3, 4] := by
  refine ⟨?_, by decide, by decide⟩
  intro data len rssi fifo
  obtain ⟨st, h1, h2⟩ := handle_adv_report_loop_reads data len rssi len 0 ⟨fifo, []⟩ (by omega)
  refine ⟨st, h1, ?_⟩
  intro i hi
  rcases h2 i hi with h | h
  · simp at h
  · exact h

/-! ### The critical regions of the main loop -/

theorem in_critical_regions_timer_now (as : List Access) :
    in_critical_regions 0 (timer_now_accesses ++ as) = in_critical_regions 0 as := by
  simp [timer_now_accesses, in_critical_regions]

theorem in_critical_regions_polls (n : Nat) (as : List Access) :
    in_critical_regions 0 ((List.replicate n timer_now_accesses).flatten ++ as)
      = in_critical_regions 0 as := by
  induction n with
  | zero => simp
  | succ n ih =>
    rw [List.replicate_succ, List.flatten_cons, List.append_assoc, in_critical_regions_timer_now, ih]

theorem in_critical_regions_delay (polls : Nat) (as : List Access) :
    in_critical_regions 0 (timer_delay_ms_accesses polls ++ as) = in_critical_regions 0 as := by
  rw [timer_delay_ms_accesses, List.append_assoc, in_critical_regions_timer_now,
    in_critical_regions_polls]

theorem in_critical_regions_delays (n polls : Nat) :
    in_critical_regions 0 (List.replicate n (timer_delay_ms_accesses polls)).flatten = true := by
  induction n with
  | zero => rfl
  | succ n ih => rw [List.replicate_succ, List.flatten_cons, in_critical_regions_delay, ih]

/-- C21, the code on every state and at the failing input: the accesses of
`handle_adv_data`, of `timer_now` and of the button dispatch of the main loop
all lie in critical regions, but the LED control of the main loop reads
`gd_learn_ctr` outside a critical region whenever `gd_is_learning()` returned
true: for a receiver in learn mode the accesses are the guarded read of
`gd_is_learning` followed by an unguarded read. -/
theorem main_led_reads_learn_ctr_unguarded :
    (∀ s : State, in_critical_regions 0 (main_led_accesses s) = !gd_is_learning s) ∧
    gd_is_learning ex_state_learn = true ∧
    main_led_accesses ex_state_learn
      = [.enter, .read .gd_learn_ctr, .exit, .read .gd_learn_ctr] ∧
    in_critical_regions 0 (main_led_accesses ex_state_learn) = false ∧
    (∀ (c : Crypto) (s : State) (ad : gd_adv_data_t),
      in_critical_regions 0 (handle_adv_data_accesses c s ad) = true) ∧
    (∀ (polls : Nat) (s : State), in_critical_regions 0 (main_button_accesses polls s) = true) ∧
    in_critical_regions 0 timer_now_accesses = true := by
  refine ⟨?_, by decide, by decide, by decide, ?_, ?_, by decide⟩
  · intro s
    unfold main_led_accesses
    cases gd_is_learning s <;> rfl
  · intro c s ad
    unfold handle_adv_data_accesses
    cases gd_is_rx_disabled s
    · cases gd_msg_check_digest c ad.uuid ad.msg
      · rfl
      · rcases gds_get_seq_no s.fds ad.uuid with ⟨_ | _, stored, f⟩
        · rfl
        · simp only [Bool.false_eq_true, ↓reduceIte, Bool.not_true]
          split <;> rfl
    · rfl
  · intro polls s
    unfold main_button_accesses gd_get_button_accesses gd_get_button
    cases s.gd_button_cmd
    · rfl
    · rfl
    · simp only [List.append_assoc, List.cons_append, List.nil_append, in_critical_regions,
        Nat.add_sub_cancel]
      simp only [gt_iff_lt, Nat.lt_add_one, decide_True, Bool.true_and]
      exact in_critical_regions_delays 60 polls
    · rfl

end GarageDoor
